import Mathlib

/-!
Bookmark manager: waterfall label layout and schedule evaluation.

A shallow embedding of `src/main.cpp` of the SDR++ bookmark manager module.

Modelling conventions.
* `float` and `double` quantities (frequencies, pixel coordinates, text sizes) are exact
  rationals `ℚ`: the layout only adds, subtracts, multiplies, halves, rounds and compares
  them, and rounding error is not modelled.
* `int` times are `Int`; row indices and the row setting `bookmarkRows` (an array index and
  an array size in the source) are `Nat`.
* `bool days[7]` is a function on `Fin 7`; the weekday is a `Fin 7`.
* What the source takes from its environment is a parameter: the text measure
  `ImGui::CalcTextSize`, the clock (`now`, `weekDay`), the pointer position and buttons.
* The draw list of the window is an output: the list of draw commands a frame issues.
* `std::map` with string keys and JSON objects are association lists kept in key order.
* JSON is modelled by the shape the code reads: a bookmark object has its three required
  numbers and five optional members, a list object has its flag, an optional colour and its
  bookmarks. A document on which the JSON library throws (a required member missing, a value
  of another type, a `days` array that is not seven booleans) is outside the model.
* A function in which the source can throw for a value inside the model returns an
  `Option`, `none` standing for the exception.
-/

namespace BookmarkManager

/-! ## Data model -/

/-- Two-dimensional point of the GUI toolkit. -/
structure ImVec2 where
  x : ℚ
  y : ℚ
deriving DecidableEq

/-- Packed colour of the GUI toolkit, kept as its four channels. -/
structure ImU32 where
  r : Nat
  g : Nat
  b : Nat
  a : Nat
deriving DecidableEq

/-- Channel-wise constructor of a colour. -/
def IM_COL32 (r g b a : Nat) : ImU32 := ⟨r, g, b, a⟩

/-- Record of one bookmark (`struct FrequencyBookmark`). -/
structure FrequencyBookmark where
  frequency : ℚ
  bandwidth : ℚ
  mode : Int
  selected : Bool
  startTime : Int
  endTime : Int
  days : Fin 7 → Bool
  notes : String
  geoinfo : String

/-- Bookmark as shown on the waterfall (`struct WaterfallBookmark`). -/
structure WaterfallBookmark where
  listName : String
  bookmarkName : String
  color : ImU32
  bookmark : FrequencyBookmark
  clampedRectMin : ImVec2
  clampedRectMax : ImVec2

/-- Horizontal span claimed on a row during one frame (`struct BookmarkRectangle`). -/
structure BookmarkRectangle where
  min : ℚ
  max : ℚ
  row : Nat
deriving DecidableEq

/-- Display mode: labels are not drawn. -/
def BOOKMARK_DISP_MODE_OFF : Int := 0
/-- Display mode: labels hang from the top edge. -/
def BOOKMARK_DISP_MODE_TOP : Int := 1
/-- Items of the "Rows of bookmarks" combo; the combo stores the index of the chosen item
in `bookmarkRows`. -/
def bookmarkRowsTxt : List String := ["1", "2", "3", "4", "5", "6", "7", "8", "9", "10"]

/-- Arguments of the redraw callback (`ImGui::WaterFall::FFTRedrawArgs`). -/
structure FFTRedrawArgs where
  min : ImVec2
  max : ImVec2
  lowFreq : ℚ
  highFreq : ℚ
  freqToPixelRatio : ℚ

/-- Draw commands a frame appends to the window draw list. -/
inductive DrawCmd where
  | AddRectFilled (pMin pMax : ImVec2) (col : ImU32)
  | AddLine (p1 p2 : ImVec2) (col : ImU32)
  | AddText (pos : ImVec2) (col : ImU32) (text : String)

/-- The fields of `BookmarkManagerModule` that the waterfall layout, the pointer input and
the import read and write. The map `bookmarks` of the active list is an association list
in key order; `selectedListId` indexes `listNames`. -/
structure BookmarkManagerModule where
  waterfallBookmarks : List WaterfallBookmark := []
  bookmarkDisplayMode : Int := 0
  bookmarkRows : Nat := 0
  bookmarkRectangle : Bool := false
  bookmarkCentered : Bool := false
  bookmarkNoClutter : Bool := false
  mouseAlreadyDown : Bool := false
  mouseClickedInLabel : Bool := false
  bookmarks : List (String × FrequencyBookmark) := []
  listNames : List String := []
  selectedListName : String := ""
  selectedListId : Nat := 0
  sortSpecsDirty : Bool := true
  scrollToClickedBookmark : Bool := false

/-! ## Schedule evaluation -/

/-- Source `bookmarkOnline`: is the bookmark on air at HHMM time `now` on `weekDay`. -/
def bookmarkOnline (bm : FrequencyBookmark) (now : Int) (weekDay : Fin 7) : Bool :=
  if !bm.days weekDay then
    false
  else if bm.startTime == 0 && bm.endTime == 0 then
    true
  else if bm.startTime < bm.endTime then
    decide (bm.startTime ≤ now) && decide (now < bm.endTime)
  else if bm.startTime > bm.endTime then
    (decide (bm.startTime ≤ now) && decide (now ≤ 2359))
      || (decide (bm.startTime ≥ 0) && decide (now ≤ bm.endTime))
  else
    false

/-! ## Label layout -/

/-- `std::round` on exact numbers: nearest integer, halves away from zero. -/
def round (x : ℚ) : ℚ :=
  if 0 ≤ x then ((⌊x + 1 / 2⌋ : Int) : ℚ) else ((⌈x - 1 / 2⌉ : Int) : ℚ)

/-- `std::clamp<double>(v, lo, hi)`. -/
def clamp (v lo hi : ℚ) : ℚ :=
  if v < lo then lo else if hi < v then hi else v

/-- The overlap test of the row scan and of the last-row clutter check, between the
candidate span `[bmMinX, bmMaxX]` and a recorded span `br`. -/
def overlaps (bmMinX bmMaxX : ℚ) (br : BookmarkRectangle) : Bool :=
  ((decide (bmMinX ≥ br.min) && decide (bmMinX ≤ br.max))
      || (decide (bmMaxX ≥ br.min) && decide (bmMaxX ≤ br.max)))
    || (decide (br.max ≤ bmMaxX) && decide (br.min ≥ bmMinX))

/-- The inner `for (auto const br : bookmarkRectangles[i])` loop with its `break`:
does some span recorded on row `i` overlap the candidate. -/
def foundOnrow (bookmarkRectangles : List (List BookmarkRectangle)) (i : Nat)
    (bmMinX bmMaxX : ℚ) : Bool :=
  (bookmarkRectangles.getD i []).any (overlaps bmMinX bmMaxX)

/-- The row scan `for (int i = 0; i < bookmarkRows; i++)`. `n` is the number of iterations
left (`bookmarkRows - i`), `i` the loop counter and `row` the current value of the
variable `row`; the result is the value of `row` after the loop. -/
def rowScan (bookmarkRectangles : List (List BookmarkRectangle)) (bmMinX bmMaxX : ℚ) :
    Nat → Nat → Nat → Nat
  | 0, _, row => row
  | n + 1, i, _ =>
    if foundOnrow bookmarkRectangles i bmMinX bmMaxX then
      rowScan bookmarkRectangles bmMinX bmMaxX n (i + 1) (i + 1)
    else
      i

/-- The pixel column of a bookmark: `centerXpos`. -/
def centerXpos (args : FFTRedrawArgs) (bm : WaterfallBookmark) : ℚ :=
  args.min.x + round ((bm.bookmark.frequency - args.lowFreq) * args.freqToPixelRatio)

/-- The frequency check that guards the body of the loop in `fftRedraw` and the hit test
in `fftInput`. -/
def inRange (lowFreq highFreq : ℚ) (bm : WaterfallBookmark) : Bool :=
  decide (bm.bookmark.frequency ≥ lowFreq) && decide (bm.bookmark.frequency ≤ highFreq)

/-- The unclamped horizontal span `(bmMinX, bmMaxX)` of a label of size `nameSize`. -/
def labelSpan (bookmarkCentered : Bool) (centerXpos : ℚ) (nameSize : ImVec2) : ℚ × ℚ :=
  if bookmarkCentered then
    (centerXpos - (nameSize.x / 2) - 5, centerXpos + (nameSize.x / 2) + 5)
  else
    (centerXpos - 5, centerXpos + nameSize.x + 5)

/-- Vertical placement: `rectMin` and `rectMax` of a label on `row`, or `none` where the
source leaves the iteration with `continue` because the label reaches the opposite edge.
The arithmetic is exact here; `labelRectFloat` makes the rounding of the `float` operations
explicit. -/
def labelRect (bookmarkDisplayMode : Int) (args : FFTRedrawArgs) (nameSize : ImVec2)
    (bmMinX bmMaxX : ℚ) (row : Nat) : Option (ImVec2 × ImVec2) :=
  if bookmarkDisplayMode == BOOKMARK_DISP_MODE_TOP then
    let bottomright := args.min.y + nameSize.y + (nameSize.y * row)
    if bottomright ≥ args.max.y then none
    else some (⟨bmMinX, args.min.y + (nameSize.y * row)⟩, ⟨bmMaxX, bottomright⟩)
  else
    let topleft := args.max.y - nameSize.y - (nameSize.y * row)
    if topleft ≤ args.min.y then none
    else some (⟨bmMinX, topleft⟩, ⟨bmMaxX, args.max.y - (nameSize.y * row)⟩)

/-- The draw commands of one placed label: optional filled rectangle, tether line, text. -/
def labelDraws (m : BookmarkManagerModule) (args : FFTRedrawArgs) (bm : WaterfallBookmark)
    (nameSize : ImVec2) (centerXpos bmMinX : ℚ) (row : Nat) (online : Bool)
    (clampedRectMin clampedRectMax : ImVec2) : List DrawCmd :=
  let bookmarkColor := if !online then IM_COL32 128 128 128 255 else bm.color
  let bookmarkTextColor := if m.bookmarkRectangle then IM_COL32 0 0 0 255 else bookmarkColor
  let rect :=
    if m.bookmarkRectangle then
      [DrawCmd.AddRectFilled clampedRectMin clampedRectMax bookmarkColor]
    else []
  let rest :=
    if m.bookmarkDisplayMode == BOOKMARK_DISP_MODE_TOP then
      DrawCmd.AddLine ⟨centerXpos, args.min.y + (nameSize.y * (row + 1))⟩
          ⟨centerXpos, args.max.y⟩ bookmarkColor ::
        (if m.bookmarkCentered then
          if centerXpos - (nameSize.x / 2) ≥ args.min.x
              ∧ centerXpos + (nameSize.x / 2) ≤ args.max.x then
            [DrawCmd.AddText ⟨centerXpos - (nameSize.x / 2), args.min.y + (nameSize.y * row)⟩
              bookmarkTextColor bm.bookmarkName]
          else []
        else
          if bmMinX + 6 ≥ args.min.x ∧ bmMinX + nameSize.x ≤ args.max.x then
            [DrawCmd.AddText ⟨bmMinX + 6, args.min.y + (nameSize.y * row)⟩
              bookmarkTextColor bm.bookmarkName]
          else [])
    else
      [DrawCmd.AddLine ⟨centerXpos, args.min.y⟩
          ⟨centerXpos, args.max.y - (nameSize.y * (row + 1))⟩ bookmarkColor,
        if m.bookmarkCentered then
          DrawCmd.AddText
            ⟨centerXpos - (nameSize.x / 2), args.max.y - nameSize.y - (nameSize.y * row)⟩
            bookmarkTextColor bm.bookmarkName
        else
          DrawCmd.AddText ⟨bmMinX + 6, args.max.y - nameSize.y - (nameSize.y * row)⟩
            bookmarkTextColor bm.bookmarkName]
  rect ++ rest

/-- What one iteration of the loop of `fftRedraw` produces when it places the label: the
bookmark with its new anchor rectangle, the span `br` pushed on the row, the drawing. -/
structure Placed where
  bm : WaterfallBookmark
  br : BookmarkRectangle
  draws : List DrawCmd

/-- One iteration of `for (auto &bm : waterfallBookmarks)` in `fftRedraw`, given the
occupancy lists so far. `none` when the iteration places nothing: the frequency is out of
range or one of the two `continue` statements is taken; the bookmark is then untouched. -/
def redrawBookmark (m : BookmarkManagerModule) (args : FFTRedrawArgs)
    (calcTextSize : String → ImVec2) (now : Int) (weekDay : Fin 7)
    (bookmarkRectangles : List (List BookmarkRectangle)) (bm : WaterfallBookmark) :
    Option Placed :=
  let cx := centerXpos args bm
  if inRange args.lowFreq args.highFreq bm then
    let nameSize := calcTextSize bm.bookmarkName
    let span := labelSpan m.bookmarkCentered cx nameSize
    let bmMinX := span.1
    let bmMaxX := span.2
    let row := rowScan bookmarkRectangles bmMinX bmMaxX m.bookmarkRows 0 0
    -- avoid clutter on the last row
    if row == m.bookmarkRows && m.bookmarkNoClutter
        && foundOnrow bookmarkRectangles row bmMinX bmMaxX then
      none
    else
      match labelRect m.bookmarkDisplayMode args nameSize bmMinX bmMaxX row with
      | none => none
      | some (rectMin, rectMax) =>
        let clampedRectMin : ImVec2 := ⟨clamp rectMin.x args.min.x args.max.x, rectMin.y⟩
        let clampedRectMax : ImVec2 := ⟨clamp rectMax.x args.min.x args.max.x, rectMax.y⟩
        some
          { bm := { bm with clampedRectMin := clampedRectMin, clampedRectMax := clampedRectMax }
            br := { min := bmMinX, max := bmMaxX, row := row }
            draws := labelDraws m args bm nameSize cx bmMinX row
              (bookmarkOnline bm.bookmark now weekDay) clampedRectMin clampedRectMax }
  else
    none

/-- The statement `bookmarkRectangles[row].push_back(br)`. -/
def pushBack (bookmarkRectangles : List (List BookmarkRectangle)) (br : BookmarkRectangle) :
    List (List BookmarkRectangle) :=
  bookmarkRectangles.set br.row (bookmarkRectangles.getD br.row [] ++ [br])

/-- Outcome of one frame of `fftRedraw`. -/
structure RedrawResult where
  /-- The bookmarks after the frame, anchor rectangles updated. -/
  waterfallBookmarks : List WaterfallBookmark
  /-- The local occupancy lists at the end of the frame. -/
  bookmarkRectangles : List (List BookmarkRectangle)
  /-- The draw commands issued, in order. -/
  drawList : List DrawCmd
  /-- For the k-th bookmark, the span `br` its iteration pushed, or `none` when the
  iteration placed nothing. -/
  placed : List (Option BookmarkRectangle)

/-- The loop `for (auto &bm : waterfallBookmarks)` of `fftRedraw`, from the occupancy lists
`bookmarkRectangles`. -/
def redrawLoop (m : BookmarkManagerModule) (args : FFTRedrawArgs)
    (calcTextSize : String → ImVec2) (now : Int) (weekDay : Fin 7) :
    List (List BookmarkRectangle) → List WaterfallBookmark → RedrawResult
  | bookmarkRectangles, [] =>
    { waterfallBookmarks := [], bookmarkRectangles := bookmarkRectangles, drawList := [],
      placed := [] }
  | bookmarkRectangles, bm :: rest =>
    match redrawBookmark m args calcTextSize now weekDay bookmarkRectangles bm with
    | none =>
      let r := redrawLoop m args calcTextSize now weekDay bookmarkRectangles rest
      { r with waterfallBookmarks := bm :: r.waterfallBookmarks, placed := none :: r.placed }
    | some p =>
      let r := redrawLoop m args calcTextSize now weekDay (pushBack bookmarkRectangles p.br) rest
      { r with waterfallBookmarks := p.bm :: r.waterfallBookmarks,
               drawList := p.draws ++ r.drawList,
               placed := some p.br :: r.placed }

/-- Source `fftRedraw`: one frame of the label layout. With the display mode off nothing
runs; otherwise the loop starts from `bookmarkRows + 1` empty occupancy lists. -/
def fftRedraw (m : BookmarkManagerModule) (args : FFTRedrawArgs)
    (calcTextSize : String → ImVec2) (now : Int) (weekDay : Fin 7) : RedrawResult :=
  if m.bookmarkDisplayMode == BOOKMARK_DISP_MODE_OFF then
    { waterfallBookmarks := m.waterfallBookmarks, bookmarkRectangles := [], drawList := [],
      placed := [] }
  else
    redrawLoop m args calcTextSize now weekDay (List.replicate (m.bookmarkRows + 1) [])
      m.waterfallBookmarks

/-- The module after a frame of `fftRedraw`: only the anchor rectangles change. -/
def afterRedraw (m : BookmarkManagerModule) (args : FFTRedrawArgs)
    (calcTextSize : String → ImVec2) (now : Int) (weekDay : Fin 7) : BookmarkManagerModule :=
  { m with waterfallBookmarks := (fftRedraw m args calcTextSize now weekDay).waterfallBookmarks }

/-! ## Vertical placement in `float` arithmetic -/

/-- Rounding to the nearest integer, ties to the even one. -/
def roundHalfEven (x : ℚ) : Int :=
  if x - ⌊x⌋ < 1 / 2 then ⌊x⌋
  else if 1 / 2 < x - ⌊x⌋ then ⌊x⌋ + 1
  else if ⌊x⌋ % 2 = 0 then ⌊x⌋
  else ⌊x⌋ + 1

/-- The result of an operation on `float` values whose exact result is `x`: the nearest
number with a 24-bit significand, ties to even, with the spacing of the subnormal numbers
below `2 ^ (-126)`. Overflow to infinity is not modelled. -/
def float32 (x : ℚ) : ℚ :=
  roundHalfEven (x / (2 : ℚ) ^ (max (Int.log 2 |x|) (-126) - 23))
    * (2 : ℚ) ^ (max (Int.log 2 |x|) (-126) - 23)

/-- Vertical placement as the source computes it: `args.min.y`, `args.max.y`, `nameSize.y`
and `(float)row` are `float` values and every operation on them is rounded, so the drop test
of top mode, on `(min.y + h) + h * row`, and the drop test of bottom mode, on
`(max.y - h) - h * row`, are two different `float` expressions. The x-coordinates, the same
in both modes, are kept exact. `none` where the source leaves the iteration with
`continue`. -/
def labelRectFloat (bookmarkDisplayMode : Int) (args : FFTRedrawArgs) (nameSize : ImVec2)
    (bmMinX bmMaxX : ℚ) (row : Nat) : Option (ImVec2 × ImVec2) :=
  if bookmarkDisplayMode == BOOKMARK_DISP_MODE_TOP then
    let bottomright := float32 (float32 (args.min.y + nameSize.y) + float32 (nameSize.y * row))
    if bottomright ≥ args.max.y then none
    else some (⟨bmMinX, float32 (args.min.y + float32 (nameSize.y * row))⟩,
      ⟨bmMaxX, bottomright⟩)
  else
    let topleft := float32 (float32 (args.max.y - nameSize.y) - float32 (nameSize.y * row))
    if topleft ≤ args.min.y then none
    else some (⟨bmMinX, topleft⟩,
      ⟨bmMaxX, float32 (args.max.y - float32 (nameSize.y * row))⟩)

/-- The toolkit test `ImGui::IsMouseHoveringRect(rMin, rMax)` for a pointer at `mousePos`,
taken without clipping and touch padding: `rMin ≤ mousePos < rMax` in both coordinates. -/
def isMouseHoveringRect (mousePos rMin rMax : ImVec2) : Bool :=
  decide (mousePos.x ≥ rMin.x) && decide (mousePos.y ≥ rMin.y)
    && decide (mousePos.x < rMax.x) && decide (mousePos.y < rMax.y)

/-- The hover loop of `fftInput`: the last in-range bookmark whose stored anchor rectangle
the pointer hovers, `none` when `inALabel` stays false. `hovering` is the toolkit test for
the current pointer. -/
def hitTest (hovering : ImVec2 → ImVec2 → Bool) (lowFreq highFreq : ℚ)
    (waterfallBookmarks : List WaterfallBookmark) : Option WaterfallBookmark :=
  waterfallBookmarks.foldl
    (fun hoveredBookmark bm =>
      if inRange lowFreq highFreq bm && hovering bm.clampedRectMin bm.clampedRectMax then
        some bm
      else
        hoveredBookmark)
    none

/-! ## Time validation -/

/-- Source `timeValid`: HHMM validity of a time. `/` and `%` of C++ truncate toward zero. -/
def timeValid (time : Int) : Bool :=
  let hours := time.tdiv 100
  let minutes := time.tmod 100
  decide (hours ≥ 0) && decide (hours ≤ 23) && decide (minutes ≥ 0) && decide (minutes ≤ 59)

/-! ## Maps with string keys -/

/-- Lookup `std::map::find` (and `json::contains`, `json::operator[]` on a present key). -/
def mapFind {α : Type} (key : String) : List (String × α) → Option α
  | [] => none
  | (k, v) :: rest => if k = key then some v else mapFind key rest

/-- Assignment `m[key] = value` on a map in key order: the value of a present key is
replaced, a new key is inserted at its place in the order of `std::less<std::string>`. -/
def mapAssign {α : Type} (key : String) (value : α) : List (String × α) → List (String × α)
  | [] => [(key, value)]
  | (k, v) :: rest =>
    if key = k then (key, value) :: rest
    else if key.toList < k.toList then (key, value) :: (k, v) :: rest
    else (k, v) :: mapAssign key value rest

/-! ## Persisted configuration and JSON documents -/

/-- The JSON object of one bookmark, in the configuration or in an import file: members
`frequency`, `bandwidth`, `mode`, and the optional `startTime`, `endTime`, `days`,
`geoinfo`, `notes` (`none`: the member is absent). -/
structure JsonBookmark where
  frequency : ℚ
  bandwidth : ℚ
  mode : Int
  startTime : Option Int := none
  endTime : Option Int := none
  days : Option (Fin 7 → Bool) := none
  geoinfo : Option String := none
  notes : Option String := none

/-- The JSON object of one list in `config.conf["lists"]`. -/
structure JsonList where
  showOnWaterfall : Bool
  color : Option String := none
  bookmarks : List (String × JsonBookmark) := []

/-- The part of the document `config.conf` that the modelled code reads and writes. -/
structure Config where
  selectedList : String := ""
  lists : List (String × JsonList) := []

/-- The value under the key `bookmarks` of an import file: a JSON object of bookmarks, or
some JSON value that is not an object. -/
inductive JsonBookmarks where
  | object (items : List (String × JsonBookmark))
  | notObject

/-- A parsed export or import file: `bookmarks` is `none` when the document has no member
`bookmarks`. -/
structure JsonDocument where
  bookmarks : Option JsonBookmarks := none

/-- A line written to the log by `flog::error`, `flog::warn` or `flog::info`, with the
argument of its format. -/
inductive LogLine where
  | error (text : String)
  | warn (format : String) (name : String)
  | info (format : String) (count : Nat)

/-! ## Loading a list -/

/-- The record reader in the loop of `loadByName`: absent optional members take their
defaults, `selected` is false. -/
def loadRecord (bm : JsonBookmark) : FrequencyBookmark :=
  { frequency := bm.frequency
    bandwidth := bm.bandwidth
    startTime := match bm.startTime with
      | some t => t
      | none => 0
    endTime := match bm.endTime with
      | some t => t
      | none => 0
    days := match bm.days with
      | some d => d
      | none => fun _ => true
    geoinfo := match bm.geoinfo with
      | some g => g
      | none => ""
    notes := match bm.notes with
      | some n => n
      | none => ""
    mode := bm.mode
    selected := false }

/-- The bookmarks object `config.conf["lists"][listName]["bookmarks"]`, empty when the
configuration has no such list. -/
def configBookmarks (config : Config) (listName : String) : List (String × JsonBookmark) :=
  match mapFind listName config.lists with
  | some list => list.bookmarks
  | none => []

/-- The part of `loadByName` after the list was found in `listNames`: the index and name
are stored and every bookmark of the list is read into the map `bookmarks`. -/
def loadFound (m : BookmarkManagerModule) (config : Config) (listName : String) :
    BookmarkManagerModule :=
  { m with
    selectedListId := m.listNames.indexOf listName
    selectedListName := listName
    bookmarks := (configBookmarks config listName).foldl
      (fun bookmarks item => mapAssign item.1 (loadRecord item.2) bookmarks) m.bookmarks }

/-- Source `loadFirst`. Its call `loadByName(listNames[0])` names a list that is in
`listNames`, so that call is written out: clear, mark the sort dirty, load. -/
def loadFirst (m : BookmarkManagerModule) (config : Config) : BookmarkManagerModule :=
  match m.listNames with
  | first :: _ => loadFound { m with bookmarks := [], sortSpecsDirty := true } config first
  | [] => { m with selectedListName := "", selectedListId := 0 }

/-- Source `loadByName`. -/
def loadByName (m : BookmarkManagerModule) (config : Config) (listName : String) :
    BookmarkManagerModule :=
  let cleared := { m with bookmarks := [], sortSpecsDirty := true }
  if listName ∉ m.listNames then
    loadFirst { cleared with selectedListName := "", selectedListId := 0 } config
  else
    loadFound cleared config listName

/-! ## Pointer input -/

/-- Arguments of the input callback (`ImGui::WaterFall::InputHandlerArgs`) that the
handler reads. -/
structure InputHandlerArgs where
  lowFreq : ℚ
  highFreq : ℚ

/-- What one frame of `fftInput` reads from the toolkit and the waterfall: the state of the
left button (`ImGui::IsMouseDown`, `ImGui::IsMouseClicked`), the hover test for the current
pointer position, and `gui::waterfall.selectedVFO`. -/
structure PointerInput where
  isMouseDown : Bool
  isMouseClicked : Bool
  isMouseHoveringRect : ImVec2 → ImVec2 → Bool
  selectedVFO : String

/-- Outcome of one frame of `fftInput`. -/
structure InputResult where
  /-- The module after the frame. -/
  mod : BookmarkManagerModule
  /-- The configuration after the frame. -/
  config : Config
  /-- Whether the frame set `gui::waterfall.inputHandled = true`. -/
  inputHandled : Bool
  /-- The call `applyBookmark(bookmark, vfoName)` the frame made, if it made one. -/
  applied : Option (FrequencyBookmark × String)
  /-- The entry whose tooltip the frame showed, if it showed one. -/
  tooltip : Option WaterfallBookmark

/-- The click handling of `fftInput` after `applyBookmark`: switch to the list of the
clicked entry when it is not the active one, select the bookmark of that name and deselect
the others, ask for the scroll. -/
def clickLabel (m : BookmarkManagerModule) (config : Config)
    (hoveredBookmark : WaterfallBookmark) : BookmarkManagerModule × Config :=
  let switched : BookmarkManagerModule × Config :=
    if hoveredBookmark.listName != m.selectedListName then
      ({ loadByName m config hoveredBookmark.listName with
          selectedListName := hoveredBookmark.listName },
        { config with selectedList := hoveredBookmark.listName })
    else
      (m, config)
  ({ switched.1 with
      bookmarks := switched.1.bookmarks.map
        (fun item => (item.1, { item.2 with selected := item.1 == hoveredBookmark.bookmarkName }))
      scrollToClickedBookmark := true },
    switched.2)

/-- Source `fftInput`: one frame of the pointer router. -/
def fftInput (m : BookmarkManagerModule) (config : Config) (args : InputHandlerArgs)
    (io : PointerInput) : InputResult :=
  if m.bookmarkDisplayMode == BOOKMARK_DISP_MODE_OFF then
    { mod := m, config := config, inputHandled := false, applied := none, tooltip := none }
  else if m.mouseClickedInLabel then
    { mod := if !io.isMouseDown then { m with mouseClickedInLabel := false } else m
      config := config, inputHandled := true, applied := none, tooltip := none }
  else
    -- First check that the mouse clicked outside of any label
    let hovered := hitTest io.isMouseHoveringRect args.lowFreq args.highFreq m.waterfallBookmarks
    let inALabel := hovered.isSome
    -- Check if mouse was already down
    let m1 := if io.isMouseClicked && !inALabel then { m with mouseAlreadyDown := true } else m
    let m2 :=
      if !io.isMouseDown then { m1 with mouseAlreadyDown := false, mouseClickedInLabel := false }
      else m1
    match hovered with
    | none =>
      { mod := m2, config := config, inputHandled := false, applied := none, tooltip := none }
    | some hoveredBookmark =>
      -- If yes, cancel
      if m2.mouseAlreadyDown then
        { mod := m2, config := config, inputHandled := false, applied := none, tooltip := none }
      else if io.isMouseClicked then
        let clicked := clickLabel { m2 with mouseClickedInLabel := true } config hoveredBookmark
        { mod := clicked.1, config := clicked.2, inputHandled := true
          applied := some (hoveredBookmark.bookmark, io.selectedVFO)
          tooltip := some hoveredBookmark }
      else
        { mod := m2, config := config, inputHandled := true, applied := none
          tooltip := some hoveredBookmark }

/-- A sequence of frames of `fftInput`, each on the module and configuration the frame
before it left; the result lists the outcome of every frame. -/
def fftInputFrames (m : BookmarkManagerModule) (config : Config) :
    List (InputHandlerArgs × PointerInput) → List InputResult
  | [] => []
  | frame :: rest =>
    fftInput m config frame.1 frame.2 ::
      fftInputFrames (fftInput m config frame.1 frame.2).mod
        (fftInput m config frame.1 frame.2).config rest

/-! ## Waterfall bookmarks from the configuration -/

/-- The test `isxdigit` together with the value of the hexadecimal digit. -/
def hexDigit (c : Char) : Option Nat :=
  if '0' ≤ c ∧ c ≤ '9' then some (c.toNat - '0'.toNat)
  else if 'a' ≤ c ∧ c ≤ 'f' then some (c.toNat - 'a'.toNat + 10)
  else if 'A' ≤ c ∧ c ≤ 'F' then some (c.toNat - 'A'.toNat + 10)
  else none

/-- The call `std::stoi(col.substr(pos, 2), NULL, 16)` on a string whose characters after
the first are hexadecimal digits. `none` where the source throws: `substr` when `pos` is
beyond the end, `stoi` when no digit is left at `pos`. -/
def stoiHexAt (col : List Char) (pos : Nat) : Option Nat :=
  match (col.drop pos).take 2 with
  | [] => none
  | digits => some (digits.foldl (fun n c => 16 * n + (hexDigit c).getD 0) 0)

/-- Source `hexStrToColor`: the colour of `#RRGGBB`, yellow for a string that is not `#`
followed by hexadecimal digits only; `none` where `substr` or `stoi` throws. -/
def hexStrToColor (col : String) : Option ImU32 :=
  if col.toList.head? = some '#' ∧ (col.toList.drop 1).all (fun c => (hexDigit c).isSome) then
    match stoiHexAt col.toList 1, stoiHexAt col.toList 3, stoiHexAt col.toList 5 with
    | some r, some g, some b => some (IM_COL32 r g b 255)
    | _, _, _ => none
  else
    some (IM_COL32 255 255 0 255)

/-- The record reader in the loop of `refreshWaterfallBookmarks`. -/
def waterfallRecord (bm : JsonBookmark) : FrequencyBookmark :=
  { frequency := bm.frequency
    bandwidth := bm.bandwidth
    startTime := match bm.startTime with
      | some t => t
      | none => 0
    endTime := match bm.endTime with
      | some t => t
      | none => 0
    days := match bm.days with
      | some d => d
      | none => fun _ => true
    geoinfo := match bm.geoinfo with
      | some g => g
      | none => ""
    notes := match bm.notes with
      | some n => n
      | none => ""
    mode := bm.mode
    selected := false }

/-- The colour of a list in `refreshWaterfallBookmarks`: yellow, or the parsed member
`color` when the list has one. -/
def listColor (list : JsonList) : Option ImU32 :=
  match list.color with
  | some col => hexStrToColor col
  | none => some (IM_COL32 255 255 0 255)

/-- The inner loop of `refreshWaterfallBookmarks`: one waterfall bookmark for each bookmark
of a shown list, tagged with the list name and colour, the anchor rectangle unset. -/
def listWaterfallBookmarks (listName : String) (list : JsonList) (color : ImU32) :
    List WaterfallBookmark :=
  list.bookmarks.map (fun item =>
    { listName := listName, bookmarkName := item.1, color := color
      bookmark := waterfallRecord item.2
      clampedRectMin := ⟨-1, -1⟩, clampedRectMax := ⟨-1, -1⟩ })

/-- The outer loop of `refreshWaterfallBookmarks` over the lists of the configuration,
before the sort. -/
def collectWaterfallBookmarks : List (String × JsonList) → Option (List WaterfallBookmark)
  | [] => some []
  | (listName, list) :: rest =>
    if !list.showOnWaterfall then collectWaterfallBookmarks rest
    else
      match listColor list with
      | none => none
      | some color =>
        match collectWaterfallBookmarks rest with
        | none => none
        | some tail => some (listWaterfallBookmarks listName list color ++ tail)

/-- Source `compareWaterfallBookmarks` decides the order of `std::sort`; the sorted vector
is modelled by an insertion sort on the frequency, which fixes the order among bookmarks of
equal frequency that `std::sort` leaves open. -/
def sortWaterfallBookmarks (waterfallBookmarks : List WaterfallBookmark) :
    List WaterfallBookmark :=
  waterfallBookmarks.insertionSort (fun a b => a.bookmark.frequency ≤ b.bookmark.frequency)

/-- Source `refreshWaterfallBookmarks`: the new value of `waterfallBookmarks`. -/
def refreshWaterfallBookmarks (config : Config) : Option (List WaterfallBookmark) :=
  match collectWaterfallBookmarks config.lists with
  | none => none
  | some collected => some (sortWaterfallBookmarks collected)

/-! ## Saving, exporting and importing -/

/-- The JSON object `saveByName` writes for a bookmark: every member but `selected`. -/
def toJsonBookmark (bm : FrequencyBookmark) : JsonBookmark :=
  { frequency := bm.frequency
    bandwidth := bm.bandwidth
    startTime := some bm.startTime
    endTime := some bm.endTime
    days := some bm.days
    geoinfo := some bm.geoinfo
    notes := some bm.notes
    mode := bm.mode }

/-- Source `saveByName`: the bookmarks object of the list is rebuilt from the map
`bookmarks`, the waterfall bookmarks are refreshed, the sort is marked dirty. When the
configuration has no list of that name the source creates a list object without
`showOnWaterfall`, on which the refresh throws. -/
def saveByName (m : BookmarkManagerModule) (config : Config) (listName : String) :
    Option (BookmarkManagerModule × Config) :=
  match mapFind listName config.lists with
  | none => none
  | some list =>
    let saved : Config :=
      { config with
        lists := mapAssign listName
          { list with
            bookmarks := m.bookmarks.foldl
              (fun object item => mapAssign item.1 (toJsonBookmark item.2) object) [] }
          config.lists }
    match refreshWaterfallBookmarks saved with
    | none => none
    | some refreshed =>
      some ({ m with waterfallBookmarks := refreshed, sortSpecsDirty := true }, saved)

/-- The names of the selected bookmarks, as `menuHandler` collects them each frame. -/
def selectedNames (m : BookmarkManagerModule) : List String :=
  (m.bookmarks.filter (fun item => item.2.selected)).map Prod.fst

/-- The Export button of `menuHandler`: the document `exportedBookmarks`, holding under
`bookmarks` the persisted object of every selected bookmark of the active list. With no
bookmark selected the document has no member `bookmarks`. A selected name without a
persisted object, for which the source stores `null`, is outside the model and skipped.
The document is written to the file by `exportBookmarks` and read back by
`importBookmarks` as it is. -/
def exportSelected (m : BookmarkManagerModule) (config : Config) : JsonDocument :=
  match selectedNames m with
  | [] => { bookmarks := none }
  | names =>
    { bookmarks := some (JsonBookmarks.object
        (names.foldl
          (fun object name =>
            match mapFind name (configBookmarks config m.selectedListName) with
            | some bm => mapAssign name bm object
            | none => object)
          [])) }

/-- The record reader in the loop of `importBookmarks`. -/
def importRecord (bm : JsonBookmark) : FrequencyBookmark :=
  { frequency := bm.frequency
    bandwidth := bm.bandwidth
    startTime := match bm.startTime with
      | some t => t
      | none => 0
    endTime := match bm.endTime with
      | some t => t
      | none => 0
    days := match bm.days with
      | some d => d
      | none => fun _ => true
    geoinfo := match bm.geoinfo with
      | some g => g
      | none => ""
    notes := match bm.notes with
      | some n => n
      | none => ""
    mode := bm.mode
    selected := false }

/-- The variables of the loop of `importBookmarks`. -/
structure ImportState where
  bookmarks : List (String × FrequencyBookmark)
  imported_entries : Nat
  log : List LogLine

/-- One iteration of the loop of `importBookmarks`: a name already in the list is skipped
with a warning, another one is read, inserted and counted. -/
def importEntry (st : ImportState) (item : String × JsonBookmark) : ImportState :=
  if (mapFind item.1 st.bookmarks).isSome then
    { st with
      log := st.log ++
        [LogLine.warn "Bookmark with the name '{0}' already exists in list, skipping" item.1] }
  else
    { st with
      bookmarks := mapAssign item.1 (importRecord item.2) st.bookmarks
      imported_entries := st.imported_entries + 1 }

/-- Outcome of `importBookmarks`. -/
structure ImportResult where
  /-- The module after the import. -/
  mod : BookmarkManagerModule
  /-- The configuration after the import. -/
  config : Config
  /-- The lines logged, in order. -/
  log : List LogLine

/-- Source `importBookmarks` on the parsed file `importBookmarks`. -/
def importBookmarks (m : BookmarkManagerModule) (config : Config) (document : JsonDocument) :
    Option ImportResult :=
  match document.bookmarks with
  | none =>
    some { mod := m, config := config
           log := [LogLine.error "File does not contains any bookmarks"] }
  | some JsonBookmarks.notObject =>
    some { mod := m, config := config, log := [LogLine.error "Bookmark attribute is invalid"] }
  | some (JsonBookmarks.object items) =>
    let st := items.foldl importEntry
      { bookmarks := m.bookmarks, imported_entries := 0, log := [] }
    match saveByName { m with bookmarks := st.bookmarks } config m.selectedListName with
    | none => none
    | some saved =>
      some { mod := saved.1, config := saved.2
             log := st.log ++ [LogLine.info "Imported {0} entries" st.imported_entries] }

/-! ## Applying a bookmark -/

/-- A call `applyBookmark` makes on the waterfall, the module interface registry or the
tuner. -/
inductive TuningCall where
  /-- The call `gui::waterfall.setCenterFrequency(frequency)`, followed by
  `centerFreqMoved = true`. -/
  | setCenterFrequency (frequency : ℚ)
  /-- The call `callInterface(vfoName, RADIO_IFACE_CMD_SET_MODE, &mode, NULL)`. -/
  | setMode (vfoName : String) (mode : Int)
  /-- The call `callInterface(vfoName, RADIO_IFACE_CMD_SET_BANDWIDTH, &bandwidth, NULL)`. -/
  | setBandwidth (vfoName : String) (bandwidth : ℚ)
  /-- The call `tuner::tune(tuner::TUNER_MODE_NORMAL, vfoName, frequency)`. -/
  | tune (vfoName : String) (frequency : ℚ)

/-- What `applyBookmark` asks of `core::modComManager`. -/
structure ModComManager where
  interfaceExists : String → Bool
  getModuleName : String → String

/-- Source `applyBookmark`: the calls it makes, in order. The bandwidth, narrowed to
`float` in the source, is kept exact. -/
def applyBookmark (modComManager : ModComManager) (bm : FrequencyBookmark)
    (vfoName : String) : List TuningCall :=
  if vfoName == "" then
    [TuningCall.setCenterFrequency bm.frequency]
  else
    (if modComManager.interfaceExists vfoName then
      if modComManager.getModuleName vfoName == "radio" then
        [TuningCall.setMode vfoName bm.mode, TuningCall.setBandwidth vfoName bm.bandwidth]
      else []
    else [])
      ++ [TuningCall.tune vfoName bm.frequency]

/-! ## Lists of the configuration -/

/-- The call `erase(key)` on a map. -/
def mapErase {α : Type} (key : String) : List (String × α) → List (String × α)
  | [] => []
  | (k, v) :: rest => if k = key then rest else (k, v) :: mapErase key rest

/-- Source `refreshLists`: `listNames` becomes the names of the lists of the configuration,
in key order. The text `listNamesTxt` of the combo is not modelled. -/
def refreshLists (m : BookmarkManagerModule) (config : Config) : BookmarkManagerModule :=
  { m with listNames := config.lists.map Prod.fst, sortSpecsDirty := true }

/-- `std::clamp<int>(v, lo, hi)`. -/
def clampInt (v lo hi : Int) : Int :=
  if v < lo then lo else if hi < v then hi else v

/-- How the confirmed deletion of the active list ends. -/
inductive DeleteOutcome where
  /-- The handler returned with this module and configuration. -/
  | done (m : BookmarkManagerModule) (config : Config)
  /-- The handler reached `listNames[selectedListId]` with the index beyond the end, in this
  module and configuration. -/
  | outOfRange (m : BookmarkManagerModule) (config : Config)
  /-- The refresh of the waterfall bookmarks threw. -/
  | thrown

/-- The list delete confirmation of `menuHandler` answered with Yes. -/
def deleteListConfirmed (m : BookmarkManagerModule) (config : Config) : DeleteOutcome :=
  let erased : Config := { config with lists := mapErase m.selectedListName config.lists }
  match refreshWaterfallBookmarks erased with
  | none => DeleteOutcome.thrown
  | some refreshed =>
    let m1 := refreshLists { m with waterfallBookmarks := refreshed } erased
    let m2 : BookmarkManagerModule :=
      { m1 with
        selectedListId := (clampInt m1.selectedListId 0 m1.listNames.length).toNat }
    if m2.listNames.length > 0 then
      match m2.listNames[m2.selectedListId]? with
      | some listName => DeleteOutcome.done (loadByName m2 erased listName) erased
      | none => DeleteOutcome.outOfRange m2 erased
    else
      DeleteOutcome.done { m2 with selectedListName := "" } erased

/-! ## Bookmark and list dialogs -/

/-- Four-component vector of the GUI toolkit, here a colour with channels in `[0, 1]`. -/
structure ImVec4 where
  x : ℚ
  y : ℚ
  z : ℚ
  w : ℚ

/-- The fields of `BookmarkManagerModule` that the bookmark dialog and the list dialog read
and write. -/
structure BookmarkManagerDialogs where
  createOpen : Bool := false
  editOpen : Bool := false
  newListOpen : Bool := false
  renameListOpen : Bool := false
  editedBookmarkName : String := ""
  firstEditedBookmarkName : String := ""
  editedBookmark : FrequencyBookmark
  editedListName : String := ""
  firstEditedListName : String := ""
  editedListColor : ImVec4

/-- The search for a new unique default name of the Add and `+` buttons: `base` when it is
free, else the first free `base (i)` for `i` from 1 to 999, else `base (999)`, the content
of the buffer when the loop ends without `break`. -/
def newUniqueName (taken : String → Bool) (base : String) : String :=
  if !taken base then base
  else
    match (List.range' 1 999).find? (fun i => !taken (base ++ " (" ++ toString i ++ ")")) with
    | some i => base ++ " (" ++ toString i ++ ")"
    | none => base ++ " (999)"

/-- What the Add button reads from the waterfall, the VFO manager and the module registry:
`selectedVFO`, `getCenterFrequency()`, and for the selected VFO `getOffset`,
`getBandwidth`, `getModuleName` and the mode answered to `RADIO_IFACE_CMD_GET_MODE`. -/
structure AddButtonInput where
  selectedVFO : String
  centerFrequency : ℚ
  offset : ℚ
  bandwidth : ℚ
  moduleName : String
  mode : Int

/-- A click on the Add button of `menuHandler`. The button is disabled while no list is
active. -/
def addButton (m : BookmarkManagerModule) (d : BookmarkManagerDialogs)
    (env : AddButtonInput) : BookmarkManagerDialogs :=
  if m.selectedListName == "" then d
  else
    { d with
      editedBookmark :=
        { frequency :=
            if env.selectedVFO == "" then env.centerFrequency
            else env.centerFrequency + env.offset
          bandwidth := if env.selectedVFO == "" then 0 else env.bandwidth
          mode :=
            if env.selectedVFO == "" then 7
            else if env.moduleName == "radio" then env.mode
            else 7
          startTime := 0
          endTime := 0
          days := fun _ => true
          geoinfo := ""
          notes := ""
          selected := false }
      createOpen := true
      editedBookmarkName :=
        newUniqueName (fun name => (mapFind name m.bookmarks).isSome) "New Bookmark" }

/-- A click on the Edit button of `menuHandler`. The button is disabled while no list is
active or the number of selected bookmarks is not one. -/
def editButton (m : BookmarkManagerModule) (d : BookmarkManagerDialogs) :
    BookmarkManagerDialogs :=
  if m.selectedListName == "" then d
  else
    match selectedNames m with
    | [name] =>
      match mapFind name m.bookmarks with
      | some bm =>
        { d with
          editOpen := true
          editedBookmark := bm
          editedBookmarkName := name
          firstEditedBookmarkName := name }
      | none => d
    | _ => d

/-- What the user does in one frame of the bookmark dialog: the new content of a field that
was edited (`none`: not edited), and the buttons clicked. -/
structure EditDialogInput where
  name : Option String := none
  frequency : Option ℚ := none
  bandwidth : Option ℚ := none
  startTime : Option Int := none
  endTime : Option Int := none
  days : Option (Fin 7 → Bool) := none
  mode : Option Int := none
  geoinfo : Option String := none
  notes : Option String := none
  apply : Bool := false
  cancel : Bool := false

/-- The widgets of the bookmark dialog: every edited field is stored. -/
def editFields (d : BookmarkManagerDialogs) (input : EditDialogInput) :
    BookmarkManagerDialogs :=
  { d with
    editedBookmarkName := input.name.getD d.editedBookmarkName
    editedBookmark :=
      { d.editedBookmark with
        frequency := input.frequency.getD d.editedBookmark.frequency
        bandwidth := input.bandwidth.getD d.editedBookmark.bandwidth
        startTime := input.startTime.getD d.editedBookmark.startTime
        endTime := input.endTime.getD d.editedBookmark.endTime
        days := input.days.getD d.editedBookmark.days
        mode := input.mode.getD d.editedBookmark.mode
        geoinfo := input.geoinfo.getD d.editedBookmark.geoinfo
        notes := input.notes.getD d.editedBookmark.notes } }

/-- The local `applyDisabled` of `bookmarkEditDialog`; the buffer `nameBuf` holds the
edited name. -/
def applyDisabled (m : BookmarkManagerModule) (d : BookmarkManagerDialogs) : Bool :=
  d.editedBookmarkName.length == 0
    || ((mapFind d.editedBookmarkName m.bookmarks).isSome
      && d.editedBookmarkName != d.firstEditedBookmarkName)
    || !timeValid d.editedBookmark.startTime
    || !timeValid d.editedBookmark.endTime

/-- Outcome of one frame of a dialog. -/
structure DialogResult where
  /-- The value the dialog returns: whether it stays open. -/
  isOpen : Bool
  /-- The module after the frame. -/
  mod : BookmarkManagerModule
  /-- The dialog fields after the frame. -/
  dialogs : BookmarkManagerDialogs
  /-- The configuration after the frame. -/
  config : Config

/-- Source `bookmarkEditDialog`: one frame of the popup. A disabled Apply button does not
answer a click. -/
def bookmarkEditDialog (m : BookmarkManagerModule) (d : BookmarkManagerDialogs)
    (config : Config) (input : EditDialogInput) : Option DialogResult :=
  let d1 := editFields d input
  if input.apply && !applyDisabled m d1 then
    -- If editing, delete the original one
    let kept := if d1.editOpen then mapErase d1.firstEditedBookmarkName m.bookmarks
      else m.bookmarks
    let m1 : BookmarkManagerModule :=
      { m with bookmarks := mapAssign d1.editedBookmarkName d1.editedBookmark kept }
    match saveByName m1 config m1.selectedListName with
    | none => none
    | some saved => some { isOpen := false, mod := saved.1, dialogs := d1, config := saved.2 }
  else if input.cancel then
    some { isOpen := false, mod := m, dialogs := d1, config := config }
  else
    some { isOpen := true, mod := m, dialogs := d1, config := config }

/-- The lines `if (createOpen) { createOpen = bookmarkEditDialog(); }` of `menuHandler`. -/
def createDialogFrame (m : BookmarkManagerModule) (d : BookmarkManagerDialogs)
    (config : Config) (input : EditDialogInput) : Option DialogResult :=
  if d.createOpen then
    match bookmarkEditDialog m d config input with
    | none => none
    | some r => some { r with dialogs := { r.dialogs with createOpen := r.isOpen } }
  else
    some { isOpen := false, mod := m, dialogs := d, config := config }

/-- The lines `if (editOpen) { editOpen = bookmarkEditDialog(); }` of `menuHandler`. -/
def editDialogFrame (m : BookmarkManagerModule) (d : BookmarkManagerDialogs)
    (config : Config) (input : EditDialogInput) : Option DialogResult :=
  if d.editOpen then
    match bookmarkEditDialog m d config input with
    | none => none
    | some r => some { r with dialogs := { r.dialogs with editOpen := r.isOpen } }
  else
    some { isOpen := false, mod := m, dialogs := d, config := config }

/-- Source `color32ToVec4`: the channels of a packed colour scaled to `[0, 1]`. -/
def color32ToVec4 (col : ImU32) : ImVec4 :=
  { x := ((col.r % 256 : Nat) : ℚ) * (1 / 255)
    y := ((col.g % 256 : Nat) : ℚ) * (1 / 255)
    z := ((col.b % 256 : Nat) : ℚ) * (1 / 255)
    w := ((col.a % 256 : Nat) : ℚ) * (1 / 255) }

/-- The conversion `(int)` of a number: truncation toward zero. -/
def toInt (x : ℚ) : Int :=
  if 0 ≤ x then ⌊x⌋ else ⌈x⌉

/-- The conversion `%02X` of `sprintf`: upper-case hexadecimal digits of the value taken as
`unsigned int`, padded with zeros to two digits. -/
def formatHex2 (n : Int) : String :=
  let digits := (Nat.toDigits 16 (n % 4294967296).toNat).map Char.toUpper
  String.mk (List.replicate (2 - digits.length) '0' ++ digits)

/-- The text `sprintf(buf, "#%02X%02X%02X", ...)` of `newListDialog` for the edited
colour. -/
def formatColor (c : ImVec4) : String :=
  "#" ++ formatHex2 (toInt (round (c.x * 255))) ++ formatHex2 (toInt (round (c.y * 255)))
    ++ formatHex2 (toInt (round (c.z * 255)))

/-- A click on the Rename button of `menuHandler`: `none` when `listNames[selectedListId]`
is beyond the end or `hexStrToColor` throws. The button is disabled while there is no list.
A name of `listNames` that is no list of the configuration, for which the source adds a
`null` list, gets the default colour here. -/
def renameButton (m : BookmarkManagerModule) (d : BookmarkManagerDialogs) (config : Config) :
    Option BookmarkManagerDialogs :=
  if m.listNames.length == 0 then some d
  else
    match m.listNames[m.selectedListId]? with
    | none => none
    | some first =>
      let color : Option ImVec4 :=
        match mapFind first config.lists with
        | some list =>
          match list.color with
          | some col =>
            match hexStrToColor col with
            | some c => some (color32ToVec4 c)
            | none => none
          | none => some ⟨1, 1, 0, 1⟩
        | none => some ⟨1, 1, 0, 1⟩
      match color with
      | none => none
      | some c =>
        some { d with
               firstEditedListName := first
               editedListName := first
               renameListOpen := true
               editedListColor := c }

/-- A click on the `+` button of `menuHandler`. -/
def newListButton (m : BookmarkManagerModule) (d : BookmarkManagerDialogs) :
    BookmarkManagerDialogs :=
  { d with
    editedListName := newUniqueName (fun name => decide (name ∈ m.listNames)) "New List"
    newListOpen := true
    editedListColor := ⟨1, 1, 0, 1⟩ }

/-- What the user does in one frame of the list dialog: the new name when it was edited,
the three channels picked when the colour was edited, and the buttons clicked. -/
structure ListDialogInput where
  name : Option String := none
  color : Option (ℚ × ℚ × ℚ) := none
  apply : Bool := false
  cancel : Bool := false

/-- The widgets of the list dialog: an edited name or colour is stored. -/
def editListFields (d : BookmarkManagerDialogs) (input : ListDialogInput) :
    BookmarkManagerDialogs :=
  { d with
    editedListName := input.name.getD d.editedListName
    editedListColor :=
      match input.color with
      | some c => { d.editedListColor with x := c.1, y := c.2.1, z := c.2.2 }
      | none => d.editedListColor }

/-- The local `alreadyExists` of `newListDialog`; the buffer `nameBuf` holds the edited
name. -/
def alreadyExists (m : BookmarkManagerModule) (d : BookmarkManagerDialogs) : Bool :=
  decide (d.editedListName ∈ m.listNames) && d.firstEditedListName != d.editedListName

/-- The lists of the configuration after the Apply of `newListDialog`, before the colour is
written: a rename moves the list to the new name, a creation sets `showOnWaterfall` and an
empty `bookmarks` under the edited name. `none` when the list to rename is no list of the
configuration: the source then leaves a list without `showOnWaterfall`, on which the refresh
throws. -/
def appliedLists (d : BookmarkManagerDialogs) (lists : List (String × JsonList)) :
    Option (List (String × JsonList)) :=
  if d.renameListOpen then
    if d.firstEditedListName != d.editedListName then
      match mapFind d.firstEditedListName lists with
      | some list =>
        some (mapErase d.firstEditedListName (mapAssign d.editedListName list lists))
      | none => none
    else
      match mapFind d.editedListName lists with
      | some _ => some lists
      | none => none
  else
    some (mapAssign d.editedListName
      (match mapFind d.editedListName lists with
        | some list => { list with showOnWaterfall := true, bookmarks := [] }
        | none => { showOnWaterfall := true, bookmarks := [] })
      lists)

/-- Source `newListDialog`: one frame of the popup, used to create and to rename a list. A
disabled Apply button does not answer a click. -/
def newListDialog (m : BookmarkManagerModule) (d : BookmarkManagerDialogs) (config : Config)
    (input : ListDialogInput) : Option DialogResult :=
  let d1 := editListFields d input
  if input.apply && !(d1.editedListName.length == 0 || alreadyExists m d1) then
    match appliedLists d1 config.lists with
    | none => none
    | some lists =>
      match mapFind d1.editedListName lists with
      | none => none
      | some list =>
        let written : Config :=
          { config with
            lists := mapAssign d1.editedListName
              { list with color := some (formatColor d1.editedListColor) } lists }
        match refreshWaterfallBookmarks written with
        | none => none
        | some refreshed =>
          some { isOpen := false
                 mod := loadByName
                   (refreshLists { m with waterfallBookmarks := refreshed } written) written
                   d1.editedListName
                 dialogs := d1
                 config := written }
  else if input.cancel then
    some { isOpen := false, mod := m, dialogs := d1, config := config }
  else
    some { isOpen := true, mod := m, dialogs := d1, config := config }

/-- The lines `if (newListOpen) { newListOpen = newListDialog(); }` of `menuHandler`. -/
def newListFrame (m : BookmarkManagerModule) (d : BookmarkManagerDialogs) (config : Config)
    (input : ListDialogInput) : Option DialogResult :=
  if d.newListOpen then
    match newListDialog m d config input with
    | none => none
    | some r => some { r with dialogs := { r.dialogs with newListOpen := r.isOpen } }
  else
    some { isOpen := false, mod := m, dialogs := d, config := config }

/-- The lines `if (renameListOpen) { renameListOpen = newListDialog(); }` of
`menuHandler`. -/
def renameListFrame (m : BookmarkManagerModule) (d : BookmarkManagerDialogs)
    (config : Config) (input : ListDialogInput) : Option DialogResult :=
  if d.renameListOpen then
    match newListDialog m d config input with
    | none => none
    | some r => some { r with dialogs := { r.dialogs with renameListOpen := r.isOpen } }
  else
    some { isOpen := false, mod := m, dialogs := d, config := config }

/-! ## Auxiliary definitions for the statements and proofs -/

/-- The occupancy lists after one iteration of the loop of `fftRedraw`. -/
def stepOcc (m : BookmarkManagerModule) (args : FFTRedrawArgs)
    (calcTextSize : String → ImVec2) (now : Int) (weekDay : Fin 7)
    (bookmarkRectangles : List (List BookmarkRectangle)) (bm : WaterfallBookmark) :
    List (List BookmarkRectangle) :=
  match redrawBookmark m args calcTextSize now weekDay bookmarkRectangles bm with
  | none => bookmarkRectangles
  | some p => pushBack bookmarkRectangles p.br

/-- The bookmark after its iteration of the loop of `fftRedraw`. -/
def stepBm (m : BookmarkManagerModule) (args : FFTRedrawArgs)
    (calcTextSize : String → ImVec2) (now : Int) (weekDay : Fin 7)
    (bookmarkRectangles : List (List BookmarkRectangle)) (bm : WaterfallBookmark) :
    WaterfallBookmark :=
  match redrawBookmark m args calcTextSize now weekDay bookmarkRectangles bm with
  | none => bm
  | some p => p.bm

/-- The module and configuration at the start of each frame of a sequence of frames of
`fftInput`. -/
def fftInputStates (m : BookmarkManagerModule) (config : Config) :
    List (InputHandlerArgs × PointerInput) → List (BookmarkManagerModule × Config)
  | [] => []
  | frame :: rest =>
    (m, config) ::
      fftInputStates (fftInput m config frame.1 frame.2).mod
        (fftInput m config frame.1 frame.2).config rest

/-- Keys in strictly increasing order of `std::less<std::string>`: the order in which a
`std::map` and a JSON object hold and iterate their keys. -/
def keysSorted (keys : List String) : Prop :=
  keys.Pairwise (fun a b => a.toList < b.toList)

/-- A map in key order, so with distinct keys. -/
def mapSorted {α : Type} (entries : List (String × α)) : Prop :=
  keysSorted (entries.map Prod.fst)

/-- Every list shown on the waterfall has a colour that `hexStrToColor` parses without
throwing: the condition under which `refreshWaterfallBookmarks` returns, which a running
module has met since its constructor called it. -/
def colorsParse (lists : List (String × JsonList)) : Prop :=
  ∀ item ∈ lists, item.2.showOnWaterfall = true → (listColor item.2).isSome = true

/-- The entries `waterfallBookmarks` is to hold after a refresh, in the order of the lists
and of their bookmarks: one for every bookmark of every list whose `showOnWaterfall` is
true, tagged with the name and the colour of the list (yellow for a list without `color`),
not selected, the anchor rectangle unset. -/
def shownBookmarks (lists : List (String × JsonList)) : List WaterfallBookmark :=
  (lists.filter (fun item => item.2.showOnWaterfall)).flatMap (fun item =>
    item.2.bookmarks.map (fun entry =>
      { listName := item.1, bookmarkName := entry.1
        color := (listColor item.2).getD (IM_COL32 255 255 0 255)
        bookmark := { waterfallRecord entry.2 with selected := false }
        clampedRectMin := ⟨-1, -1⟩, clampedRectMax := ⟨-1, -1⟩ }))

/-! ## Sample frames -/

/-- A record at frequency `f`, always on air. -/
def sampleRecord (f : ℚ) : FrequencyBookmark :=
  { frequency := f, bandwidth := 3000, mode := 5, selected := false, startTime := 0,
    endTime := 0, days := fun _ => true, notes := "", geoinfo := "" }

/-- A waterfall bookmark named `name` at frequency `f` whose anchor rectangle is unset. -/
def sampleBookmark (name : String) (f : ℚ) : WaterfallBookmark :=
  { listName := "General", bookmarkName := name, color := IM_COL32 255 255 0 255,
    bookmark := sampleRecord f, clampedRectMin := ⟨-1, -1⟩, clampedRectMax := ⟨-1, -1⟩ }

/-- A viewport of 1200 by 300 pixels showing frequencies 0 to 1200, one pixel per unit. -/
def sampleArgs : FFTRedrawArgs :=
  { min := ⟨0, 0⟩, max := ⟨1200, 300⟩, lowFreq := 0, highFreq := 1200, freqToPixelRatio := 1 }

/-- A text measure: every label is 20 pixels wide and 13 pixels high. -/
def sampleTextSize : String → ImVec2 := fun _ => ⟨20, 13⟩

/-- Two rows (`bookmarkRows = 1`), top mode, centered labels, avoid-clutter off; labels at
100 and 300 do not meet, so both go to row 0. -/
def sampleModuleApart : BookmarkManagerModule :=
  { waterfallBookmarks := [sampleBookmark "a" 100, sampleBookmark "b" 300]
    bookmarkDisplayMode := BOOKMARK_DISP_MODE_TOP
    bookmarkRows := 1
    bookmarkCentered := true }

/-- One row, top mode, centered labels, avoid-clutter on; labels at 100 and 300. -/
def sampleModuleZoom : BookmarkManagerModule :=
  { waterfallBookmarks := [sampleBookmark "a" 100, sampleBookmark "b" 300]
    bookmarkDisplayMode := BOOKMARK_DISP_MODE_TOP
    bookmarkRows := 0
    bookmarkCentered := true
    bookmarkNoClutter := true }

/-- The viewport of `sampleArgs` zoomed out ten times: frequencies 0 to 12000 on the same
1200 pixels. -/
def sampleArgsWide : FFTRedrawArgs :=
  { min := ⟨0, 0⟩, max := ⟨1200, 300⟩, lowFreq := 0, highFreq := 12000,
    freqToPixelRatio := 1 / 10 }

/-- A module whose one waterfall bookmark, "a" at 100, holds the anchor rectangle
`[85, 115] × [0, 13]` of a frame; the active list "General" holds the bookmarks "a" and
"b". -/
def sampleModuleInput : BookmarkManagerModule :=
  { waterfallBookmarks :=
      [{ sampleBookmark "a" 100 with clampedRectMin := ⟨85, 0⟩, clampedRectMax := ⟨115, 13⟩ }]
    bookmarkDisplayMode := BOOKMARK_DISP_MODE_TOP
    bookmarks := [("a", sampleRecord 100), ("b", { sampleRecord 300 with selected := true })]
    listNames := ["General"]
    selectedListName := "General" }

/-- The input arguments of a frame showing frequencies 0 to 1200. -/
def sampleInputArgs : InputHandlerArgs := { lowFreq := 0, highFreq := 1200 }

/-- The pointer at `mousePos` with the left button as given and no VFO selected. -/
def samplePointer (mousePos : ImVec2) (down clicked : Bool) : PointerInput :=
  { isMouseDown := down, isMouseClicked := clicked
    isMouseHoveringRect := isMouseHoveringRect mousePos, selectedVFO := "" }

/-- The JSON object of an always-on bookmark at frequency `f`, every member present. -/
def sampleJson (f : ℚ) : JsonBookmark :=
  { frequency := f
    bandwidth := 3000
    mode := 5
    startTime := some 0
    endTime := some 0
    days := some (fun _ => true)
    geoinfo := some ""
    notes := some "" }

/-- The list "General": shown, yellow, holding "a" at 100 and "b" at 300. -/
def sampleListGeneral : JsonList :=
  { showOnWaterfall := true
    color := some "#FFFF00"
    bookmarks := [("a", sampleJson 100), ("b", sampleJson 300)] }

/-- The list "Other": hidden, holding "c" at 500 saved without its optional members. -/
def sampleListOther : JsonList :=
  { showOnWaterfall := false
    bookmarks := [("c", { frequency := 500, bandwidth := 3000, mode := 5 })] }

/-- A configuration with the lists "General" and "Other", "General" selected. -/
def sampleConfig : Config :=
  { selectedList := "General"
    lists := [("General", sampleListGeneral), ("Other", sampleListOther)] }

/-- An import file with two entries: "a", a name of the sample list, at frequency 999, and
"z" at frequency 700 without its optional members. -/
def sampleDocument : JsonDocument :=
  { bookmarks := some (JsonBookmarks.object
      [("a", sampleJson 999), ("z", { frequency := 700, bandwidth := 3000, mode := 5 })]) }

/-- A configuration with the empty list "Empty" and the list "General". -/
def sampleConfigEmpty : Config :=
  { selectedList := "General"
    lists := [("Empty", { showOnWaterfall := false }), ("General", sampleListGeneral)] }

/-- The sample module with both bookmarks of "General" ticked. -/
def sampleModuleTicked : BookmarkManagerModule :=
  { sampleModuleInput with
    bookmarks := [("a", { sampleRecord 100 with selected := true }),
      ("b", { sampleRecord 300 with selected := true })] }

/-- A module whose active list "Empty" holds no bookmark. -/
def sampleModuleEmpty : BookmarkManagerModule :=
  { listNames := ["Empty", "General"], selectedListName := "Empty" }

/-- A module with the lists "General" and "Other" whose active list is the last one,
"Other", loaded with its bookmark "c". -/
def sampleModuleLast : BookmarkManagerModule :=
  { listNames := ["General", "Other"]
    selectedListName := "Other"
    selectedListId := 1
    bookmarks := [("c", sampleRecord 500)] }

/-- Dialog fields before any dialog was opened; the edited record and colour, not
initialised by the source, are set to zero. -/
def sampleDialogs : BookmarkManagerDialogs :=
  { editedBookmark := { sampleRecord 0 with bandwidth := 0, mode := 0 }
    editedListColor := ⟨0, 0, 0, 0⟩ }

/-- What the Add button reads with the waterfall centred on 7000 and no VFO selected. -/
def sampleAddInput : AddButtonInput :=
  { selectedVFO := "", centerFrequency := 7000, offset := 0, bandwidth := 0
    moduleName := "", mode := 0 }

/-- A module with the lists "General" and "Other" whose active list is "General", loaded
with its bookmarks "a" and "b". -/
def sampleModuleGeneral : BookmarkManagerModule :=
  { listNames := ["General", "Other"]
    selectedListName := "General"
    selectedListId := 0
    bookmarks := [("a", sampleRecord 100), ("b", sampleRecord 300)] }

/-- C9. For a record with `startTime < endTime`, on an enabled weekday and at every time
`now`, `bookmarkOnline` is true iff `startTime ≤ now < endTime`; the record is online at
`now = startTime` and offline at `now = endTime`. -/
theorem bookmarkOnline_forward_window (bm : FrequencyBookmark) (now : Int) (weekDay : Fin 7)
    (hlt : bm.startTime < bm.endTime) (hday : bm.days weekDay = true) :
    (bookmarkOnline bm now weekDay = true ↔ bm.startTime ≤ now ∧ now < bm.endTime)
      ∧ bookmarkOnline bm bm.startTime weekDay = true
      ∧ bookmarkOnline bm bm.endTime weekDay = false := by
  have hne : ¬ (bm.startTime = 0 ∧ bm.endTime = 0) := by
    rintro ⟨h1, h2⟩
    omega
  have key : ∀ t : Int, bookmarkOnline bm t weekDay = true ↔ bm.startTime ≤ t ∧ t < bm.endTime := by
    intro t
    simp [bookmarkOnline, hday, hlt, hne]
  refine ⟨key now, (key _).2 ⟨le_refl _, hlt⟩, ?_⟩
  rw [← Bool.not_eq_true, key]
  omega

/-- C10. For a record whose window wraps midnight (`startTime > endTime`), on an enabled
weekday and at every HHMM time `now` in `[0, 2359]`, `bookmarkOnline` is true iff
`startTime ≤ now ≤ 2359` or `0 ≤ now ≤ endTime`. Hence the record is online at 2359 when
`startTime ≤ 2359` and at 0000 when `endTime ≥ 0`, which every HHMM record satisfies; and
with start 2200 and end 0600 it is online at 2300, 0000 and 0559, offline at 0700 and 1200. -/
theorem bookmarkOnline_wrap_window (bm : FrequencyBookmark) (now : Int) (weekDay : Fin 7)
    (hgt : bm.startTime > bm.endTime) (hday : bm.days weekDay = true)
    (hnow : 0 ≤ now ∧ now ≤ 2359) :
    (bookmarkOnline bm now weekDay = true ↔
        (bm.startTime ≤ now ∧ now ≤ 2359) ∨ (0 ≤ now ∧ now ≤ bm.endTime))
      ∧ (bm.startTime ≤ 2359 → bookmarkOnline bm 2359 weekDay = true)
      ∧ (0 ≤ bm.endTime → bookmarkOnline bm 0 weekDay = true)
      ∧ (bm.startTime = 2200 → bm.endTime = 600 →
          bookmarkOnline bm 2300 weekDay = true ∧ bookmarkOnline bm 0 weekDay = true
            ∧ bookmarkOnline bm 559 weekDay = true ∧ bookmarkOnline bm 700 weekDay = false
            ∧ bookmarkOnline bm 1200 weekDay = false) := by
  have hne : ¬ (bm.startTime = 0 ∧ bm.endTime = 0) := by
    rintro ⟨h1, h2⟩
    omega
  have hnlt : ¬ bm.startTime < bm.endTime := by omega
  have key : ∀ t : Int, bookmarkOnline bm t weekDay = true ↔
      (bm.startTime ≤ t ∧ t ≤ 2359) ∨ (0 ≤ bm.startTime ∧ t ≤ bm.endTime) := by
    intro t
    simp [bookmarkOnline, hday, hgt, hne, hnlt]
  have keyF : ∀ t : Int, bookmarkOnline bm t weekDay = false ↔
      ¬ ((bm.startTime ≤ t ∧ t ≤ 2359) ∨ (0 ≤ bm.startTime ∧ t ≤ bm.endTime)) := by
    intro t
    rw [← key t, Bool.not_eq_true]
  refine ⟨?_, ?_, ?_, ?_⟩
  · rw [key]
    constructor
    · rintro (h | h)
      · exact Or.inl h
      · exact Or.inr ⟨hnow.1, h.2⟩
    · rintro (h | h)
      · exact Or.inl h
      · exact Or.inr ⟨by omega, h.2⟩
  · intro h
    exact (key _).2 (Or.inl ⟨h, le_refl _⟩)
  · intro h
    exact (key _).2 (Or.inr ⟨by omega, h⟩)
  · intro hs he
    refine ⟨(key _).2 ?_, (key _).2 ?_, (key _).2 ?_, (keyF _).2 ?_, (keyF _).2 ?_⟩ <;> omega

/-! ## Label layout: the loop, one iteration at a time -/

section LoopLemmas
variable (m : BookmarkManagerModule) (args : FFTRedrawArgs) (calcTextSize : String → ImVec2)
  (now : Int) (weekDay : Fin 7)

theorem redrawLoop_cons (occ : List (List BookmarkRectangle)) (bm : WaterfallBookmark)
    (rest : List WaterfallBookmark) :
    (redrawLoop m args calcTextSize now weekDay occ (bm :: rest)).placed
        = (redrawBookmark m args calcTextSize now weekDay occ bm).map Placed.br ::
          (redrawLoop m args calcTextSize now weekDay
            (stepOcc m args calcTextSize now weekDay occ bm) rest).placed
      ∧ (redrawLoop m args calcTextSize now weekDay occ (bm :: rest)).waterfallBookmarks
        = stepBm m args calcTextSize now weekDay occ bm ::
          (redrawLoop m args calcTextSize now weekDay
            (stepOcc m args calcTextSize now weekDay occ bm) rest).waterfallBookmarks
      ∧ (redrawLoop m args calcTextSize now weekDay occ (bm :: rest)).bookmarkRectangles
        = (redrawLoop m args calcTextSize now weekDay
            (stepOcc m args calcTextSize now weekDay occ bm) rest).bookmarkRectangles := by
  cases h : redrawBookmark m args calcTextSize now weekDay occ bm <;>
    simp [redrawLoop, stepOcc, stepBm, h]

theorem redrawBookmark_eq_some {occ : List (List BookmarkRectangle)} {bm : WaterfallBookmark}
    {p : Placed} (h : redrawBookmark m args calcTextSize now weekDay occ bm = some p) :
    inRange args.lowFreq args.highFreq bm = true
      ∧ p.br.min = (labelSpan m.bookmarkCentered (centerXpos args bm)
          (calcTextSize bm.bookmarkName)).1
      ∧ p.br.max = (labelSpan m.bookmarkCentered (centerXpos args bm)
          (calcTextSize bm.bookmarkName)).2
      ∧ p.br.row = rowScan occ p.br.min p.br.max m.bookmarkRows 0 0
      ∧ ¬ (p.br.row = m.bookmarkRows ∧ m.bookmarkNoClutter = true
            ∧ foundOnrow occ p.br.row p.br.min p.br.max = true)
      ∧ ∃ rectMin rectMax,
          labelRect m.bookmarkDisplayMode args (calcTextSize bm.bookmarkName)
            p.br.min p.br.max p.br.row = some (rectMin, rectMax)
          ∧ p.bm = { bm with
              clampedRectMin := ⟨clamp rectMin.x args.min.x args.max.x, rectMin.y⟩
              clampedRectMax := ⟨clamp rectMax.x args.min.x args.max.x, rectMax.y⟩ } := by
  unfold redrawBookmark at h
  simp only at h
  split at h
  · rename_i hin
    split at h
    · exact absurd h (by simp)
    · rename_i hcl
      split at h
      · exact absurd h (by simp)
      · rename_i rectMin rectMax hrect
        simp only [Option.some.injEq] at h
        subst h
        refine ⟨hin, rfl, rfl, rfl, ?_, rectMin, rectMax, hrect, rfl⟩
        simpa [Bool.and_eq_true] using hcl
  · exact absurd h (by simp)


theorem pushBack_length (occ : List (List BookmarkRectangle)) (br : BookmarkRectangle) :
    (pushBack occ br).length = occ.length := by
  simp [pushBack]

theorem pushBack_getD (occ : List (List BookmarkRectangle)) (br : BookmarkRectangle) (r : Nat) :
    (pushBack occ br).getD r []
      = if r = br.row ∧ br.row < occ.length then occ.getD r [] ++ [br] else occ.getD r [] := by
  unfold pushBack
  simp only [List.getD_eq_getElem?_getD, List.getElem?_set]
  by_cases h : br.row = r
  · subst h
    by_cases hl : br.row < occ.length
    · simp [hl]
    · simp [hl]
      rw [List.getElem?_eq_none (by omega)]
      simp
  · have h' : ¬ r = br.row := fun e => h e.symm
    simp [h, h']

theorem mem_pushBack_of_mem {occ : List (List BookmarkRectangle)} {br x : BookmarkRectangle}
    {r : Nat} (h : x ∈ occ.getD r []) : x ∈ (pushBack occ br).getD r [] := by
  rw [pushBack_getD]
  split
  · exact List.mem_append_left _ h
  · exact h

theorem stepOcc_length (occ : List (List BookmarkRectangle)) (bm : WaterfallBookmark) :
    (stepOcc m args calcTextSize now weekDay occ bm).length = occ.length := by
  unfold stepOcc
  split
  · rfl
  · exact pushBack_length _ _

theorem mem_stepOcc_of_mem {occ : List (List BookmarkRectangle)} {bm : WaterfallBookmark}
    {x : BookmarkRectangle} {r : Nat} (h : x ∈ occ.getD r []) :
    x ∈ (stepOcc m args calcTextSize now weekDay occ bm).getD r [] := by
  unfold stepOcc
  split
  · exact h
  · exact mem_pushBack_of_mem h

theorem redrawLoop_length (bms : List WaterfallBookmark) :
    ∀ occ : List (List BookmarkRectangle),
      (redrawLoop m args calcTextSize now weekDay occ bms).bookmarkRectangles.length
          = occ.length
        ∧ (redrawLoop m args calcTextSize now weekDay occ bms).placed.length = bms.length
        ∧ (redrawLoop m args calcTextSize now weekDay occ bms).waterfallBookmarks.length
          = bms.length := by
  induction bms with
  | nil => intro occ; simp [redrawLoop]
  | cons bm rest ih =>
    intro occ
    obtain ⟨h1, h2, h3⟩ := redrawLoop_cons m args calcTextSize now weekDay occ bm rest
    obtain ⟨i1, i2, i3⟩ := ih (stepOcc m args calcTextSize now weekDay occ bm)
    rw [h1, h2, h3]
    simp [i1, i2, i3, stepOcc_length]

theorem mem_redrawLoop_of_mem (bms : List WaterfallBookmark) :
    ∀ (occ : List (List BookmarkRectangle)) (x : BookmarkRectangle) (r : Nat),
      x ∈ occ.getD r [] →
      x ∈ (redrawLoop m args calcTextSize now weekDay occ bms).bookmarkRectangles.getD r [] := by
  induction bms with
  | nil => intro occ x r h; simpa [redrawLoop] using h
  | cons bm rest ih =>
    intro occ x r h
    rw [(redrawLoop_cons m args calcTextSize now weekDay occ bm rest).2.2]
    exact ih _ x r (mem_stepOcc_of_mem m args calcTextSize now weekDay h)

/-- The k-th iteration runs on the occupancy lists left by the first k bookmarks. -/
theorem redrawLoop_at (bms : List WaterfallBookmark) :
    ∀ (occ : List (List BookmarkRectangle)) (k : Nat) (bm : WaterfallBookmark),
      bms[k]? = some bm →
      (redrawLoop m args calcTextSize now weekDay occ bms).placed[k]?
          = some ((redrawBookmark m args calcTextSize now weekDay
              (redrawLoop m args calcTextSize now weekDay occ (bms.take k)).bookmarkRectangles
              bm).map Placed.br)
        ∧ (redrawLoop m args calcTextSize now weekDay occ bms).waterfallBookmarks[k]?
          = some (stepBm m args calcTextSize now weekDay
              (redrawLoop m args calcTextSize now weekDay occ (bms.take k)).bookmarkRectangles
              bm) := by
  induction bms with
  | nil => intro occ k bm h; simp at h
  | cons b rest ih =>
    intro occ k bm h
    obtain ⟨h1, h2, h3⟩ := redrawLoop_cons m args calcTextSize now weekDay occ b rest
    cases k with
    | zero =>
      simp only [List.getElem?_cons_zero, Option.some.injEq] at h
      subst h
      rw [h1, h2]
      simp [redrawLoop]
    | succ k =>
      simp only [List.getElem?_cons_succ] at h
      rw [h1, h2, List.take_succ_cons,
        (redrawLoop_cons m args calcTextSize now weekDay occ b (rest.take k)).2.2]
      simpa using ih (stepOcc m args calcTextSize now weekDay occ b) k bm h

end LoopLemmas

/-! ## Label layout: overlap test and row scan -/

/-- A candidate the overlap test rejects lies strictly to one side of the recorded span. -/
theorem overlaps_eq_false_sep {a b : ℚ} {br : BookmarkRectangle}
    (h : overlaps a b br = false) : b < br.min ∨ br.max < a := by
  simp only [overlaps, Bool.or_eq_false_iff, Bool.and_eq_false_iff, decide_eq_false_iff_not,
    not_le, ge_iff_le] at h
  obtain ⟨⟨h1, h2⟩, h3⟩ := h
  by_contra hcon
  push_neg at hcon
  obtain ⟨c1, c2⟩ := hcon
  rcases h1 with h1 | h1 <;> rcases h2 with h2 | h2 <;> rcases h3 with h3 | h3 <;> linarith

/-- Two closed intervals that meet are reported by the overlap test. -/
theorem overlaps_eq_true_of_inter {a b : ℚ} {br : BookmarkRectangle}
    (h1 : a ≤ br.max) (h2 : br.min ≤ b) : overlaps a b br = true := by
  simp only [overlaps, Bool.or_eq_true, Bool.and_eq_true, decide_eq_true_eq, ge_iff_le]
  by_cases h : br.min ≤ a
  · exact Or.inl (Or.inl ⟨h, h1⟩)
  · push_neg at h
    by_cases h' : b ≤ br.max
    · exact Or.inl (Or.inr ⟨h2, h'⟩)
    · push_neg at h'
      exact Or.inr ⟨le_of_lt h', le_of_lt h⟩

/-- The row scan started at counter `i` with `n` iterations left. -/
theorem rowScan_spec (occ : List (List BookmarkRectangle)) (a b : ℚ) :
    ∀ n i : Nat,
      i ≤ rowScan occ a b n i i ∧ rowScan occ a b n i i ≤ i + n
        ∧ (∀ k, i ≤ k → k < rowScan occ a b n i i → foundOnrow occ k a b = true)
        ∧ (rowScan occ a b n i i < i + n →
            foundOnrow occ (rowScan occ a b n i i) a b = false) := by
  intro n
  induction n with
  | zero =>
    intro i
    simp only [rowScan, add_zero, le_refl, lt_self_iff_false, false_implies, and_true, true_and]
    intro k h1 h2
    omega
  | succ n ih =>
    intro i
    by_cases hf : foundOnrow occ i a b = true
    · obtain ⟨h1, h2, h3, h4⟩ := ih (i + 1)
      simp only [rowScan, hf, if_true]
      refine ⟨by omega, by omega, ?_, ?_⟩
      · intro k hk1 hk2
        rcases Nat.eq_or_lt_of_le hk1 with heq | hlt
        · rw [← heq]; exact hf
        · exact h3 k hlt hk2
      · intro hlt
        exact h4 (by omega)
    · simp only [Bool.not_eq_true] at hf
      simp only [rowScan, hf, Bool.false_eq_true, if_false]
      refine ⟨le_refl _, by omega, ?_, ?_⟩
      · intro k hk1 hk2
        omega
      · intro _
        trivial

/-- The inner loop of the row scan, in terms of the spans recorded on the row. -/
theorem foundOnrow_iff (occ : List (List BookmarkRectangle)) (i : Nat) (a b : ℚ) :
    (foundOnrow occ i a b = true ↔ ∃ br ∈ occ.getD i [], overlaps a b br = true)
      ∧ (foundOnrow occ i a b = false ↔ ∀ br ∈ occ.getD i [], overlaps a b br = false) := by
  unfold foundOnrow
  constructor
  · exact List.any_eq_true
  · rw [← Bool.not_eq_true, List.any_eq_true]
    constructor
    · intro h br hbr
      cases hov : overlaps a b br
      · rfl
      · exact absurd ⟨br, hbr, hov⟩ h
    · rintro h ⟨br, hbr, hov⟩
      rw [h br hbr] at hov
      exact absurd hov (by simp)

/-- C2. The row the scan chooses for a candidate span `[bmMinX, bmMaxX]`, on any occupancy
lists `occ`: it is at most `bookmarkRows`; every row below it holds a recorded span that
overlaps the candidate; when it is below `bookmarkRows` no span recorded on it overlaps the
candidate, so it is the smallest row below `bookmarkRows` without an overlapping occupant;
it is `bookmarkRows` when every row below `bookmarkRows` has an overlapping occupant. The
frame declares `bookmarkRows + 1` occupancy lists, the loop keeps that number, so the row
indexes one of them; the row combo shows `bookmarkRows + 1` for the stored index
`bookmarkRows`; and the row recorded for a label an iteration places is the row of this
scan on the label's span, with the same two properties. -/
theorem rowScan_smallest_free_row (m : BookmarkManagerModule) (args : FFTRedrawArgs)
    (calcTextSize : String → ImVec2) (now : Int) (weekDay : Fin 7)
    (occ : List (List BookmarkRectangle)) (bmMinX bmMaxX : ℚ) :
    rowScan occ bmMinX bmMaxX m.bookmarkRows 0 0 ≤ m.bookmarkRows
      ∧ (∀ i, i < rowScan occ bmMinX bmMaxX m.bookmarkRows 0 0 →
          ∃ br ∈ occ.getD i [], overlaps bmMinX bmMaxX br = true)
      ∧ (rowScan occ bmMinX bmMaxX m.bookmarkRows 0 0 < m.bookmarkRows →
          ∀ br ∈ occ.getD (rowScan occ bmMinX bmMaxX m.bookmarkRows 0 0) [],
            overlaps bmMinX bmMaxX br = false)
      ∧ (∀ i, i < m.bookmarkRows →
          (∀ br ∈ occ.getD i [], overlaps bmMinX bmMaxX br = false) →
          rowScan occ bmMinX bmMaxX m.bookmarkRows 0 0 ≤ i)
      ∧ ((∀ i, i < m.bookmarkRows → ∃ br ∈ occ.getD i [], overlaps bmMinX bmMaxX br = true) →
          rowScan occ bmMinX bmMaxX m.bookmarkRows 0 0 = m.bookmarkRows)
      ∧ (∀ bms : List WaterfallBookmark,
          (redrawLoop m args calcTextSize now weekDay
            (List.replicate (m.bookmarkRows + 1) []) bms).bookmarkRectangles.length
            = m.bookmarkRows + 1)
      ∧ rowScan occ bmMinX bmMaxX m.bookmarkRows 0 0
          < (List.replicate (m.bookmarkRows + 1) ([] : List BookmarkRectangle)).length
      ∧ (m.bookmarkRows < 10 →
          bookmarkRowsTxt[m.bookmarkRows]? = some (toString (m.bookmarkRows + 1)))
      ∧ (∀ (bm : WaterfallBookmark) (p : Placed),
          redrawBookmark m args calcTextSize now weekDay occ bm = some p →
          p.br.row = rowScan occ p.br.min p.br.max m.bookmarkRows 0 0
            ∧ p.br.row ≤ m.bookmarkRows
            ∧ (∀ i, i < p.br.row → ∃ br ∈ occ.getD i [], overlaps p.br.min p.br.max br = true)
            ∧ (p.br.row < m.bookmarkRows →
                ∀ br ∈ occ.getD p.br.row [], overlaps p.br.min p.br.max br = false)) := by
  obtain ⟨_, h2, h3, h4⟩ := rowScan_spec occ bmMinX bmMaxX m.bookmarkRows 0
  simp only [zero_add] at h2 h4
  refine ⟨h2, fun i hi => (foundOnrow_iff occ i bmMinX bmMaxX).1.1 (h3 i (Nat.zero_le _) hi),
    fun hlt => (foundOnrow_iff occ _ bmMinX bmMaxX).2.1 (h4 hlt), ?_, ?_, ?_, ?_, ?_, ?_⟩
  · intro i _ hfree
    by_contra hcon
    push_neg at hcon
    have := h3 i (Nat.zero_le _) hcon
    rw [(foundOnrow_iff occ i bmMinX bmMaxX).2.2 hfree] at this
    exact absurd this (by simp)
  · intro hall
    by_contra hne
    have hlt : rowScan occ bmMinX bmMaxX m.bookmarkRows 0 0 < m.bookmarkRows := by omega
    have := (foundOnrow_iff occ _ bmMinX bmMaxX).1.2 (hall _ hlt)
    rw [h4 hlt] at this
    exact absurd this (by simp)
  · intro bms
    rw [(redrawLoop_length m args calcTextSize now weekDay bms _).1]
    simp
  · simp only [List.length_replicate]
    omega
  · have hall : ∀ k, k < 10 → bookmarkRowsTxt[k]? = some (toString (k + 1)) := by decide
    exact hall _
  · intro bm p hp
    obtain ⟨_, _, _, hrow, _⟩ := redrawBookmark_eq_some m args calcTextSize now weekDay hp
    obtain ⟨_, g2, g3, g4⟩ := rowScan_spec occ p.br.min p.br.max m.bookmarkRows 0
    simp only [zero_add] at g2 g4
    rw [← hrow] at g2 g3 g4
    exact ⟨hrow, g2,
      fun i hi => (foundOnrow_iff occ i p.br.min p.br.max).1.1 (g3 i (Nat.zero_le _) hi),
      fun hlt => (foundOnrow_iff occ _ p.br.min p.br.max).2.1 (g4 hlt)⟩

theorem rowScan_smallest_free_row_witness :
    rowScan [[{ min := 0, max := 10, row := 0 }], []] 5 15 1 0 0 = 1 :=
  (rowScan_smallest_free_row { bookmarkRows := 1 } sampleArgs sampleTextSize 0 0
    [[{ min := 0, max := 10, row := 0 }], []] 5 15).2.2.2.2.1
    (by
      intro i hi
      have hi0 : i = 0 := by
        have : i < 1 := hi
        omega
      subst hi0
      exact ⟨{ min := 0, max := 10, row := 0 }, by simp, by norm_num [overlaps]⟩)

/-! ## Label layout: what a frame records -/

section FrameLemmas
variable (m : BookmarkManagerModule) (args : FFTRedrawArgs) (calcTextSize : String → ImVec2)
  (now : Int) (weekDay : Fin 7)

/-- On proper spans the overlap test reports only intervals that meet. -/
theorem overlaps_eq_true_inter {a b : ℚ} {br : BookmarkRectangle} (hab : a ≤ b)
    (hbr : br.min ≤ br.max) (h : overlaps a b br = true) : a ≤ br.max ∧ br.min ≤ b := by
  simp only [overlaps, Bool.or_eq_true, Bool.and_eq_true, decide_eq_true_eq, ge_iff_le] at h
  rcases h with (⟨h1, h2⟩ | ⟨h1, h2⟩) | ⟨h1, h2⟩
  · exact ⟨h2, le_trans h1 hab⟩
  · exact ⟨le_trans hab h2, h1⟩
  · exact ⟨le_trans h2 hbr, le_trans hbr h1⟩

/-- The row of a placed label is one of the `bookmarkRows + 1` rows. -/
theorem redrawBookmark_row_le {occ : List (List BookmarkRectangle)} {bm : WaterfallBookmark}
    {p : Placed} (h : redrawBookmark m args calcTextSize now weekDay occ bm = some p) :
    p.br.row ≤ m.bookmarkRows := by
  obtain ⟨_, _, _, hrow, _⟩ := redrawBookmark_eq_some m args calcTextSize now weekDay h
  rw [hrow]
  have := (rowScan_spec occ p.br.min p.br.max m.bookmarkRows 0).2.1
  simpa using this

/-- A label placed below the last row, or placed anywhere with avoid-clutter on, overlaps
no span recorded on its row before it. -/
theorem redrawBookmark_free {occ : List (List BookmarkRectangle)} {bm : WaterfallBookmark}
    {p : Placed} (h : redrawBookmark m args calcTextSize now weekDay occ bm = some p)
    (hexc : p.br.row < m.bookmarkRows ∨ m.bookmarkNoClutter = true) :
    ∀ r ∈ occ.getD p.br.row [], overlaps p.br.min p.br.max r = false := by
  obtain ⟨_, _, _, hrow, hcl, _⟩ := redrawBookmark_eq_some m args calcTextSize now weekDay h
  have hle := redrawBookmark_row_le m args calcTextSize now weekDay h
  have hfree : foundOnrow occ p.br.row p.br.min p.br.max = false := by
    by_cases hlt : p.br.row < m.bookmarkRows
    · have h4 := (rowScan_spec occ p.br.min p.br.max m.bookmarkRows 0).2.2.2
      rw [← hrow, zero_add] at h4
      exact h4 hlt
    · have heq : p.br.row = m.bookmarkRows := by omega
      have hnc : m.bookmarkNoClutter = true := by
        rcases hexc with h1 | h1
        · exact absurd h1 hlt
        · exact h1
      by_contra hcon
      exact hcl ⟨heq, hnc, by simpa using hcon⟩
  intro r hr
  simp only [foundOnrow, List.any_eq_false] at hfree
  simpa using hfree r hr

/-- A span placed by iteration `i` is on its row in the occupancy lists every later
iteration sees. -/
theorem placed_mem_later (bms : List WaterfallBookmark) :
    ∀ (occ : List (List BookmarkRectangle)) (i j : Nat) (p : BookmarkRectangle),
      i < j →
      (redrawLoop m args calcTextSize now weekDay occ bms).placed[i]? = some (some p) →
      occ.length = m.bookmarkRows + 1 →
      p ∈ (redrawLoop m args calcTextSize now weekDay occ
            (bms.take j)).bookmarkRectangles.getD p.row [] := by
  induction bms with
  | nil => intro occ i j p _ h; simp [redrawLoop] at h
  | cons b rest ih =>
    intro occ i j p hij h hlen
    obtain ⟨h1, _, _⟩ := redrawLoop_cons m args calcTextSize now weekDay occ b rest
    rw [h1] at h
    cases j with
    | zero => omega
    | succ j =>
      rw [List.take_succ_cons,
        (redrawLoop_cons m args calcTextSize now weekDay occ b (rest.take j)).2.2]
      cases i with
      | zero =>
        simp only [List.getElem?_cons_zero, Option.some.injEq, Option.map_eq_some'] at h
        obtain ⟨P, hP, hbr⟩ := h
        subst hbr
        apply mem_redrawLoop_of_mem
        have hle := redrawBookmark_row_le m args calcTextSize now weekDay hP
        have hstep : stepOcc m args calcTextSize now weekDay occ b = pushBack occ P.br := by
          simp [stepOcc, hP]
        rw [hstep, pushBack_getD, if_pos ⟨rfl, by omega⟩]
        simp
      | succ i =>
        simp only [List.getElem?_cons_succ] at h
        exact ih _ i j p (by omega) h
          (by rw [stepOcc_length]; exact hlen)

/-- Two labels placed on one row in one run of the loop, the later one below the last row
or avoid-clutter on: their recorded spans are strictly apart. -/
theorem placed_sep_of_lt (bms : List WaterfallBookmark) (occ : List (List BookmarkRectangle))
    (i j : Nat) (p q : BookmarkRectangle) (hij : i < j)
    (hp : (redrawLoop m args calcTextSize now weekDay occ bms).placed[i]? = some (some p))
    (hq : (redrawLoop m args calcTextSize now weekDay occ bms).placed[j]? = some (some q))
    (hlen : occ.length = m.bookmarkRows + 1) (hrow : p.row = q.row)
    (hexc : q.row < m.bookmarkRows ∨ m.bookmarkNoClutter = true) :
    q.max < p.min ∨ p.max < q.min := by
  have hmem := placed_mem_later m args calcTextSize now weekDay bms occ i j p hij hp hlen
  have hjlt : j < bms.length := by
    have := (List.getElem?_eq_some_iff.1 hq).1
    rwa [(redrawLoop_length m args calcTextSize now weekDay bms occ).2.1] at this
  have hbj : bms[j]? = some bms[j] := List.getElem?_eq_getElem hjlt
  have hat := (redrawLoop_at m args calcTextSize now weekDay bms occ j _ hbj).1
  rw [hq] at hat
  simp only [Option.some.injEq] at hat
  obtain ⟨Q, hQ, hbr⟩ := Option.map_eq_some'.1 hat.symm
  subst hbr
  rw [hrow] at hmem
  exact overlaps_eq_false_sep
    (redrawBookmark_free m args calcTextSize now weekDay hQ hexc p hmem)

/-- The bookmark, span and stored anchor rectangle behind a placed entry of a run. -/
theorem placed_rect (bms : List WaterfallBookmark) (occ : List (List BookmarkRectangle))
    (k : Nat) (bm : WaterfallBookmark) (p : BookmarkRectangle) (hb : bms[k]? = some bm)
    (hp : (redrawLoop m args calcTextSize now weekDay occ bms).placed[k]? = some (some p)) :
    inRange args.lowFreq args.highFreq bm = true
      ∧ p.min = (labelSpan m.bookmarkCentered (centerXpos args bm)
          (calcTextSize bm.bookmarkName)).1
      ∧ p.max = (labelSpan m.bookmarkCentered (centerXpos args bm)
          (calcTextSize bm.bookmarkName)).2
      ∧ p.row ≤ m.bookmarkRows
      ∧ ∃ rectMin rectMax,
          labelRect m.bookmarkDisplayMode args (calcTextSize bm.bookmarkName)
            p.min p.max p.row = some (rectMin, rectMax)
          ∧ (redrawLoop m args calcTextSize now weekDay occ bms).waterfallBookmarks[k]?
              = some { bm with
                  clampedRectMin := ⟨clamp rectMin.x args.min.x args.max.x, rectMin.y⟩
                  clampedRectMax := ⟨clamp rectMax.x args.min.x args.max.x, rectMax.y⟩ } := by
  obtain ⟨hat1, hat2⟩ := redrawLoop_at m args calcTextSize now weekDay bms occ k bm hb
  rw [hp] at hat1
  simp only [Option.some.injEq] at hat1
  obtain ⟨P, hP, hbr⟩ := Option.map_eq_some'.1 hat1.symm
  subst hbr
  obtain ⟨hin, hmin, hmax, _, _, rectMin, rectMax, hrect, hbm⟩ :=
    redrawBookmark_eq_some m args calcTextSize now weekDay hP
  refine ⟨hin, hmin, hmax, redrawBookmark_row_le m args calcTextSize now weekDay hP,
    rectMin, rectMax, hrect, ?_⟩
  rw [hat2]
  simp only [stepBm, hP, hbm]

/-- What `labelRect` returns when it does not drop the label. -/
theorem labelRect_eq_some {mode : Int} {args : FFTRedrawArgs} {nameSize : ImVec2} {a b : ℚ}
    {row : Nat} {rectMin rectMax : ImVec2}
    (h : labelRect mode args nameSize a b row = some (rectMin, rectMax)) :
    rectMin.x = a ∧ rectMax.x = b
      ∧ (mode = BOOKMARK_DISP_MODE_TOP →
          rectMin.y = args.min.y + nameSize.y * row
            ∧ rectMax.y = args.min.y + nameSize.y + nameSize.y * row
            ∧ rectMax.y < args.max.y)
      ∧ (mode ≠ BOOKMARK_DISP_MODE_TOP →
          rectMin.y = args.max.y - nameSize.y - nameSize.y * row
            ∧ rectMax.y = args.max.y - nameSize.y * row
            ∧ args.min.y < rectMin.y) := by
  unfold labelRect at h
  simp only [beq_iff_eq] at h
  split_ifs at h with h1 h2 h2
  · simp only [Option.some.injEq, Prod.mk.injEq] at h
    obtain ⟨e1, e2⟩ := h
    subst e1 e2
    refine ⟨rfl, rfl, fun _ => ⟨rfl, rfl, ?_⟩, fun hne => absurd h1 hne⟩
    exact lt_of_not_ge h2
  · simp only [Option.some.injEq, Prod.mk.injEq] at h
    obtain ⟨e1, e2⟩ := h
    subst e1 e2
    refine ⟨rfl, rfl, fun he => absurd he h1, fun _ => ⟨rfl, rfl, ?_⟩⟩
    exact lt_of_not_ge h2

end FrameLemmas

/-! ## Label layout: claims about one frame -/

/-- C1. In one run of `fftRedraw`, two distinct labels `i` and `j` placed on the same row,
that row being below the last row or avoid-clutter being on (so neither was force-placed on
the last row with avoid-clutter off): their recorded unclamped spans are strictly apart and
the overlap test is false between them in both orders, and their stored clamped rectangles
have x-extents that are strictly apart, so the rectangles do not overlap. Preconditions:
text widths are not negative and each of the two centres lies in `[min.x, max.x]` (which
makes `min.x ≤ max.x`). -/
theorem fftRedraw_same_row_disjoint (m : BookmarkManagerModule) (args : FFTRedrawArgs)
    (calcTextSize : String → ImVec2) (now : Int) (weekDay : Fin 7) (i j : Nat)
    (bi bj : WaterfallBookmark) (p q : BookmarkRectangle) (hij : i ≠ j)
    (hbi : m.waterfallBookmarks[i]? = some bi) (hbj : m.waterfallBookmarks[j]? = some bj)
    (hp : (fftRedraw m args calcTextSize now weekDay).placed[i]? = some (some p))
    (hq : (fftRedraw m args calcTextSize now weekDay).placed[j]? = some (some q))
    (hrow : p.row = q.row)
    (hexc : p.row < m.bookmarkRows ∨ m.bookmarkNoClutter = true)
    (hwi : 0 ≤ (calcTextSize bi.bookmarkName).x) (hwj : 0 ≤ (calcTextSize bj.bookmarkName).x)
    (hci : args.min.x ≤ centerXpos args bi ∧ centerXpos args bi ≤ args.max.x)
    (hcj : args.min.x ≤ centerXpos args bj ∧ centerXpos args bj ≤ args.max.x) :
    (p.max < q.min ∨ q.max < p.min)
      ∧ overlaps p.min p.max q = false ∧ overlaps q.min q.max p = false
      ∧ ∃ ri rj,
          (fftRedraw m args calcTextSize now weekDay).waterfallBookmarks[i]? = some ri
          ∧ (fftRedraw m args calcTextSize now weekDay).waterfallBookmarks[j]? = some rj
          ∧ ri.clampedRectMin.x = clamp p.min args.min.x args.max.x
          ∧ ri.clampedRectMax.x = clamp p.max args.min.x args.max.x
          ∧ rj.clampedRectMin.x = clamp q.min args.min.x args.max.x
          ∧ rj.clampedRectMax.x = clamp q.max args.min.x args.max.x
          ∧ (ri.clampedRectMax.x < rj.clampedRectMin.x
              ∨ rj.clampedRectMax.x < ri.clampedRectMin.x) := by
  have hmode : ¬ (m.bookmarkDisplayMode == BOOKMARK_DISP_MODE_OFF) = true := by
    intro hoff
    simp [fftRedraw, hoff] at hp
  simp only [fftRedraw, hmode, Bool.false_eq_true, if_false] at hp hq ⊢
  have hlen : (List.replicate (m.bookmarkRows + 1) ([] : List BookmarkRectangle)).length
      = m.bookmarkRows + 1 := by simp
  obtain ⟨_, hpmin, hpmax, _, rpMin, rpMax, hprect, hpw⟩ :=
    placed_rect m args calcTextSize now weekDay _ _ i bi p hbi hp
  obtain ⟨_, hqmin, hqmax, _, rqMin, rqMax, hqrect, hqw⟩ :=
    placed_rect m args calcTextSize now weekDay _ _ j bj q hbj hq
  -- the spans reach at least five pixels to either side of the centre
  have hp1 : p.min ≤ centerXpos args bi - 5 ∧ centerXpos args bi + 5 ≤ p.max := by
    rw [hpmin, hpmax]
    unfold labelSpan
    split <;> constructor <;> simp only <;> linarith
  have hq1 : q.min ≤ centerXpos args bj - 5 ∧ centerXpos args bj + 5 ≤ q.max := by
    rw [hqmin, hqmax]
    unfold labelSpan
    split <;> constructor <;> simp only <;> linarith
  have hsep : p.max < q.min ∨ q.max < p.min := by
    rcases Nat.lt_or_gt_of_ne hij with hlt | hgt
    · rcases placed_sep_of_lt m args calcTextSize now weekDay _ _ i j p q hlt hp hq hlen hrow
        (by rw [← hrow]; exact hexc) with h | h
      · exact Or.inr h
      · exact Or.inl h
    · exact placed_sep_of_lt m args calcTextSize now weekDay _ _ j i q p hgt hq hp hlen
        hrow.symm hexc
  -- the x-coordinates of the two rectangles
  have hpx := labelRect_eq_some hprect
  have hqx := labelRect_eq_some hqrect
  refine ⟨hsep, ?_, ?_, _, _, hpw, hqw, ?_, ?_, ?_, ?_, ?_⟩
  · by_contra hcon
    simp only [Bool.not_eq_false] at hcon
    have := overlaps_eq_true_inter (by linarith [hp1.1, hp1.2]) (by linarith [hq1.1, hq1.2]) hcon
    rcases hsep with h | h <;> linarith [this.1, this.2]
  · by_contra hcon
    simp only [Bool.not_eq_false] at hcon
    have := overlaps_eq_true_inter (by linarith [hp1.1, hp1.2]) (by linarith [hq1.1, hq1.2]) hcon
    rcases hsep with h | h <;> linarith [this.1, this.2]
  · simp only [hpx.1]
  · simp only [hpx.2.1]
  · simp only [hqx.1]
  · simp only [hqx.2.1]
  · simp only [hpx.1, hpx.2, hqx.1, hqx.2.1]
    rcases hsep with h | h
    · left
      unfold clamp
      split_ifs <;> linarith [hp1.1, hp1.2, hq1.1, hq1.2, hci.1, hci.2, hcj.1, hcj.2]
    · right
      unfold clamp
      split_ifs <;> linarith [hp1.1, hp1.2, hq1.1, hq1.2, hci.1, hci.2, hcj.1, hcj.2]

/-- Witness for C1: labels at 100 and 300 share row 0 of a two-row frame. -/
theorem fftRedraw_same_row_disjoint_witness :
    ((115 : ℚ) < 285 ∨ (315 : ℚ) < 85)
      ∧ overlaps 85 115 ⟨285, 315, 0⟩ = false ∧ overlaps 285 315 ⟨85, 115, 0⟩ = false
      ∧ ∃ ri rj,
          (fftRedraw sampleModuleApart sampleArgs sampleTextSize 0 0).waterfallBookmarks[0]?
            = some ri
          ∧ (fftRedraw sampleModuleApart sampleArgs sampleTextSize 0 0).waterfallBookmarks[1]?
            = some rj
          ∧ ri.clampedRectMin.x = clamp 85 sampleArgs.min.x sampleArgs.max.x
          ∧ ri.clampedRectMax.x = clamp 115 sampleArgs.min.x sampleArgs.max.x
          ∧ rj.clampedRectMin.x = clamp 285 sampleArgs.min.x sampleArgs.max.x
          ∧ rj.clampedRectMax.x = clamp 315 sampleArgs.min.x sampleArgs.max.x
          ∧ (ri.clampedRectMax.x < rj.clampedRectMin.x
              ∨ rj.clampedRectMax.x < ri.clampedRectMin.x) :=
  fftRedraw_same_row_disjoint sampleModuleApart sampleArgs sampleTextSize 0 0 0 1
    (sampleBookmark "a" 100) (sampleBookmark "b" 300) ⟨85, 115, 0⟩ ⟨285, 315, 0⟩
    (by decide) rfl rfl
    (by norm_num [fftRedraw, redrawLoop, redrawBookmark, sampleModuleApart, sampleArgs,
      sampleTextSize, sampleBookmark, sampleRecord, centerXpos, inRange, labelSpan, rowScan,
      foundOnrow, overlaps, labelRect, pushBack, round, clamp, BOOKMARK_DISP_MODE_OFF,
      BOOKMARK_DISP_MODE_TOP])
    (by norm_num [fftRedraw, redrawLoop, redrawBookmark, sampleModuleApart, sampleArgs,
      sampleTextSize, sampleBookmark, sampleRecord, centerXpos, inRange, labelSpan, rowScan,
      foundOnrow, overlaps, labelRect, pushBack, round, clamp, BOOKMARK_DISP_MODE_OFF,
      BOOKMARK_DISP_MODE_TOP])
    rfl (Or.inl (by decide))
    (by norm_num [sampleTextSize]) (by norm_num [sampleTextSize])
    (by norm_num [centerXpos, sampleArgs, sampleBookmark, sampleRecord, round])
    (by norm_num [centerXpos, sampleArgs, sampleBookmark, sampleRecord, round])

section PlacementLemmas
variable (m : BookmarkManagerModule) (args : FFTRedrawArgs) (calcTextSize : String → ImVec2)
  (now : Int) (weekDay : Fin 7)

end PlacementLemmas

section PairwiseOverlapping
variable (m : BookmarkManagerModule) (args : FFTRedrawArgs) (calcTextSize : String → ImVec2)
  (now : Int) (weekDay : Fin 7)

end PairwiseOverlapping

/-- Witness for C9: a record on air from 0600 to 2200, asked at 1200. -/
theorem bookmarkOnline_forward_window_witness :
    (bookmarkOnline { sampleRecord 7200000 with startTime := 600, endTime := 2200 } 1200 3 = true
        ↔ (600 : Int) ≤ 1200 ∧ (1200 : Int) < 2200)
      ∧ bookmarkOnline { sampleRecord 7200000 with startTime := 600, endTime := 2200 } 600 3
        = true
      ∧ bookmarkOnline { sampleRecord 7200000 with startTime := 600, endTime := 2200 } 2200 3
        = false :=
  bookmarkOnline_forward_window { sampleRecord 7200000 with startTime := 600, endTime := 2200 }
    1200 3 (by decide) rfl

/-- Witness for C10: a record on air from 2200 to 0600, asked at 2300. -/
theorem bookmarkOnline_wrap_window_witness :
    bookmarkOnline { sampleRecord 7200000 with startTime := 2200, endTime := 600 } 2300 3 = true
      ∧ bookmarkOnline { sampleRecord 7200000 with startTime := 2200, endTime := 600 } 0 3 = true
      ∧ bookmarkOnline { sampleRecord 7200000 with startTime := 2200, endTime := 600 } 559 3
        = true
      ∧ bookmarkOnline { sampleRecord 7200000 with startTime := 2200, endTime := 600 } 700 3
        = false
      ∧ bookmarkOnline { sampleRecord 7200000 with startTime := 2200, endTime := 600 } 1200 3
        = false :=
  (bookmarkOnline_wrap_window { sampleRecord 7200000 with startTime := 2200, endTime := 600 }
    2300 3 (by decide) rfl (by decide)).2.2.2 rfl rfl

section ModeLemmas
variable (args : FFTRedrawArgs) (calcTextSize : String → ImVec2) (now : Int) (weekDay : Fin 7)

end ModeLemmas

/-- C6, the code at a failing input. Frame one shows the labels at 100 and 300 apart on the
only row and stores the rectangle `[285, 315] × [0, 13]` for the second. The view is then
zoomed out; in frame two the spans are `[-5, 25]` and `[15, 45]`, so the clutter rule drops
the second label. Its stored rectangle is still the one of frame one, and the hit test of
the input pass reports it hovered for a pointer at `(300, 5)`, where nothing is drawn. -/
theorem fftRedraw_dropped_label_still_hit :
    (fftRedraw sampleModuleZoom sampleArgs sampleTextSize 0 0).placed
        = [some ⟨85, 115, 0⟩, some ⟨285, 315, 0⟩]
      ∧ (fftRedraw (afterRedraw sampleModuleZoom sampleArgs sampleTextSize 0 0) sampleArgsWide
          sampleTextSize 0 0).placed = [some ⟨-5, 25, 0⟩, none]
      ∧ (fftRedraw (afterRedraw sampleModuleZoom sampleArgs sampleTextSize 0 0) sampleArgsWide
          sampleTextSize 0 0).waterfallBookmarks.map
            (fun bm => (bm.bookmarkName, bm.clampedRectMin, bm.clampedRectMax))
        = [("a", ⟨0, 0⟩, ⟨25, 13⟩), ("b", ⟨285, 0⟩, ⟨315, 13⟩)]
      ∧ (hitTest (isMouseHoveringRect ⟨300, 5⟩) sampleArgsWide.lowFreq sampleArgsWide.highFreq
          (fftRedraw (afterRedraw sampleModuleZoom sampleArgs sampleTextSize 0 0) sampleArgsWide
            sampleTextSize 0 0).waterfallBookmarks).map
            (fun bm => (bm.bookmarkName, bm.clampedRectMin, bm.clampedRectMax))
        = some ("b", ⟨285, 0⟩, ⟨315, 13⟩) := by
  refine ⟨?_, ?_, ?_, ?_⟩ <;>
    norm_num [fftRedraw, afterRedraw, redrawLoop, redrawBookmark, sampleModuleZoom, sampleArgs,
      sampleArgsWide, sampleTextSize, sampleBookmark, sampleRecord, centerXpos, inRange,
      labelSpan, rowScan, foundOnrow, overlaps, labelRect, pushBack, round, clamp, hitTest,
      isMouseHoveringRect, BOOKMARK_DISP_MODE_OFF, BOOKMARK_DISP_MODE_TOP]

/-! ## Schedule evaluation: disabled days, equal times, time validation -/

/-- C11. On a weekday whose flag is false `bookmarkOnline` is false, at every time `now` and
for every `startTime` and `endTime` of the record. -/
theorem bookmarkOnline_disabled_day (bm : FrequencyBookmark) (now : Int) (weekDay : Fin 7)
    (hday : bm.days weekDay = false) : bookmarkOnline bm now weekDay = false := by
  simp [bookmarkOnline, hday]

/-- Witness for C11: a record with every day but Wednesday enabled, asked on Wednesday. -/
theorem bookmarkOnline_disabled_day_witness :
    bookmarkOnline { sampleRecord 7200000 with days := fun d => decide (d ≠ 3) } 1200 3 = false :=
  bookmarkOnline_disabled_day { sampleRecord 7200000 with days := fun d => decide (d ≠ 3) }
    1200 3 (by decide)

/-- C12. A record with `startTime = endTime`, on an enabled weekday: when both are 0 it is
online at every time `now`; when they are equal and not 0 it is offline at every time
`now`. The record of the scenario (7200000 Hz, bandwidth 3000, mode 5 = CW, times 0, all
days enabled) is online at every time and weekday. -/
theorem bookmarkOnline_equal_times (bm : FrequencyBookmark) (now : Int) (weekDay : Fin 7)
    (heq : bm.startTime = bm.endTime) (hday : bm.days weekDay = true) :
    (bm.startTime = 0 → bookmarkOnline bm now weekDay = true)
      ∧ (bm.startTime ≠ 0 → bookmarkOnline bm now weekDay = false)
      ∧ (∀ (t : Int) (d : Fin 7), bookmarkOnline (sampleRecord 7200000) t d = true) := by
  refine ⟨?_, ?_, ?_⟩
  · intro h0
    have h1 : bm.endTime = 0 := by rw [← heq]; exact h0
    simp [bookmarkOnline, hday, h0, h1]
  · intro hne
    have h1 : ¬ bm.endTime < bm.endTime := lt_irrefl _
    simp [bookmarkOnline, hday, heq, h1]
    intro h0
    exact absurd (heq.trans h0) hne
  · intro t d
    simp [bookmarkOnline, sampleRecord]

/-- Witness for C12: equal times 1200 on an enabled day, asked at 1200. -/
theorem bookmarkOnline_equal_times_witness :
    bookmarkOnline { sampleRecord 7200000 with startTime := 1200, endTime := 1200 } 1200 3
      = false :=
  (bookmarkOnline_equal_times { sampleRecord 7200000 with startTime := 1200, endTime := 1200 }
    1200 3 rfl rfl).2.1 (by decide)

/-- C13. `timeValid t` is true iff `t` is an HHMM value, `t = 100 * h + m` with hour `h` in
`[0, 23]` and minute `m` in `[0, 59]`; iff `0 ≤ t ≤ 2359` and the truncating remainder of
`t` by 100 is at most 59. Every negative `t` and every `t` whose remainder is 60 or more is
rejected. This holds for every integer, so for every 32-bit one. -/
theorem timeValid_iff (t : Int) :
    (timeValid t = true ↔ 0 ≤ t ∧ t ≤ 2359 ∧ t.tmod 100 ≤ 59)
      ∧ (timeValid t = true ↔
          ∃ h m : Int, 0 ≤ h ∧ h ≤ 23 ∧ 0 ≤ m ∧ m ≤ 59 ∧ t = 100 * h + m)
      ∧ (t < 0 → timeValid t = false)
      ∧ (60 ≤ t.tmod 100 → timeValid t = false) := by
  have hsplit := Int.tdiv_add_tmod t 100
  have key : timeValid t = true ↔ 0 ≤ t ∧ t ≤ 2359 ∧ t.tmod 100 ≤ 59 := by
    simp only [timeValid, Bool.and_eq_true, decide_eq_true_eq, ge_iff_le]
    by_cases hnn : 0 ≤ t
    · have h1 : t.tdiv 100 = t / 100 := Int.tdiv_eq_ediv hnn (by norm_num)
      have h2 : t.tmod 100 = t % 100 := Int.tmod_eq_emod hnn (by norm_num)
      rw [h1, h2]
      omega
    · have hneg : 0 ≤ -t := by omega
      have h1 : t.tdiv 100 = -((-t) / 100) := by
        have := Int.neg_tdiv (-t) 100
        rw [neg_neg] at this
        rw [this, Int.tdiv_eq_ediv hneg (by norm_num)]
      have h2 : t.tmod 100 = t - 100 * t.tdiv 100 := by omega
      rw [h2, h1]
      omega
  refine ⟨key, ?_, ?_, ?_⟩
  · rw [key]
    constructor
    · rintro ⟨h0, h1, h2⟩
      have e1 : t.tdiv 100 = t / 100 := Int.tdiv_eq_ediv h0 (by norm_num)
      have e2 : t.tmod 100 = t % 100 := Int.tmod_eq_emod h0 (by norm_num)
      refine ⟨t / 100, t % 100, ?_, ?_, ?_, ?_, ?_⟩ <;> omega
    · rintro ⟨h, m, h0, h1, m0, m1, rfl⟩
      have hnn : (0 : Int) ≤ 100 * h + m := by omega
      have e2 : (100 * h + m).tmod 100 = (100 * h + m) % 100 := Int.tmod_eq_emod hnn (by norm_num)
      rw [e2]
      omega
  · intro hneg
    rw [← Bool.not_eq_true, key]
    omega
  · intro h60
    rw [← Bool.not_eq_true, key]
    omega

/-! ## Pointer router -/

section RouterLemmas
variable (m : BookmarkManagerModule) (config : Config) (args : InputHandlerArgs)
  (io : PointerInput)

/-- Setting a flag to the value it has changes nothing. -/
theorem mouseAlreadyDown_eta (h : m.mouseAlreadyDown = true) :
    { m with mouseAlreadyDown := true } = m := by
  cases m
  simp_all

/-- A frame in the state ClickedInLabel: nothing is applied, no tooltip, the input is
marked consumed, and the flag falls when the button is up. -/
theorem fftInput_clicked (hmode : m.bookmarkDisplayMode ≠ BOOKMARK_DISP_MODE_OFF)
    (hc : m.mouseClickedInLabel = true) :
    fftInput m config args io
      = { mod := if !io.isMouseDown then { m with mouseClickedInLabel := false } else m
          config := config, inputHandled := true, applied := none, tooltip := none } := by
  have hoff : ¬ (m.bookmarkDisplayMode == BOOKMARK_DISP_MODE_OFF) = true := by
    simpa using hmode
  simp only [fftInput, hoff, Bool.false_eq_true, if_false, hc, if_true]

/-- A frame outside the state ClickedInLabel whose pointer hovers no in-range entry. -/
theorem fftInput_miss (hmode : m.bookmarkDisplayMode ≠ BOOKMARK_DISP_MODE_OFF)
    (hc : m.mouseClickedInLabel = false)
    (hhit : hitTest io.isMouseHoveringRect args.lowFreq args.highFreq m.waterfallBookmarks
      = none) :
    (fftInput m config args io).applied = none
      ∧ (fftInput m config args io).tooltip = none
      ∧ (fftInput m config args io).inputHandled = false
      ∧ (fftInput m config args io).config = config
      ∧ (fftInput m config args io).mod
        = (if !io.isMouseDown then
            { (if io.isMouseClicked then { m with mouseAlreadyDown := true } else m) with
              mouseAlreadyDown := false, mouseClickedInLabel := false }
          else if io.isMouseClicked then { m with mouseAlreadyDown := true } else m) := by
  have hoff : ¬ (m.bookmarkDisplayMode == BOOKMARK_DISP_MODE_OFF) = true := by
    simpa using hmode
  refine ⟨?_, ?_, ?_, ?_, ?_⟩ <;>
    simp only [fftInput, hoff, Bool.false_eq_true, if_false, hc, hhit, Option.isSome_none,
      Bool.not_false, Bool.and_true]

/-- A frame outside the state ClickedInLabel whose pointer hovers the in-range entry
`hoveredBookmark`. -/
theorem fftInput_hit (hmode : m.bookmarkDisplayMode ≠ BOOKMARK_DISP_MODE_OFF)
    (hc : m.mouseClickedInLabel = false) (hoveredBookmark : WaterfallBookmark)
    (hhit : hitTest io.isMouseHoveringRect args.lowFreq args.highFreq m.waterfallBookmarks
      = some hoveredBookmark) :
    fftInput m config args io
      = (if io.isMouseDown = true ∧ m.mouseAlreadyDown = true then
          { mod := m, config := config, inputHandled := false, applied := none
            tooltip := none }
        else if io.isMouseClicked then
          { mod := (clickLabel
              { (if !io.isMouseDown then
                  { m with mouseAlreadyDown := false, mouseClickedInLabel := false }
                else m) with mouseClickedInLabel := true } config hoveredBookmark).1
            config := (clickLabel
              { (if !io.isMouseDown then
                  { m with mouseAlreadyDown := false, mouseClickedInLabel := false }
                else m) with mouseClickedInLabel := true } config hoveredBookmark).2
            inputHandled := true
            applied := some (hoveredBookmark.bookmark, io.selectedVFO)
            tooltip := some hoveredBookmark }
        else
          { mod := if !io.isMouseDown then
              { m with mouseAlreadyDown := false, mouseClickedInLabel := false }
            else m
            config := config, inputHandled := true, applied := none
            tooltip := some hoveredBookmark }) := by
  have hoff : ¬ (m.bookmarkDisplayMode == BOOKMARK_DISP_MODE_OFF) = true := by
    simpa using hmode
  simp only [fftInput, hoff, Bool.false_eq_true, if_false, hc, hhit, Option.isSome_some,
    Bool.not_true, Bool.and_false]
  cases hd : io.isMouseDown <;> cases ha : m.mouseAlreadyDown <;> simp [ha]

/-- Source `loadFirst` leaves the display mode, the router flags, the list names and the
waterfall bookmarks as they are. -/
theorem loadFirst_untouched :
    (loadFirst m config).bookmarkDisplayMode = m.bookmarkDisplayMode
      ∧ (loadFirst m config).mouseAlreadyDown = m.mouseAlreadyDown
      ∧ (loadFirst m config).mouseClickedInLabel = m.mouseClickedInLabel
      ∧ (loadFirst m config).listNames = m.listNames
      ∧ (loadFirst m config).waterfallBookmarks = m.waterfallBookmarks := by
  unfold loadFirst
  split <;> exact ⟨rfl, rfl, rfl, rfl, rfl⟩

/-- Source `loadByName` leaves the display mode, the router flags, the list names and the
waterfall bookmarks as they are. -/
theorem loadByName_untouched (listName : String) :
    (loadByName m config listName).bookmarkDisplayMode = m.bookmarkDisplayMode
      ∧ (loadByName m config listName).mouseAlreadyDown = m.mouseAlreadyDown
      ∧ (loadByName m config listName).mouseClickedInLabel = m.mouseClickedInLabel
      ∧ (loadByName m config listName).listNames = m.listNames
      ∧ (loadByName m config listName).waterfallBookmarks = m.waterfallBookmarks := by
  simp only [loadByName]
  split
  · exact loadFirst_untouched _ config
  · exact ⟨rfl, rfl, rfl, rfl, rfl⟩

/-- The click handling leaves the display mode, the router flags, the list names and the
waterfall bookmarks as they are. -/
theorem clickLabel_untouched (hoveredBookmark : WaterfallBookmark) :
    (clickLabel m config hoveredBookmark).1.bookmarkDisplayMode = m.bookmarkDisplayMode
      ∧ (clickLabel m config hoveredBookmark).1.mouseAlreadyDown = m.mouseAlreadyDown
      ∧ (clickLabel m config hoveredBookmark).1.mouseClickedInLabel = m.mouseClickedInLabel
      ∧ (clickLabel m config hoveredBookmark).1.listNames = m.listNames
      ∧ (clickLabel m config hoveredBookmark).1.waterfallBookmarks = m.waterfallBookmarks := by
  simp only [clickLabel]
  split
  · exact loadByName_untouched m config _
  · exact ⟨rfl, rfl, rfl, rfl, rfl⟩

/-- A frame never changes the display mode. -/
theorem fftInput_mode :
    (fftInput m config args io).mod.bookmarkDisplayMode = m.bookmarkDisplayMode := by
  by_cases hmode : m.bookmarkDisplayMode = BOOKMARK_DISP_MODE_OFF
  · have hoff : (m.bookmarkDisplayMode == BOOKMARK_DISP_MODE_OFF) = true := by simpa using hmode
    simp only [fftInput, hoff, if_true]
  · cases hc : m.mouseClickedInLabel
    · cases hhit : hitTest io.isMouseHoveringRect args.lowFreq args.highFreq
          m.waterfallBookmarks with
      | none =>
        rw [(fftInput_miss m config args io hmode hc hhit).2.2.2.2]
        cases io.isMouseDown <;> cases io.isMouseClicked <;> rfl
      | some hb =>
        rw [fftInput_hit m config args io hmode hc hb hhit]
        have hclick : ∀ x : BookmarkManagerModule,
            (clickLabel x config hb).1.bookmarkDisplayMode = x.bookmarkDisplayMode :=
          fun x => (clickLabel_untouched x config hb).1
        split
        · rfl
        · split
          · rw [hclick]
            cases io.isMouseDown <;> rfl
          · cases io.isMouseDown <;> rfl
    · rw [fftInput_clicked m config args io hmode hc]
      cases io.isMouseDown <;> rfl

end RouterLemmas

section RouterFrames
variable (config : Config)

/-- The k-th frame of a sequence runs `fftInput` on the state the frames before it left,
and that state has the display mode of the start. -/
theorem fftInputFrames_at (frames : List (InputHandlerArgs × PointerInput)) :
    ∀ (m : BookmarkManagerModule) (config : Config) (k : Nat)
      (frame : InputHandlerArgs × PointerInput),
      frames[k]? = some frame →
      ∃ st, (fftInputStates m config frames)[k]? = some st
        ∧ (fftInputFrames m config frames)[k]? = some (fftInput st.1 st.2 frame.1 frame.2)
        ∧ st.1.bookmarkDisplayMode = m.bookmarkDisplayMode := by
  induction frames with
  | nil => intro m config k frame h; simp at h
  | cons f rest ih =>
    intro m config k frame h
    cases k with
    | zero =>
      simp only [List.getElem?_cons_zero, Option.some.injEq] at h
      subst h
      exact ⟨(m, config), by simp [fftInputStates], by simp [fftInputFrames], rfl⟩
    | succ k =>
      simp only [List.getElem?_cons_succ] at h
      obtain ⟨st, h1, h2, h3⟩ := ih (fftInput m config f.1 f.2).mod
        (fftInput m config f.1 f.2).config k frame h
      refine ⟨st, ?_, ?_, ?_⟩
      · simpa [fftInputStates] using h1
      · simpa [fftInputFrames] using h2
      · rw [h3, fftInput_mode]

/-- From the state ClickedInLabel, while the button stays down: every frame marks the
input consumed, applies nothing, shows no tooltip and leaves the module as it is. -/
theorem fftInputFrames_held (frames : List (InputHandlerArgs × PointerInput)) :
    ∀ (m : BookmarkManagerModule) (config : Config),
      m.bookmarkDisplayMode ≠ BOOKMARK_DISP_MODE_OFF →
      m.mouseClickedInLabel = true →
      (∀ f ∈ frames, f.2.isMouseDown = true) →
      ∀ r ∈ fftInputFrames m config frames,
        r.applied = none ∧ r.tooltip = none ∧ r.inputHandled = true ∧ r.mod = m
          ∧ r.config = config := by
  induction frames with
  | nil => intro m config _ _ _ r hr; simp [fftInputFrames] at hr
  | cons f rest ih =>
    intro m config hmode hc hdown r hr
    have hd : f.2.isMouseDown = true := hdown f (List.mem_cons_self _ _)
    have hstep := fftInput_clicked m config f.1 f.2 hmode hc
    simp only [hd, Bool.not_true, Bool.false_eq_true, if_false] at hstep
    simp only [fftInputFrames, List.mem_cons] at hr
    rw [hstep] at hr
    rcases hr with h | h
    · subst h
      exact ⟨rfl, rfl, rfl, rfl, rfl⟩
    · exact ih m config hmode hc (fun g hg => hdown g (List.mem_cons_of_mem _ hg)) r h

/-- From the state ButtonDownOutsideLabel, while the button stays down: no frame applies a
bookmark, shows a tooltip, marks the input consumed or changes the module or the
configuration. -/
theorem fftInputFrames_outside (frames : List (InputHandlerArgs × PointerInput)) :
    ∀ (m : BookmarkManagerModule) (config : Config),
      m.bookmarkDisplayMode ≠ BOOKMARK_DISP_MODE_OFF →
      m.mouseAlreadyDown = true → m.mouseClickedInLabel = false →
      (∀ f ∈ frames, f.2.isMouseDown = true) →
      ∀ r ∈ fftInputFrames m config frames,
        r.applied = none ∧ r.tooltip = none ∧ r.inputHandled = false ∧ r.mod = m
          ∧ r.config = config := by
  induction frames with
  | nil => intro m config _ _ _ _ r hr; simp [fftInputFrames] at hr
  | cons f rest ih =>
    intro m config hmode ha hc hdown r hr
    have hd : f.2.isMouseDown = true := hdown f (List.mem_cons_self _ _)
    have hstep : fftInput m config f.1 f.2
        = { mod := m, config := config, inputHandled := false, applied := none
            tooltip := none } := by
      cases hhit : hitTest f.2.isMouseHoveringRect f.1.lowFreq f.1.highFreq
          m.waterfallBookmarks with
      | none =>
        obtain ⟨h1, h2, h3, h4, h5⟩ := fftInput_miss m config f.1 f.2 hmode hc hhit
        simp only [hd, Bool.not_true, Bool.false_eq_true, if_false,
          mouseAlreadyDown_eta m ha, ite_self] at h5
        cases hres : fftInput m config f.1 f.2
        simp_all
      | some hb =>
        rw [fftInput_hit m config f.1 f.2 hmode hc hb hhit, if_pos ⟨hd, ha⟩]
    simp only [fftInputFrames, List.mem_cons] at hr
    rw [hstep] at hr
    rcases hr with h | h
    · subst h
      exact ⟨rfl, rfl, rfl, rfl, rfl⟩
    · exact ih m config hmode ha hc (fun g hg => hdown g (List.mem_cons_of_mem _ hg)) r h

end RouterFrames

/-- C15. A press that hits no label, from the state Idle with the display mode on, puts the
router in ButtonDownOutsideLabel without applying anything or marking the input consumed.
In every following frame in which the button is still down, wherever the pointer is, also
over a label: no bookmark is applied, no tooltip is shown, the input is not marked
consumed, and the module (with the selection flags of its bookmarks) and the configuration
stay as they are. -/
theorem fftInput_press_outside_suppresses (m : BookmarkManagerModule) (config : Config)
    (args : InputHandlerArgs) (io : PointerInput)
    (frames : List (InputHandlerArgs × PointerInput))
    (hmode : m.bookmarkDisplayMode ≠ BOOKMARK_DISP_MODE_OFF)
    (hidle : m.mouseAlreadyDown = false ∧ m.mouseClickedInLabel = false)
    (hclick : io.isMouseClicked = true) (hdown : io.isMouseDown = true)
    (hmiss : hitTest io.isMouseHoveringRect args.lowFreq args.highFreq m.waterfallBookmarks
      = none)
    (hheld : ∀ f ∈ frames, f.2.isMouseDown = true) :
    (fftInput m config args io).mod = { m with mouseAlreadyDown := true }
      ∧ (fftInput m config args io).mod.mouseAlreadyDown = true
      ∧ (fftInput m config args io).mod.mouseClickedInLabel = false
      ∧ (fftInput m config args io).applied = none
      ∧ (fftInput m config args io).inputHandled = false
      ∧ (fftInput m config args io).config = config
      ∧ ∀ r ∈ fftInputFrames (fftInput m config args io).mod
            (fftInput m config args io).config frames,
          r.applied = none ∧ r.tooltip = none ∧ r.inputHandled = false
            ∧ r.mod = (fftInput m config args io).mod
            ∧ r.mod.bookmarks = m.bookmarks
            ∧ r.config = config := by
  obtain ⟨h1, _, h3, h4, h5⟩ := fftInput_miss m config args io hmode hidle.2 hmiss
  simp only [hdown, hclick, Bool.not_true, Bool.false_eq_true, if_false, if_true] at h5
  have hmode' : (fftInput m config args io).mod.bookmarkDisplayMode
      ≠ BOOKMARK_DISP_MODE_OFF := by
    rw [fftInput_mode]; exact hmode
  have ha : (fftInput m config args io).mod.mouseAlreadyDown = true := by rw [h5]
  have hc : (fftInput m config args io).mod.mouseClickedInLabel = false := by
    rw [h5]; exact hidle.2
  refine ⟨h5, ha, hc, h1, h3, h4, ?_⟩
  intro r hr
  obtain ⟨a1, a2, a3, a4, a5⟩ := fftInputFrames_outside frames _ _ hmode' ha hc hheld r hr
  refine ⟨a1, a2, a3, a4, ?_, ?_⟩
  · rw [a4, h5]
  · rw [a5, h4]

/-- Witness for C15: a press at `(500, 5)`, away from the label, then a frame with the
button held and the pointer moved onto the label at `(100, 5)`. -/
theorem fftInput_press_outside_suppresses_witness :
    (fftInput sampleModuleInput sampleConfig sampleInputArgs
        (samplePointer ⟨500, 5⟩ true true)).mod.mouseAlreadyDown = true
      ∧ ∀ r ∈ fftInputFrames
            (fftInput sampleModuleInput sampleConfig sampleInputArgs
              (samplePointer ⟨500, 5⟩ true true)).mod
            (fftInput sampleModuleInput sampleConfig sampleInputArgs
              (samplePointer ⟨500, 5⟩ true true)).config
            [(sampleInputArgs, samplePointer ⟨100, 5⟩ true false)],
          r.applied = none ∧ r.inputHandled = false := by
  obtain ⟨_, h2, _, _, _, _, h7⟩ :=
    fftInput_press_outside_suppresses sampleModuleInput sampleConfig sampleInputArgs
      (samplePointer ⟨500, 5⟩ true true) [(sampleInputArgs, samplePointer ⟨100, 5⟩ true false)]
      (by decide) ⟨rfl, rfl⟩ rfl rfl
      (by norm_num [sampleModuleInput, sampleInputArgs, samplePointer, hitTest, inRange,
        isMouseHoveringRect, sampleBookmark, sampleRecord])
      (by
        intro f hf
        simp only [List.mem_singleton] at hf
        subst hf
        rfl)
  exact ⟨h2, fun r hr => ⟨(h7 r hr).1, (h7 r hr).2.2.1⟩⟩

/-- C16 as amended. In a frame with the display mode on whose pointer hovers the rectangle
of an in-range entry, the tooltip shown is that of the hovered entry (the last one in list
order) exactly when the router is not in ClickedInLabel at the start of the frame and it is
not the case that the button is down with `mouseAlreadyDown` set; otherwise no tooltip is
shown. So from Idle the tooltip is shown whatever the button does, from
ButtonDownOutsideLabel only once the button is up, and from ClickedInLabel never. -/
theorem fftInput_tooltip_iff (m : BookmarkManagerModule) (config : Config)
    (args : InputHandlerArgs) (io : PointerInput) (hoveredBookmark : WaterfallBookmark)
    (hmode : m.bookmarkDisplayMode ≠ BOOKMARK_DISP_MODE_OFF)
    (hhit : hitTest io.isMouseHoveringRect args.lowFreq args.highFreq m.waterfallBookmarks
      = some hoveredBookmark) :
    ((fftInput m config args io).tooltip = some hoveredBookmark ↔
        m.mouseClickedInLabel = false
          ∧ ¬ (io.isMouseDown = true ∧ m.mouseAlreadyDown = true))
      ∧ ((fftInput m config args io).tooltip = none ↔
        m.mouseClickedInLabel = true ∨ (io.isMouseDown = true ∧ m.mouseAlreadyDown = true))
      ∧ (m.mouseAlreadyDown = false → m.mouseClickedInLabel = false →
          (fftInput m config args io).tooltip = some hoveredBookmark)
      ∧ (m.mouseClickedInLabel = true → (fftInput m config args io).tooltip = none) := by
  cases hc : m.mouseClickedInLabel
  · rw [fftInput_hit m config args io hmode hc hoveredBookmark hhit]
    cases hd : io.isMouseDown <;> cases ha : m.mouseAlreadyDown <;>
      cases hk : io.isMouseClicked <;> simp
  · rw [fftInput_clicked m config args io hmode hc]
    simp

/-- Witness for C16 as amended: from Idle, hovering the label with the button held shows
the tooltip. -/
theorem fftInput_tooltip_iff_witness :
    (fftInput sampleModuleInput sampleConfig sampleInputArgs
        (samplePointer ⟨100, 5⟩ true false)).tooltip
      = some { sampleBookmark "a" 100 with
          clampedRectMin := ⟨85, 0⟩, clampedRectMax := ⟨115, 13⟩ } :=
  (fftInput_tooltip_iff sampleModuleInput sampleConfig sampleInputArgs
    (samplePointer ⟨100, 5⟩ true false)
    { sampleBookmark "a" 100 with clampedRectMin := ⟨85, 0⟩, clampedRectMax := ⟨115, 13⟩ }
    (by decide)
    (by norm_num [sampleModuleInput, sampleInputArgs, samplePointer, hitTest, inRange,
      isMouseHoveringRect, sampleBookmark, sampleRecord])).2.2.1 rfl rfl

/-- C16, the claim as stated fails. The router is in ClickedInLabel, the display mode is
on and the pointer at `(100, 5)` hovers the rectangle of the in-range entry "a": the frame
shows no tooltip. -/
theorem fftInput_tooltip_hidden_when_clicked :
    ({ sampleModuleInput with mouseClickedInLabel := true } : BookmarkManagerModule
        ).bookmarkDisplayMode ≠ BOOKMARK_DISP_MODE_OFF
      ∧ (hitTest (samplePointer ⟨100, 5⟩ true false).isMouseHoveringRect
          sampleInputArgs.lowFreq sampleInputArgs.highFreq
          ({ sampleModuleInput with mouseClickedInLabel := true } : BookmarkManagerModule
            ).waterfallBookmarks).isSome = true
      ∧ (fftInput { sampleModuleInput with mouseClickedInLabel := true } sampleConfig
          sampleInputArgs (samplePointer ⟨100, 5⟩ true false)).tooltip = none := by
  refine ⟨by decide, ?_, ?_⟩
  · norm_num [sampleModuleInput, sampleInputArgs, samplePointer, hitTest, inRange,
      isMouseHoveringRect, sampleBookmark, sampleRecord]
  · simp [fftInput, sampleModuleInput, BOOKMARK_DISP_MODE_OFF, BOOKMARK_DISP_MODE_TOP]

/-! ## Maps with string keys: lemmas -/

section MapLemmas
variable {α β : Type}

/-- After `m[key] = value` the key is found with that value. -/
theorem mapFind_mapAssign_self (key : String) (value : α) (entries : List (String × α)) :
    mapFind key (mapAssign key value entries) = some value := by
  induction entries with
  | nil => simp [mapAssign, mapFind]
  | cons e rest ih =>
    obtain ⟨k, v⟩ := e
    unfold mapAssign
    split
    · simp [mapFind]
    · rename_i hne
      split
      · simp [mapFind]
      · have hne' : ¬ k = key := fun h => hne h.symm
        simp only [mapFind, hne', if_false]
        exact ih

/-- The assignment `m[key] = value` leaves the other keys as they are. -/
theorem mapFind_mapAssign_ne (key other : String) (value : α) (entries : List (String × α))
    (hne : other ≠ key) : mapFind other (mapAssign key value entries) = mapFind other entries := by
  induction entries with
  | nil =>
    have hne' : ¬ key = other := fun h => hne h.symm
    simp [mapAssign, mapFind, hne']
  | cons e rest ih =>
    obtain ⟨k, v⟩ := e
    have hne' : ¬ key = other := fun h => hne h.symm
    unfold mapAssign
    split
    · rename_i hk
      subst hk
      simp [mapFind, hne']
    · split
      · simp [mapFind, hne']
      · by_cases hko : k = other
        · simp [mapFind, hko]
        · simp only [mapFind, hko, if_false]
          exact ih

/-- A key found in a map is the key of one of its entries. -/
theorem mem_of_mapFind {key : String} {value : α} {entries : List (String × α)}
    (h : mapFind key entries = some value) : (key, value) ∈ entries := by
  induction entries with
  | nil => simp [mapFind] at h
  | cons e rest ih =>
    obtain ⟨k, v⟩ := e
    unfold mapFind at h
    split at h
    · rename_i hk
      simp only [Option.some.injEq] at h
      subst hk h
      exact List.mem_cons_self _ _
    · exact List.mem_cons_of_mem _ (ih h)

/-- A key not found in a map is the key of none of its entries. -/
theorem not_mem_keys_of_mapFind {key : String} {entries : List (String × α)}
    (h : mapFind key entries = none) : key ∉ entries.map Prod.fst := by
  induction entries with
  | nil => simp
  | cons e rest ih =>
    obtain ⟨k, v⟩ := e
    unfold mapFind at h
    split at h
    · simp at h
    · rename_i hk
      simp only [List.map_cons, List.mem_cons, not_or]
      exact ⟨fun h' => hk h'.symm, ih h⟩

/-- A key of no entry is not found. -/
theorem mapFind_of_not_mem_keys {key : String} {entries : List (String × α)}
    (h : key ∉ entries.map Prod.fst) : mapFind key entries = none := by
  induction entries with
  | nil => rfl
  | cons e rest ih =>
    obtain ⟨k, v⟩ := e
    simp only [List.map_cons, List.mem_cons, not_or] at h
    have hk : ¬ k = key := fun h' => h.1 h'.symm
    simp only [mapFind, hk, if_false]
    exact ih h.2

/-- Keys in strictly increasing order are distinct. -/
theorem keysSorted_nodup {keys : List String} (h : keysSorted keys) : keys.Nodup := by
  unfold keysSorted at h
  refine List.Pairwise.imp ?_ h
  intro a b hab heq
  subst heq
  exact lt_irrefl a (String.lt_iff_toList_lt.2 hab)

/-- A key larger than every key of a map in key order is inserted at the end. -/
theorem mapAssign_of_all_lt (key : String) (value : α) (entries : List (String × α))
    (h : ∀ e ∈ entries, e.1.toList < key.toList) :
    mapAssign key value entries = entries ++ [(key, value)] := by
  induction entries with
  | nil => rfl
  | cons e rest ih =>
    obtain ⟨k, v⟩ := e
    have hlt : k < key := String.lt_iff_toList_lt.2 (h (k, v) (List.mem_cons_self _ _))
    have hne : ¬ key = k := fun he => (ne_of_gt hlt) he
    have hnlt : ¬ key.toList < k.toList := fun h' =>
      lt_asymm hlt (String.lt_iff_toList_lt.2 h')
    simp only [mapAssign, hne, if_false, hnlt, List.cons_append]
    rw [ih (fun e he => h e (List.mem_cons_of_mem _ he))]

/-- Inserting the entries of a map in key order, in that order, after a map whose keys
are all smaller, appends them. -/
theorem foldl_mapAssign_sorted (f : α → β) (entries : List (String × α)) :
    ∀ acc : List (String × β),
      keysSorted (acc.map Prod.fst ++ entries.map Prod.fst) →
      entries.foldl (fun bookmarks item => mapAssign item.1 (f item.2) bookmarks) acc
        = acc ++ entries.map (fun item => (item.1, f item.2)) := by
  induction entries with
  | nil => intro acc _; simp
  | cons e rest ih =>
    intro acc hs
    have hall : ∀ x ∈ acc, x.1.toList < e.1.toList := by
      intro x hx
      unfold keysSorted at hs
      rw [List.pairwise_append] at hs
      exact hs.2.2 x.1 (List.mem_map_of_mem _ hx) e.1 (by simp)
    simp only [List.foldl_cons, List.map_cons]
    rw [mapAssign_of_all_lt e.1 (f e.2) acc hall, ih]
    · simp
    · simpa using hs

/-- Selecting by name in a map with distinct keys selects exactly one entry when the name
is a key. -/
theorem filter_key_length_one (entries : List (String × α)) (name : String)
    (hnodup : (entries.map Prod.fst).Nodup) (hmem : name ∈ entries.map Prod.fst) :
    (entries.filter (fun item => item.1 == name)).length = 1 := by
  induction entries with
  | nil => simp at hmem
  | cons e rest ih =>
    obtain ⟨k, v⟩ := e
    simp only [List.map_cons, List.nodup_cons] at hnodup
    simp only [List.map_cons, List.mem_cons] at hmem
    by_cases hk : k = name
    · subst hk
      have hrest : rest.filter (fun item => item.1 == k) = [] := by
        rw [List.filter_eq_nil_iff]
        intro x hx hxk
        have : x.1 = k := by simpa using hxk
        exact hnodup.1 (this ▸ List.mem_map_of_mem _ hx)
      simp [List.filter_cons, hrest]
    · have hmem' : name ∈ rest.map Prod.fst := by
        rcases hmem with h | h
        · exact absurd h.symm hk
        · exact h
      have hbeq : ((k, v).1 == name) = false := by simpa using hk
      rw [List.filter_cons, hbeq]
      exact ih hnodup.2 hmem'

end MapLemmas

/-! ## Click on a label -/

/-- Source `loadByName` for a list that is in `listNames`, its bookmarks object in key
order: the list becomes the active one and the map `bookmarks` holds the records read from
the configuration, none selected. -/
theorem loadByName_found (m : BookmarkManagerModule) (config : Config) (listName : String)
    (hlist : listName ∈ m.listNames) (hsorted : mapSorted (configBookmarks config listName)) :
    (loadByName m config listName).selectedListName = listName
      ∧ (loadByName m config listName).selectedListId = m.listNames.indexOf listName
      ∧ (loadByName m config listName).bookmarks
        = (configBookmarks config listName).map (fun item => (item.1, loadRecord item.2)) := by
  have hnot : ¬ listName ∉ m.listNames := fun h => h hlist
  have hload : loadByName m config listName
      = loadFound { m with bookmarks := [], sortSpecsDirty := true } config listName := by
    simp only [loadByName, hnot, if_false]
  rw [hload]
  refine ⟨rfl, rfl, ?_⟩
  show (configBookmarks config listName).foldl
      (fun bookmarks item => mapAssign item.1 (loadRecord item.2) bookmarks) [] = _
  rw [foldl_mapAssign_sorted loadRecord _ [] (by simpa [mapSorted] using hsorted)]
  rfl

/-- C17. A click on a label: a frame with the display mode on, the router Idle, the left
button pressed and the pointer on the in-range entry `hoveredBookmark`, whose list is one
of `listNames`; maps are in key order. The frame applies the record of the entry. The
active list is the list of the entry: when it was another list, its name is stored in the
module and in the configuration and the map `bookmarks` is loaded from it. Then the
bookmark of the active list whose name is the name of the entry is selected and every
other one is deselected, so exactly one bookmark is selected when that name is in the
list; and `scrollToClickedBookmark` is set. -/
theorem fftInput_click_selects (m : BookmarkManagerModule) (config : Config)
    (args : InputHandlerArgs) (io : PointerInput) (hoveredBookmark : WaterfallBookmark)
    (hmode : m.bookmarkDisplayMode ≠ BOOKMARK_DISP_MODE_OFF)
    (hidle : m.mouseAlreadyDown = false ∧ m.mouseClickedInLabel = false)
    (hclick : io.isMouseClicked = true)
    (hhit : hitTest io.isMouseHoveringRect args.lowFreq args.highFreq m.waterfallBookmarks
      = some hoveredBookmark)
    (hlist : hoveredBookmark.listName ∈ m.listNames)
    (hconfig : mapSorted (configBookmarks config hoveredBookmark.listName))
    (hmap : mapSorted m.bookmarks) :
    (fftInput m config args io).applied = some (hoveredBookmark.bookmark, io.selectedVFO)
      ∧ (fftInput m config args io).mod.selectedListName = hoveredBookmark.listName
      ∧ (hoveredBookmark.listName ≠ m.selectedListName →
          (fftInput m config args io).config
              = { config with selectedList := hoveredBookmark.listName }
            ∧ (fftInput m config args io).mod.selectedListId
              = m.listNames.indexOf hoveredBookmark.listName
            ∧ (fftInput m config args io).mod.bookmarks
              = (configBookmarks config hoveredBookmark.listName).map
                  (fun item => (item.1, { loadRecord item.2 with
                    selected := item.1 == hoveredBookmark.bookmarkName })))
      ∧ (hoveredBookmark.listName = m.selectedListName →
          (fftInput m config args io).config = config
            ∧ (fftInput m config args io).mod.bookmarks
              = m.bookmarks.map
                  (fun item => (item.1, { item.2 with
                    selected := item.1 == hoveredBookmark.bookmarkName })))
      ∧ (∀ item ∈ (fftInput m config args io).mod.bookmarks,
          item.2.selected = true ↔ item.1 = hoveredBookmark.bookmarkName)
      ∧ (hoveredBookmark.bookmarkName ∈ (fftInput m config args io).mod.bookmarks.map Prod.fst →
          ((fftInput m config args io).mod.bookmarks.filter
            (fun item => item.2.selected)).length = 1)
      ∧ (fftInput m config args io).mod.scrollToClickedBookmark = true := by
  have hnot : ¬ (io.isMouseDown = true ∧ m.mouseAlreadyDown = true) := by
    rintro ⟨_, h⟩
    rw [hidle.1] at h
    exact absurd h (by simp)
  have hstep := fftInput_hit m config args io hmode hidle.2 hoveredBookmark hhit
  rw [if_neg hnot, hclick] at hstep
  simp only [if_true] at hstep
  -- the click handling runs on the module with the flag set
  have hbase : ∀ x : BookmarkManagerModule, x.bookmarks = m.bookmarks →
      x.listNames = m.listNames → x.selectedListName = m.selectedListName →
      (∃ source : List (String × FrequencyBookmark),
        mapSorted source
          ∧ (clickLabel x config hoveredBookmark).1.bookmarks
            = source.map (fun item => (item.1, { item.2 with
                selected := item.1 == hoveredBookmark.bookmarkName })))
        ∧ (clickLabel x config hoveredBookmark).1.selectedListName = hoveredBookmark.listName
        ∧ (hoveredBookmark.listName ≠ m.selectedListName →
            (clickLabel x config hoveredBookmark).2
                = { config with selectedList := hoveredBookmark.listName }
              ∧ (clickLabel x config hoveredBookmark).1.selectedListId
                = m.listNames.indexOf hoveredBookmark.listName
              ∧ (clickLabel x config hoveredBookmark).1.bookmarks
                = (configBookmarks config hoveredBookmark.listName).map
                    (fun item => (item.1, { loadRecord item.2 with
                      selected := item.1 == hoveredBookmark.bookmarkName })))
        ∧ (hoveredBookmark.listName = m.selectedListName →
            (clickLabel x config hoveredBookmark).2 = config
              ∧ (clickLabel x config hoveredBookmark).1.bookmarks
                = m.bookmarks.map
                    (fun item => (item.1, { item.2 with
                      selected := item.1 == hoveredBookmark.bookmarkName })))
        ∧ (clickLabel x config hoveredBookmark).1.scrollToClickedBookmark = true := by
    intro x hxb hxl hxs
    have hlist' : hoveredBookmark.listName ∈ x.listNames := by rw [hxl]; exact hlist
    obtain ⟨l1, l2, l3⟩ := loadByName_found x config hoveredBookmark.listName hlist' hconfig
    by_cases hne : hoveredBookmark.listName = m.selectedListName
    · have hbeq : (hoveredBookmark.listName != x.selectedListName) = false := by
        rw [hxs]; simpa using hne
      have hcl : clickLabel x config hoveredBookmark
          = ({ x with
                bookmarks := x.bookmarks.map
                  (fun item => (item.1, { item.2 with
                    selected := item.1 == hoveredBookmark.bookmarkName }))
                scrollToClickedBookmark := true },
              config) := by
        simp only [clickLabel, hbeq, Bool.false_eq_true, if_false]
      rw [hcl]
      refine ⟨⟨m.bookmarks, hmap, ?_⟩, ?_, fun h => absurd hne h, fun _ => ⟨rfl, ?_⟩, rfl⟩
      · show x.bookmarks.map _ = _
        rw [hxb]
      · show x.selectedListName = _
        rw [hxs, hne]
      · show x.bookmarks.map _ = _
        rw [hxb]
    · have hbeq : (hoveredBookmark.listName != x.selectedListName) = true := by
        rw [hxs]; simpa using hne
      have hcl : clickLabel x config hoveredBookmark
          = ({ ({ loadByName x config hoveredBookmark.listName with
                  selectedListName := hoveredBookmark.listName } : BookmarkManagerModule) with
                bookmarks := (loadByName x config hoveredBookmark.listName).bookmarks.map
                  (fun item => (item.1, { item.2 with
                    selected := item.1 == hoveredBookmark.bookmarkName }))
                scrollToClickedBookmark := true },
              { config with selectedList := hoveredBookmark.listName }) := by
        simp only [clickLabel, hbeq, if_true]
      rw [hcl]
      have hloaded : (loadByName x config hoveredBookmark.listName).bookmarks.map
          (fun item => (item.1, { item.2 with
            selected := item.1 == hoveredBookmark.bookmarkName }))
          = (configBookmarks config hoveredBookmark.listName).map
              (fun item => (item.1, { loadRecord item.2 with
                selected := item.1 == hoveredBookmark.bookmarkName })) := by
        rw [l3, List.map_map]
        rfl
      refine ⟨⟨(configBookmarks config hoveredBookmark.listName).map
          (fun item => (item.1, loadRecord item.2)), ?_, ?_⟩, rfl, fun _ => ⟨rfl, ?_, ?_⟩,
        fun h => absurd h hne, rfl⟩
      · unfold mapSorted at hconfig ⊢
        simpa [List.map_map, Function.comp] using hconfig
      · show (loadByName x config hoveredBookmark.listName).bookmarks.map _ = _
        rw [l3]
      · show (loadByName x config hoveredBookmark.listName).selectedListId = _
        rw [l2, hxl]
      · exact hloaded
  obtain ⟨⟨source, hsrc, hbm⟩, hname, hswitch, hsame, hscroll⟩ :=
    hbase { (if !io.isMouseDown then
        { m with mouseAlreadyDown := false, mouseClickedInLabel := false }
      else m) with mouseClickedInLabel := true }
      (by cases io.isMouseDown <;> rfl) (by cases io.isMouseDown <;> rfl)
      (by cases io.isMouseDown <;> rfl)
  rw [hstep]
  refine ⟨rfl, hname, hswitch, hsame, ?_, ?_, hscroll⟩
  · intro item hitem
    simp only at hitem
    rw [hbm] at hitem
    obtain ⟨src, _, rfl⟩ := List.mem_map.1 hitem
    simp
  · intro hmem
    simp only at hmem ⊢
    rw [hbm] at hmem ⊢
    have hkeys : (source.map (fun item : String × FrequencyBookmark => (item.1,
        { item.2 with selected := item.1 == hoveredBookmark.bookmarkName }))).map Prod.fst
        = source.map Prod.fst := by
      simp [List.map_map, Function.comp]
    rw [hkeys] at hmem
    have hfilter : (source.map (fun item : String × FrequencyBookmark => (item.1,
        { item.2 with selected := item.1 == hoveredBookmark.bookmarkName }))).filter
          (fun item => item.2.selected)
        = (source.filter (fun item => item.1 == hoveredBookmark.bookmarkName)).map
            (fun item => (item.1,
              { item.2 with selected := item.1 == hoveredBookmark.bookmarkName })) := by
      rw [List.filter_map]
      rfl
    rw [hfilter, List.length_map]
    exact filter_key_length_one source _ (keysSorted_nodup hsrc) hmem

/-- Witness for C17: a click on the label "a" of the active list, in which "b" was
selected: afterwards one bookmark is selected and the scroll is requested. -/
theorem fftInput_click_selects_witness :
    ((fftInput sampleModuleInput sampleConfig sampleInputArgs
        (samplePointer ⟨100, 5⟩ true true)).mod.bookmarks.filter
          (fun item => item.2.selected)).length = 1
      ∧ (fftInput sampleModuleInput sampleConfig sampleInputArgs
        (samplePointer ⟨100, 5⟩ true true)).mod.scrollToClickedBookmark = true := by
  obtain ⟨_, _, _, hsame, _, hone, hscroll⟩ :=
    fftInput_click_selects sampleModuleInput sampleConfig sampleInputArgs
      (samplePointer ⟨100, 5⟩ true true)
      { sampleBookmark "a" 100 with clampedRectMin := ⟨85, 0⟩, clampedRectMax := ⟨115, 13⟩ }
      (by decide) ⟨rfl, rfl⟩ rfl
      (by norm_num [sampleModuleInput, sampleInputArgs, samplePointer, hitTest, inRange,
        isMouseHoveringRect, sampleBookmark, sampleRecord])
      (by simp [sampleModuleInput, sampleBookmark])
      (by
        simp only [mapSorted, keysSorted, configBookmarks, sampleConfig, sampleBookmark,
          mapFind, if_true, sampleListGeneral, List.map_cons, List.map_nil]
        decide)
      (by
        simp only [mapSorted, keysSorted, sampleModuleInput, List.map_cons, List.map_nil]
        decide)
  refine ⟨hone ?_, hscroll⟩
  rw [(hsame rfl).2]
  simp [sampleModuleInput, sampleBookmark]

/-! ## Saving, exporting and importing: theorems -/

theorem keysSorted_cons (a : String) (keys : List String) :
    keysSorted (a :: keys) ↔ (∀ b ∈ keys, a < b) ∧ keysSorted keys := by
  unfold keysSorted
  rw [List.pairwise_cons]
  constructor
  · exact fun h => ⟨fun b hb => String.lt_iff_toList_lt.2 (h.1 b hb), h.2⟩
  · exact fun h => ⟨fun b hb => String.lt_iff_toList_lt.1 (h.1 b hb), h.2⟩

section MapLemmas

variable {α β : Type}

theorem mem_keys_mapAssign (key : String) (value : α) (entries : List (String × α))
    (x : String) (hx : x ∈ (mapAssign key value entries).map Prod.fst) :
    x = key ∨ x ∈ entries.map Prod.fst := by
  induction entries with
  | nil =>
    simp only [mapAssign, List.map_cons, List.map_nil, List.mem_singleton] at hx
    exact Or.inl hx
  | cons e rest ih =>
    obtain ⟨k, v⟩ := e
    unfold mapAssign at hx
    split_ifs at hx with h1 h2
    · simp only [List.map_cons, List.mem_cons] at hx ⊢
      rcases hx with hx | hx
      · exact Or.inl hx
      · exact Or.inr (Or.inr hx)
    · simp only [List.map_cons, List.mem_cons] at hx ⊢
      rcases hx with hx | hx | hx
      · exact Or.inl hx
      · exact Or.inr (Or.inl hx)
      · exact Or.inr (Or.inr hx)
    · simp only [List.map_cons, List.mem_cons] at hx ⊢
      rcases hx with hx | hx
      · exact Or.inr (Or.inl hx)
      · rcases ih hx with h | h
        · exact Or.inl h
        · exact Or.inr (Or.inr h)

theorem mem_mapAssign (key : String) (value : α) (entries : List (String × α))
    (x : String × α) (hx : x ∈ mapAssign key value entries) :
    x = (key, value) ∨ x ∈ entries := by
  induction entries with
  | nil =>
    simp only [mapAssign, List.mem_singleton] at hx
    exact Or.inl hx
  | cons e rest ih =>
    obtain ⟨k, v⟩ := e
    unfold mapAssign at hx
    split_ifs at hx with h1 h2
    · simp only [List.mem_cons] at hx ⊢
      rcases hx with hx | hx
      · exact Or.inl hx
      · exact Or.inr (Or.inr hx)
    · simp only [List.mem_cons] at hx ⊢
      rcases hx with hx | hx | hx
      · exact Or.inl hx
      · exact Or.inr (Or.inl hx)
      · exact Or.inr (Or.inr hx)
    · simp only [List.mem_cons] at hx ⊢
      rcases hx with hx | hx
      · exact Or.inr (Or.inl hx)
      · rcases ih hx with h | h
        · exact Or.inl h
        · exact Or.inr (Or.inr h)

/-- An assignment keeps a map in key order. -/
theorem mapSorted_mapAssign (key : String) (value : α) (entries : List (String × α))
    (hs : mapSorted entries) : mapSorted (mapAssign key value entries) := by
  induction entries with
  | nil =>
    simp [mapSorted, keysSorted, mapAssign]
  | cons e rest ih =>
    obtain ⟨k, v⟩ := e
    have hs' : (∀ b ∈ rest.map Prod.fst, k < b) ∧ keysSorted (rest.map Prod.fst) := by
      have := hs
      unfold mapSorted at this
      rw [List.map_cons, keysSorted_cons] at this
      exact this
    unfold mapAssign
    split_ifs with h1 h2
    · unfold mapSorted
      rw [List.map_cons, keysSorted_cons]
      subst h1
      exact hs'
    · have hlt : key < k := String.lt_iff_toList_lt.2 h2
      unfold mapSorted
      rw [List.map_cons, keysSorted_cons, List.map_cons, keysSorted_cons]
      refine ⟨?_, hs'⟩
      intro b hb
      simp only [List.mem_cons] at hb
      rcases hb with hb | hb
      · subst hb; exact hlt
      · exact lt_trans hlt (hs'.1 b hb)
    · have hnlt : ¬ key < k := fun h => h2 (String.lt_iff_toList_lt.1 h)
      have hlt : k < key := by
        rcases lt_trichotomy key k with h | h | h
        · exact absurd h hnlt
        · exact absurd h h1
        · exact h
      unfold mapSorted
      rw [List.map_cons, keysSorted_cons]
      refine ⟨?_, ih hs'.2⟩
      intro b hb
      rcases mem_keys_mapAssign key value rest b hb with h | h
      · subst h; exact hlt
      · exact hs'.1 b h

theorem mapFind_map (f : α → β) (name : String) (entries : List (String × α)) :
    mapFind name (entries.map (fun item => (item.1, f item.2)))
      = (mapFind name entries).map f := by
  induction entries with
  | nil => rfl
  | cons e rest ih =>
    obtain ⟨k, v⟩ := e
    simp only [List.map_cons, mapFind]
    split_ifs with h
    · rfl
    · exact ih

theorem mapFind_of_mem (entries : List (String × α)) (hnodup : (entries.map Prod.fst).Nodup)
    (e : String × α) (he : e ∈ entries) : mapFind e.1 entries = some e.2 := by
  induction entries with
  | nil => simp at he
  | cons e0 rest ih =>
    obtain ⟨k, v⟩ := e0
    simp only [List.map_cons, List.nodup_cons] at hnodup
    simp only [List.mem_cons] at he
    rcases he with he | he
    · subst he
      simp [mapFind]
    · have hne : ¬ k = e.1 := by
        intro h
        apply hnodup.1
        rw [h]
        exact List.mem_map_of_mem Prod.fst he
      simp only [mapFind, hne, if_false]
      exact ih hnodup.2 he

end MapLemmas

theorem collectWaterfallBookmarks_some (lists : List (String × JsonList))
    (hcolors : colorsParse lists) : ∃ collected, collectWaterfallBookmarks lists = some collected := by
  induction lists with
  | nil => exact ⟨[], rfl⟩
  | cons e rest ih =>
    obtain ⟨listName, list⟩ := e
    obtain ⟨tail, htail⟩ := ih (fun item hitem => hcolors item (List.mem_cons_of_mem _ hitem))
    unfold collectWaterfallBookmarks
    by_cases hshow : list.showOnWaterfall = true
    · have hc := hcolors (listName, list) (List.mem_cons_self _ _) hshow
      obtain ⟨color, hcolor⟩ := Option.isSome_iff_exists.1 hc
      simp only [hshow, Bool.not_true, Bool.false_eq_true, if_false]
      simp only at hcolor
      rw [hcolor, htail]
      exact ⟨_, rfl⟩
    · simp only [Bool.not_eq_true] at hshow
      simp only [hshow, Bool.not_false, if_true]
      exact ⟨tail, htail⟩

theorem refreshWaterfallBookmarks_some (config : Config) (hcolors : colorsParse config.lists) :
    ∃ refreshed, refreshWaterfallBookmarks config = some refreshed := by
  obtain ⟨collected, hcollected⟩ := collectWaterfallBookmarks_some config.lists hcolors
  unfold refreshWaterfallBookmarks
  rw [hcollected]
  exact ⟨_, rfl⟩

/-- Rewriting the bookmarks of a list keeps the colours parseable. -/
theorem colorsParse_mapAssign (lists : List (String × JsonList)) (listName : String)
    (list : JsonList) (bookmarks : List (String × JsonBookmark))
    (hlist : mapFind listName lists = some list) (hcolors : colorsParse lists) :
    colorsParse (mapAssign listName { list with bookmarks := bookmarks } lists) := by
  intro item hitem hshow
  rcases mem_mapAssign _ _ _ item hitem with h | h
  · subst h
    exact hcolors (listName, list) (mem_of_mapFind hlist) hshow
  · exact hcolors item h hshow

/-- On a list of the configuration whose colours parse, `saveByName` returns: the module
changes in `waterfallBookmarks` and `sortSpecsDirty` only, the configuration in the
bookmarks of that list only. -/
theorem saveByName_some (m : BookmarkManagerModule) (config : Config) (listName : String)
    (list : JsonList) (hlist : mapFind listName config.lists = some list)
    (hcolors : colorsParse config.lists) :
    ∃ refreshed, saveByName m config listName
      = some ({ m with waterfallBookmarks := refreshed, sortSpecsDirty := true },
          { config with
            lists := mapAssign listName
              { list with
                bookmarks := m.bookmarks.foldl
                  (fun object item => mapAssign item.1 (toJsonBookmark item.2) object) [] }
              config.lists }) := by
  obtain ⟨refreshed, hrefreshed⟩ := refreshWaterfallBookmarks_some
    { config with
      lists := mapAssign listName
        { list with
          bookmarks := m.bookmarks.foldl
            (fun object item => mapAssign item.1 (toJsonBookmark item.2) object) [] }
        config.lists }
    (colorsParse_mapAssign config.lists listName list _ hlist hcolors)
  refine ⟨refreshed, ?_⟩
  unfold saveByName
  rw [hlist]
  simp only
  rw [hrefreshed]

/-- The bookmarks object `saveByName` writes from a map in key order. -/
theorem saveByName_object (bookmarks : List (String × FrequencyBookmark))
    (hmap : mapSorted bookmarks) :
    bookmarks.foldl (fun object item => mapAssign item.1 (toJsonBookmark item.2) object) []
      = bookmarks.map (fun item => (item.1, toJsonBookmark item.2)) := by
  have h := foldl_mapAssign_sorted toJsonBookmark bookmarks [] (by simpa using hmap)
  simpa using h

theorem importEntry_foldl (items : List (String × JsonBookmark)) :
    ∀ st : ImportState, (items.map Prod.fst).Nodup →
      (∀ name, mapFind name (items.foldl importEntry st).bookmarks
          = match mapFind name st.bookmarks with
            | some b => some b
            | none => (mapFind name items).map importRecord)
        ∧ (items.foldl importEntry st).imported_entries
          = st.imported_entries
            + (items.filter (fun item => (mapFind item.1 st.bookmarks).isNone)).length
        ∧ (items.foldl importEntry st).log
          = st.log ++ (items.filter (fun item => (mapFind item.1 st.bookmarks).isSome)).map
              (fun item =>
                LogLine.warn "Bookmark with the name '{0}' already exists in list, skipping"
                  item.1)
        ∧ (mapSorted st.bookmarks → mapSorted (items.foldl importEntry st).bookmarks) := by
  induction items with
  | nil =>
    intro st _
    refine ⟨?_, ?_, ?_, ?_⟩
    · intro name
      cases h : mapFind name st.bookmarks <;> simp [mapFind, h]
    · simp
    · simp
    · simp
  | cons e rest ih =>
    intro st hnodup
    simp only [List.map_cons, List.nodup_cons] at hnodup
    obtain ⟨h1, h2, h3, h4⟩ := ih (importEntry st e) hnodup.2
    simp only [List.foldl_cons]
    by_cases hfound : (mapFind e.1 st.bookmarks).isSome = true
    · have hst : importEntry st e
          = { st with
              log := st.log ++
                [LogLine.warn "Bookmark with the name '{0}' already exists in list, skipping"
                  e.1] } := by
        unfold importEntry
        rw [if_pos hfound]
      have hbm : (importEntry st e).bookmarks = st.bookmarks := by rw [hst]
      have hcnt : (importEntry st e).imported_entries = st.imported_entries := by rw [hst]
      have hlog : (importEntry st e).log = st.log ++
          [LogLine.warn "Bookmark with the name '{0}' already exists in list, skipping"
            e.1] := by rw [hst]
      have hnone : (mapFind e.1 st.bookmarks).isNone = false := by
        cases h : mapFind e.1 st.bookmarks
        · rw [h] at hfound; simp at hfound
        · rfl
      refine ⟨?_, ?_, ?_, ?_⟩
      · intro name
        rw [h1 name, hbm]
        cases hname : mapFind name st.bookmarks with
        | some b => rfl
        | none =>
          have hne : ¬ e.1 = name := by
            intro h
            rw [h, hname] at hfound
            simp at hfound
          obtain ⟨k, v⟩ := e
          simp only at hne
          simp only [mapFind, hne, if_false]
      · rw [h2, hbm, hcnt, List.filter_cons, hnone]
        simp
      · rw [h3, hbm, hlog, List.filter_cons, hfound]
        simp
      · intro hs
        apply h4
        rw [hbm]
        exact hs
    · have hst : importEntry st e
          = { st with
              bookmarks := mapAssign e.1 (importRecord e.2) st.bookmarks
              imported_entries := st.imported_entries + 1 } := by
        unfold importEntry
        rw [if_neg hfound]
      have hbm : (importEntry st e).bookmarks
          = mapAssign e.1 (importRecord e.2) st.bookmarks := by rw [hst]
      have hcnt : (importEntry st e).imported_entries = st.imported_entries + 1 := by rw [hst]
      have hlog : (importEntry st e).log = st.log := by rw [hst]
      have hnf : mapFind e.1 st.bookmarks = none := by
        cases h : mapFind e.1 st.bookmarks
        · rfl
        · rw [h] at hfound; simp at hfound
      have hrest : ∀ item ∈ rest,
          mapFind item.1 (mapAssign e.1 (importRecord e.2) st.bookmarks)
            = mapFind item.1 st.bookmarks := by
        intro item hitem
        apply mapFind_mapAssign_ne
        intro h
        apply hnodup.1
        rw [← h]
        exact List.mem_map_of_mem Prod.fst hitem
      refine ⟨?_, ?_, ?_, ?_⟩
      · intro name
        rw [h1 name, hbm]
        by_cases hname : name = e.1
        · subst hname
          rw [mapFind_mapAssign_self, hnf]
          obtain ⟨k, v⟩ := e
          simp [mapFind]
        · rw [mapFind_mapAssign_ne e.1 name _ _ hname]
          have hne : ¬ e.1 = name := fun h => hname h.symm
          obtain ⟨k, v⟩ := e
          simp only at hne
          simp only [mapFind, hne, if_false]
      · rw [h2, hbm, hcnt, List.filter_cons, hnf]
        have hfilter : rest.filter
            (fun item =>
              (mapFind item.1 (mapAssign e.1 (importRecord e.2) st.bookmarks)).isNone)
            = rest.filter (fun item => (mapFind item.1 st.bookmarks).isNone) := by
          apply List.filter_congr
          intro item hitem
          rw [hrest item hitem]
        rw [hfilter]
        simp only [Option.isNone_none, if_true, List.length_cons]
        omega
      · rw [h3, hbm, hlog, List.filter_cons, hnf]
        have hfilter : rest.filter
            (fun item =>
              (mapFind item.1 (mapAssign e.1 (importRecord e.2) st.bookmarks)).isSome)
            = rest.filter (fun item => (mapFind item.1 st.bookmarks).isSome) := by
          apply List.filter_congr
          intro item hitem
          rw [hrest item hitem]
        rw [hfilter]
        simp
      · intro hs
        apply h4
        rw [hbm]
        exact mapSorted_mapAssign _ _ _ hs

/-- C19. On a document without the member `bookmarks`, or whose `bookmarks` is not an
object, `importBookmarks` returns with the module (so the bookmarks of the active list) and
the configuration (so the persisted lists) exactly as they were, and logs one error. -/
theorem importBookmarks_malformed_no_change (m : BookmarkManagerModule) (config : Config)
    (document : JsonDocument)
    (hbad : document.bookmarks = none ∨ document.bookmarks = some JsonBookmarks.notObject) :
    ∃ r, importBookmarks m config document = some r
      ∧ r.mod = m
      ∧ r.mod.bookmarks = m.bookmarks
      ∧ r.config = config
      ∧ r.config.lists = config.lists
      ∧ ∃ text, r.log = [LogLine.error text] := by
  rcases hbad with h | h
  · refine ⟨{ mod := m, config := config
              log := [LogLine.error "File does not contains any bookmarks"] }, ?_,
      rfl, rfl, rfl, rfl, _, rfl⟩
    unfold importBookmarks
    rw [h]
  · refine ⟨{ mod := m, config := config
              log := [LogLine.error "Bookmark attribute is invalid"] }, ?_,
      rfl, rfl, rfl, rfl, _, rfl⟩
    unfold importBookmarks
    rw [h]

theorem importBookmarks_malformed_no_change_witness :
    ∃ r, importBookmarks sampleModuleInput sampleConfig
        { bookmarks := some JsonBookmarks.notObject } = some r
      ∧ r.mod = sampleModuleInput
      ∧ r.mod.bookmarks = sampleModuleInput.bookmarks
      ∧ r.config = sampleConfig
      ∧ r.config.lists = sampleConfig.lists
      ∧ ∃ text, r.log = [LogLine.error text] :=
  importBookmarks_malformed_no_change sampleModuleInput sampleConfig
    { bookmarks := some JsonBookmarks.notObject } (Or.inr rfl)

/-- C18. On a document whose `bookmarks` is an object, with the active list a list of the
configuration, `importBookmarks` returns; afterwards every name that was in the list has the
record it had before, also when the document has an entry of that name; every other name
has the record read from its document entry, or none when the document has no such entry;
the count logged is the number of document entries whose names were absent from the list,
after one warning for each entry that was skipped; the persisted bookmarks of the active
list are those of the map, and no other list changes. -/
theorem importBookmarks_adds_absent (m : BookmarkManagerModule) (config : Config)
    (document : JsonDocument) (items : List (String × JsonBookmark)) (list : JsonList)
    (hdoc : document.bookmarks = some (JsonBookmarks.object items))
    (hitems : mapSorted items) (hmap : mapSorted m.bookmarks)
    (hlist : mapFind m.selectedListName config.lists = some list)
    (hcolors : colorsParse config.lists) :
    ∃ r, importBookmarks m config document = some r
      ∧ (∀ name b, mapFind name m.bookmarks = some b → mapFind name r.mod.bookmarks = some b)
      ∧ (∀ name, mapFind name m.bookmarks = none →
          mapFind name r.mod.bookmarks = (mapFind name items).map importRecord)
      ∧ r.log
        = (items.filter (fun item => (mapFind item.1 m.bookmarks).isSome)).map
            (fun item =>
              LogLine.warn "Bookmark with the name '{0}' already exists in list, skipping"
                item.1)
          ++ [LogLine.info "Imported {0} entries"
              (items.filter (fun item => (mapFind item.1 m.bookmarks).isNone)).length]
      ∧ configBookmarks r.config m.selectedListName
        = r.mod.bookmarks.map (fun item => (item.1, toJsonBookmark item.2))
      ∧ (∀ other, other ≠ m.selectedListName →
          mapFind other r.config.lists = mapFind other config.lists) := by
  obtain ⟨h1, h2, h3, h4⟩ := importEntry_foldl items
    { bookmarks := m.bookmarks, imported_entries := 0, log := [] } (keysSorted_nodup hitems)
  obtain ⟨refreshed, hsave⟩ := saveByName_some
    { m with
      bookmarks := (items.foldl importEntry
        { bookmarks := m.bookmarks, imported_entries := 0, log := [] }).bookmarks }
    config m.selectedListName list hlist hcolors
  have himp : importBookmarks m config document = some
      { mod :=
          { m with
            bookmarks := (items.foldl importEntry
              { bookmarks := m.bookmarks, imported_entries := 0, log := [] }).bookmarks
            waterfallBookmarks := refreshed
            sortSpecsDirty := true }
        config :=
          { config with
            lists := mapAssign m.selectedListName
              { list with
                bookmarks := (items.foldl importEntry
                  { bookmarks := m.bookmarks, imported_entries := 0, log := [] }).bookmarks.foldl
                    (fun object item => mapAssign item.1 (toJsonBookmark item.2) object) [] }
              config.lists }
        log := (items.foldl importEntry
            { bookmarks := m.bookmarks, imported_entries := 0, log := [] }).log
          ++ [LogLine.info "Imported {0} entries"
              (items.foldl importEntry
                { bookmarks := m.bookmarks, imported_entries := 0, log := [] }).imported_entries] } := by
    unfold importBookmarks
    rw [hdoc]
    simp only
    rw [hsave]
  refine ⟨_, himp, ?_, ?_, ?_, ?_, ?_⟩
  · intro name b hb
    have h := h1 name
    simp only [hb] at h
    exact h
  · intro name hb
    have h := h1 name
    simp only [hb] at h
    exact h
  · show _ ++ _ = _
    rw [h3, h2]
    simp
  · show configBookmarks _ _ = _
    unfold configBookmarks
    simp only [mapFind_mapAssign_self]
    exact saveByName_object _ (h4 hmap)
  · intro other hother
    exact mapFind_mapAssign_ne _ _ _ _ hother

theorem importBookmarks_adds_absent_witness :
    ∃ r, importBookmarks sampleModuleInput sampleConfig sampleDocument = some r
      ∧ mapFind "a" r.mod.bookmarks = some (sampleRecord 100)
      ∧ mapFind "z" r.mod.bookmarks = some (sampleRecord 700)
      ∧ mapFind "q" r.mod.bookmarks = none
      ∧ r.log
        = [LogLine.warn "Bookmark with the name '{0}' already exists in list, skipping" "a",
            LogLine.info "Imported {0} entries" 1] := by
  obtain ⟨r, hr, hkeep, hadd, hlog, _, _⟩ :=
    importBookmarks_adds_absent sampleModuleInput sampleConfig sampleDocument
      [("a", sampleJson 999), ("z", { frequency := 700, bandwidth := 3000, mode := 5 })]
      sampleListGeneral rfl
      (by
        simp only [mapSorted, keysSorted, List.map_cons, List.map_nil]
        decide)
      (by
        simp only [mapSorted, keysSorted, sampleModuleInput, List.map_cons, List.map_nil]
        decide)
      rfl
      (by
        intro item hitem hshow
        simp only [sampleConfig, List.mem_cons, List.mem_singleton, List.not_mem_nil,
          or_false] at hitem
        rcases hitem with h | h
        · subst h; decide
        · subst h; simp [sampleListOther] at hshow)
  refine ⟨r, hr, hkeep "a" _ rfl, ?_, ?_, ?_⟩
  · rw [hadd "z" rfl]
    rfl
  · rw [hadd "q" rfl]
    rfl
  · rw [hlog]
    rfl

/-- The object the Export button builds from the names of a persisted object in key order
is that object. -/
theorem export_foldl (source entries : List (String × JsonBookmark)) :
    ∀ acc : List (String × JsonBookmark),
      (∀ e ∈ entries, mapFind e.1 source = some e.2) →
      keysSorted (acc.map Prod.fst ++ entries.map Prod.fst) →
      (entries.map Prod.fst).foldl
          (fun object name =>
            match mapFind name source with
            | some bm => mapAssign name bm object
            | none => object)
          acc
        = acc ++ entries := by
  induction entries with
  | nil => intro acc _ _; simp
  | cons e rest ih =>
    intro acc hfind hs
    have hall : ∀ x ∈ acc, x.1.toList < e.1.toList := by
      intro x hx
      unfold keysSorted at hs
      rw [List.pairwise_append] at hs
      exact hs.2.2 x.1 (List.mem_map_of_mem _ hx) e.1 (by simp)
    simp only [List.map_cons, List.foldl_cons]
    rw [hfind e (List.mem_cons_self _ _)]
    simp only
    rw [mapAssign_of_all_lt e.1 e.2 acc hall, ih]
    · simp
    · exact fun x hx => hfind x (List.mem_cons_of_mem _ hx)
    · simpa using hs

/-- The loop of `importBookmarks` over a document in key order whose names all follow the
names of the list: every entry is appended and counted, nothing is logged. -/
theorem importEntry_foldl_sorted (items : List (String × JsonBookmark)) :
    ∀ st : ImportState,
      keysSorted (st.bookmarks.map Prod.fst ++ items.map Prod.fst) →
      items.foldl importEntry st
        = { bookmarks := st.bookmarks ++ items.map (fun item => (item.1, importRecord item.2))
            imported_entries := st.imported_entries + items.length
            log := st.log } := by
  induction items with
  | nil => intro st _; simp
  | cons e rest ih =>
    intro st hs
    have hall : ∀ x ∈ st.bookmarks, x.1.toList < e.1.toList := by
      intro x hx
      unfold keysSorted at hs
      rw [List.pairwise_append] at hs
      exact hs.2.2 x.1 (List.mem_map_of_mem _ hx) e.1 (by simp)
    have hnf : mapFind e.1 st.bookmarks = none := by
      apply mapFind_of_not_mem_keys
      intro hmem
      obtain ⟨x, hx, hxe⟩ := List.mem_map.1 hmem
      have hlt := hall x hx
      rw [hxe] at hlt
      exact lt_irrefl e.1 (String.lt_iff_toList_lt.2 hlt)
    have hstep : importEntry st e
        = { bookmarks := st.bookmarks ++ [(e.1, importRecord e.2)]
            imported_entries := st.imported_entries + 1
            log := st.log } := by
      unfold importEntry
      rw [hnf, mapAssign_of_all_lt e.1 (importRecord e.2) st.bookmarks hall]
      simp
    simp only [List.foldl_cons]
    rw [hstep, ih]
    · simp only [List.map_cons, List.length_cons, List.append_assoc, List.singleton_append]
      congr 1
      omega
    · simpa using hs

/-- What `importBookmarks` returns on a document whose `bookmarks` is an object, with the
active list a list of the configuration: the bookmarks left by the loop. -/
theorem importBookmarks_object (m : BookmarkManagerModule) (config : Config)
    (document : JsonDocument) (items : List (String × JsonBookmark)) (list : JsonList)
    (hdoc : document.bookmarks = some (JsonBookmarks.object items))
    (hlist : mapFind m.selectedListName config.lists = some list)
    (hcolors : colorsParse config.lists) :
    ∃ r, importBookmarks m config document = some r
      ∧ r.mod.bookmarks = (items.foldl importEntry
          { bookmarks := m.bookmarks, imported_entries := 0, log := [] }).bookmarks := by
  obtain ⟨refreshed, hsave⟩ := saveByName_some
    { m with
      bookmarks := (items.foldl importEntry
        { bookmarks := m.bookmarks, imported_entries := 0, log := [] }).bookmarks }
    config m.selectedListName list hlist hcolors
  refine ⟨{ mod :=
              { m with
                bookmarks := (items.foldl importEntry
                  { bookmarks := m.bookmarks, imported_entries := 0, log := [] }).bookmarks
                waterfallBookmarks := refreshed
                sortSpecsDirty := true }
            config :=
              { config with
                lists := mapAssign m.selectedListName
                  { list with
                    bookmarks := (items.foldl importEntry
                      { bookmarks := m.bookmarks, imported_entries := 0,
                        log := [] }).bookmarks.foldl
                        (fun object item => mapAssign item.1 (toJsonBookmark item.2) object) [] }
                  config.lists }
            log := (items.foldl importEntry
                { bookmarks := m.bookmarks, imported_entries := 0, log := [] }).log
              ++ [LogLine.info "Imported {0} entries"
                  (items.foldl importEntry
                    { bookmarks := m.bookmarks, imported_entries := 0,
                      log := [] }).imported_entries] }, ?_, rfl⟩
  unfold importBookmarks
  rw [hdoc]
  simp only
  rw [hsave]

theorem importRecord_toJsonBookmark (bm : FrequencyBookmark) :
    importRecord (toJsonBookmark bm) = { bm with selected := false } := rfl

theorem exportSelected_of_names (m : BookmarkManagerModule) (config : Config)
    (hnames : selectedNames m ≠ []) :
    exportSelected m config
      = { bookmarks := some (JsonBookmarks.object
          ((selectedNames m).foldl
            (fun object name =>
              match mapFind name (configBookmarks config m.selectedListName) with
              | some bm => mapAssign name bm object
              | none => object)
            [])) } := by
  unfold exportSelected
  split
  · rename_i h
    exact absurd h hnames
  · rfl

theorem exportSelected_of_no_names (m : BookmarkManagerModule) (config : Config)
    (hnames : selectedNames m = []) : exportSelected m config = { bookmarks := none } := by
  unfold exportSelected
  rw [hnames]

/-- C20. Let the bookmarks of the active list, a map in key order, be saved by `saveByName`
into a list of the configuration. Let the Export button then be pressed with that list
active and every name of the map ticked, and let the exported document be imported by
`importBookmarks` into a module whose active list, a list of the configuration, holds no
bookmark. Then all three calls return and the importing module holds the same names in the
same order, each with the frequency, bandwidth, mode, startTime, endTime, days, geoinfo and
notes of the saved record and with `selected` false. -/
theorem export_import_round_trip (m u t : BookmarkManagerModule) (config : Config)
    (list targetList : JsonList)
    (hmap : mapSorted m.bookmarks)
    (hlist : mapFind m.selectedListName config.lists = some list)
    (hcolors : colorsParse config.lists)
    (hactive : u.selectedListName = m.selectedListName)
    (hticked : selectedNames u = m.bookmarks.map Prod.fst)
    (hempty : t.bookmarks = [])
    (htarget : mapFind t.selectedListName config.lists = some targetList) :
    ∃ saved r, saveByName m config m.selectedListName = some saved
      ∧ importBookmarks t saved.2 (exportSelected u saved.2) = some r
      ∧ r.mod.bookmarks
        = m.bookmarks.map (fun item => (item.1, { item.2 with selected := false })) := by
  obtain ⟨refreshed, hsave⟩ := saveByName_some m config m.selectedListName list hlist hcolors
  rw [saveByName_object m.bookmarks hmap] at hsave
  have hcb : configBookmarks
      { config with
        lists := mapAssign m.selectedListName
          { list with
            bookmarks := m.bookmarks.map (fun item => (item.1, toJsonBookmark item.2)) }
          config.lists }
      u.selectedListName
      = m.bookmarks.map (fun item => (item.1, toJsonBookmark item.2)) := by
    rw [hactive]
    unfold configBookmarks
    simp only [mapFind_mapAssign_self]
  have hcolors1 := colorsParse_mapAssign config.lists m.selectedListName list
    (m.bookmarks.map (fun item => (item.1, toJsonBookmark item.2))) hlist hcolors
  have htarget1 : ∃ l, mapFind t.selectedListName
      (mapAssign m.selectedListName
        { list with
          bookmarks := m.bookmarks.map (fun item => (item.1, toJsonBookmark item.2)) }
        config.lists) = some l := by
    by_cases h : t.selectedListName = m.selectedListName
    · rw [h, mapFind_mapAssign_self]
      exact ⟨_, rfl⟩
    · rw [mapFind_mapAssign_ne _ _ _ _ h]
      exact ⟨_, htarget⟩
  obtain ⟨l, hl⟩ := htarget1
  by_cases hnone : m.bookmarks = []
  · have hnames : selectedNames u = [] := by rw [hticked, hnone]; rfl
    refine ⟨_, { mod := t
                 config :=
                   { config with
                     lists := mapAssign m.selectedListName
                       { list with
                         bookmarks :=
                           m.bookmarks.map (fun item => (item.1, toJsonBookmark item.2)) }
                       config.lists }
                 log := [LogLine.error "File does not contains any bookmarks"] },
      hsave, ?_, ?_⟩
    · rw [exportSelected_of_no_names u _ hnames]
      rfl
    · show t.bookmarks = _
      rw [hempty, hnone]
      rfl
  · have hnames : selectedNames u ≠ [] := by
      rw [hticked]
      intro h
      exact hnone (List.map_eq_nil_iff.1 h)
    have hkeys : (m.bookmarks.map (fun item => (item.1, toJsonBookmark item.2))).map Prod.fst
        = m.bookmarks.map Prod.fst := by
      rw [List.map_map]
      rfl
    have hsorted : mapSorted (m.bookmarks.map (fun item => (item.1, toJsonBookmark item.2))) := by
      unfold mapSorted
      rw [hkeys]
      exact hmap
    have hobject := export_foldl
      (m.bookmarks.map (fun item => (item.1, toJsonBookmark item.2)))
      (m.bookmarks.map (fun item => (item.1, toJsonBookmark item.2))) []
      (fun e he => mapFind_of_mem _ (keysSorted_nodup hsorted) e he)
      (by
        rw [List.map_nil, List.nil_append]
        exact hsorted)
    rw [hkeys, ← hticked] at hobject
    have hdoc : (exportSelected u
        { config with
          lists := mapAssign m.selectedListName
            { list with
              bookmarks := m.bookmarks.map (fun item => (item.1, toJsonBookmark item.2)) }
            config.lists }).bookmarks
        = some (JsonBookmarks.object
            (m.bookmarks.map (fun item => (item.1, toJsonBookmark item.2)))) := by
      rw [exportSelected_of_names u _ hnames, hcb, hobject]
      rfl
    obtain ⟨r, hr, hbm⟩ := importBookmarks_object t
      { config with
        lists := mapAssign m.selectedListName
          { list with
            bookmarks := m.bookmarks.map (fun item => (item.1, toJsonBookmark item.2)) }
          config.lists }
      _ _ l hdoc hl hcolors1
    refine ⟨_, r, hsave, hr, ?_⟩
    rw [hbm, importEntry_foldl_sorted]
    · simp only [hempty, List.nil_append, List.map_map]
      rfl
    · simp only [hempty, List.map_nil, List.nil_append]
      exact hsorted

theorem export_import_round_trip_witness :
    ∃ saved r, saveByName sampleModuleInput sampleConfigEmpty "General" = some saved
      ∧ importBookmarks sampleModuleEmpty saved.2 (exportSelected sampleModuleTicked saved.2)
        = some r
      ∧ r.mod.bookmarks = [("a", sampleRecord 100), ("b", sampleRecord 300)] :=
  export_import_round_trip sampleModuleInput sampleModuleTicked sampleModuleEmpty
    sampleConfigEmpty sampleListGeneral { showOnWaterfall := false }
    (by
      simp only [mapSorted, keysSorted, sampleModuleInput, List.map_cons, List.map_nil]
      decide)
    rfl
    (by
      intro item hitem hshow
      simp only [sampleConfigEmpty, List.mem_cons, List.mem_singleton, List.not_mem_nil,
        or_false] at hitem
      rcases hitem with h | h
      · subst h; simp at hshow
      · subst h; decide)
    rfl rfl rfl rfl

/-! ## Record readers, overlap test, router states: claims -/

/-- C21. The three record readers, of `refreshWaterfallBookmarks`, `loadByName` and
`importBookmarks`, are total and produce the same record from the same JSON object: each
optional member that is absent takes its default, `startTime` 0, `endTime` 0, every day
true, `geoinfo` and `notes` empty, a present one its value; `frequency`, `bandwidth` and
`mode` are copied and `selected` is false. -/
theorem record_readers_agree (bm : JsonBookmark) :
    waterfallRecord bm = loadRecord bm
      ∧ importRecord bm = loadRecord bm
      ∧ (loadRecord bm).startTime = bm.startTime.getD 0
      ∧ (loadRecord bm).endTime = bm.endTime.getD 0
      ∧ (loadRecord bm).days = bm.days.getD (fun _ => true)
      ∧ (loadRecord bm).geoinfo = bm.geoinfo.getD ""
      ∧ (loadRecord bm).notes = bm.notes.getD ""
      ∧ (loadRecord bm).frequency = bm.frequency
      ∧ (loadRecord bm).bandwidth = bm.bandwidth
      ∧ (loadRecord bm).mode = bm.mode
      ∧ (loadRecord bm).selected = false
      ∧ loadRecord { frequency := bm.frequency, bandwidth := bm.bandwidth, mode := bm.mode }
        = { frequency := bm.frequency, bandwidth := bm.bandwidth, mode := bm.mode
            selected := false, startTime := 0, endTime := 0, days := fun _ => true
            notes := "", geoinfo := "" } := by
  refine ⟨rfl, rfl, ?_, ?_, ?_, ?_, ?_, rfl, rfl, rfl, rfl, rfl⟩
  · cases h : bm.startTime <;> simp [loadRecord, h]
  · cases h : bm.endTime <;> simp [loadRecord, h]
  · cases h : bm.days <;> simp [loadRecord, h]
  · cases h : bm.geoinfo <;> simp [loadRecord, h]
  · cases h : bm.notes <;> simp [loadRecord, h]

/-- C26. For a candidate span `[a, b]` and a recorded span `[c, d]`, both with their ends
in order, the overlap test of the layout is true iff the closed intervals meet, that is
`a ≤ d` and `c ≤ b`; so the test gives the same answer with the two spans exchanged, and
spans that share one end point overlap. -/
theorem overlaps_iff_intervals_meet (a b c d : ℚ) (row row2 : Nat) (hab : a ≤ b)
    (hcd : c ≤ d) :
    (overlaps a b { min := c, max := d, row := row } = true ↔ (a ≤ d ∧ c ≤ b))
      ∧ overlaps a b { min := c, max := d, row := row }
        = overlaps c d { min := a, max := b, row := row2 }
      ∧ (b = c → overlaps a b { min := c, max := d, row := row } = true)
      ∧ (d = a → overlaps a b { min := c, max := d, row := row } = true) := by
  have hiff : ∀ (p q r s : ℚ) (n : Nat), p ≤ q → r ≤ s →
      (overlaps p q { min := r, max := s, row := n } = true ↔ (p ≤ s ∧ r ≤ q)) := by
    intro p q r s n hpq hrs
    constructor
    · intro h
      exact @overlaps_eq_true_inter p q { min := r, max := s, row := n } hpq hrs h
    · intro h
      exact @overlaps_eq_true_of_inter p q { min := r, max := s, row := n } h.1 h.2
  refine ⟨hiff a b c d row hab hcd, ?_, ?_, ?_⟩
  · have h1 := hiff a b c d row hab hcd
    have h2 := hiff c d a b row2 hcd hab
    cases hx : overlaps a b { min := c, max := d, row := row } <;>
      cases hy : overlaps c d { min := a, max := b, row := row2 }
    · rfl
    · rw [hy] at h2
      rw [hx] at h1
      have := h2.1 rfl
      exact absurd (h1.2 ⟨this.2, this.1⟩) (by simp)
    · rw [hy] at h2
      rw [hx] at h1
      have := h1.1 rfl
      exact absurd (h2.2 ⟨this.2, this.1⟩) (by simp)
    · rfl
  · intro h
    refine (hiff a b c d row hab hcd).2 ⟨?_, ?_⟩ <;> linarith
  · intro h
    refine (hiff a b c d row hab hcd).2 ⟨?_, ?_⟩ <;> linarith

theorem overlaps_iff_intervals_meet_witness :
    (overlaps 0 10 { min := 10, max := 20, row := 0 } = true ↔ ((0 : ℚ) ≤ 20 ∧ (10 : ℚ) ≤ 10))
      ∧ overlaps 0 10 { min := 10, max := 20, row := 0 }
        = overlaps 10 20 { min := 0, max := 10, row := 1 }
      ∧ ((10 : ℚ) = 10 → overlaps 0 10 { min := 10, max := 20, row := 0 } = true)
      ∧ ((20 : ℚ) = 0 → overlaps 0 10 { min := 10, max := 20, row := 0 } = true) :=
  overlaps_iff_intervals_meet 0 10 10 20 0 1 (by norm_num) (by norm_num)

section RouterStates
variable (config : Config)

/-- A frame started with at most one router flag set ends with at most one set. -/
theorem fftInput_flags_inv (m : BookmarkManagerModule) (args : InputHandlerArgs)
    (io : PointerInput)
    (h : ¬ (m.mouseAlreadyDown = true ∧ m.mouseClickedInLabel = true)) :
    ¬ ((fftInput m config args io).mod.mouseAlreadyDown = true
      ∧ (fftInput m config args io).mod.mouseClickedInLabel = true) := by
  by_cases hmode : m.bookmarkDisplayMode = BOOKMARK_DISP_MODE_OFF
  · have hoff : (m.bookmarkDisplayMode == BOOKMARK_DISP_MODE_OFF) = true := by simpa using hmode
    simp only [fftInput, hoff, if_true]
    exact h
  · cases hc : m.mouseClickedInLabel
    · cases hhit : hitTest io.isMouseHoveringRect args.lowFreq args.highFreq
          m.waterfallBookmarks with
      | none =>
        rw [(fftInput_miss m config args io hmode hc hhit).2.2.2.2]
        cases io.isMouseDown <;> cases io.isMouseClicked <;> simp [hc]
      | some hb =>
        rw [fftInput_hit m config args io hmode hc hb hhit]
        split
        · exact h
        · rename_i hnot
          split
          · rw [(clickLabel_untouched _ config hb).2.1]
            cases hd : io.isMouseDown
            · simp
            · have ha : m.mouseAlreadyDown = false := by
                cases hm : m.mouseAlreadyDown
                · rfl
                · exact absurd ⟨hd, hm⟩ hnot
              simp [ha]
          · cases io.isMouseDown <;> simp [hc]
    · rw [fftInput_clicked m config args io hmode hc]
      cases io.isMouseDown
      · simp
      · exact h

/-- A frame with the button up, started with at most one router flag set and the display
mode not off, ends with both flags clear. -/
theorem fftInput_up_idle (m : BookmarkManagerModule) (args : InputHandlerArgs)
    (io : PointerInput)
    (h : ¬ (m.mouseAlreadyDown = true ∧ m.mouseClickedInLabel = true))
    (hmode : m.bookmarkDisplayMode ≠ BOOKMARK_DISP_MODE_OFF)
    (hup : io.isMouseDown = false) (hnoclick : io.isMouseClicked = false) :
    (fftInput m config args io).mod.mouseAlreadyDown = false
      ∧ (fftInput m config args io).mod.mouseClickedInLabel = false := by
  cases hc : m.mouseClickedInLabel
  · cases hhit : hitTest io.isMouseHoveringRect args.lowFreq args.highFreq
        m.waterfallBookmarks with
    | none =>
      rw [(fftInput_miss m config args io hmode hc hhit).2.2.2.2]
      simp [hup, hnoclick]
    | some hb =>
      rw [fftInput_hit m config args io hmode hc hb hhit]
      simp [hup, hnoclick]
  · rw [fftInput_clicked m config args io hmode hc]
    have ha : m.mouseAlreadyDown = false := by
      cases hm : m.mouseAlreadyDown
      · rfl
      · exact absurd ⟨hm, hc⟩ h
    simp [hup, ha]

/-- Every frame of a sequence starts and ends with at most one router flag set when the
sequence starts so. -/
theorem fftInputFrames_flags_inv (frames : List (InputHandlerArgs × PointerInput)) :
    ∀ (m : BookmarkManagerModule) (config : Config),
      ¬ (m.mouseAlreadyDown = true ∧ m.mouseClickedInLabel = true) →
      (∀ st ∈ fftInputStates m config frames,
          ¬ (st.1.mouseAlreadyDown = true ∧ st.1.mouseClickedInLabel = true))
        ∧ (∀ r ∈ fftInputFrames m config frames,
          ¬ (r.mod.mouseAlreadyDown = true ∧ r.mod.mouseClickedInLabel = true)) := by
  induction frames with
  | nil =>
    intro m config _
    simp [fftInputStates, fftInputFrames]
  | cons f rest ih =>
    intro m config h
    have hstep := fftInput_flags_inv config m f.1 f.2 h
    obtain ⟨ih1, ih2⟩ := ih (fftInput m config f.1 f.2).mod (fftInput m config f.1 f.2).config
      hstep
    constructor
    · intro st hst
      simp only [fftInputStates, List.mem_cons] at hst
      rcases hst with hst | hst
      · subst hst
        exact h
      · exact ih1 st hst
    · intro r hr
      simp only [fftInputFrames, List.mem_cons] at hr
      rcases hr with hr | hr
      · subst hr
        exact hstep
      · exact ih2 r hr

end RouterStates

/-- C27. Started with `mouseAlreadyDown` and `mouseClickedInLabel` not both set, as when
both are clear at the start of the module, after every frame of every sequence of `fftInput`
frames, whatever the pointer inputs, the two flags are not both set; and when the display
mode is not off, every frame in which the left button is up (so, by the toolkit, not clicked
either) ends with both flags clear. -/
theorem fftInput_router_three_states (m : BookmarkManagerModule) (config : Config)
    (frames : List (InputHandlerArgs × PointerInput))
    (h0 : ¬ (m.mouseAlreadyDown = true ∧ m.mouseClickedInLabel = true)) :
    (∀ r ∈ fftInputFrames m config frames,
        ¬ (r.mod.mouseAlreadyDown = true ∧ r.mod.mouseClickedInLabel = true))
      ∧ (m.bookmarkDisplayMode ≠ BOOKMARK_DISP_MODE_OFF →
        ∀ (k : Nat) (frame : InputHandlerArgs × PointerInput) (r : InputResult),
          frames[k]? = some frame → (fftInputFrames m config frames)[k]? = some r →
          frame.2.isMouseDown = false →
          (frame.2.isMouseClicked = true → frame.2.isMouseDown = true) →
          r.mod.mouseAlreadyDown = false ∧ r.mod.mouseClickedInLabel = false) := by
  obtain ⟨hstates, hframes⟩ := fftInputFrames_flags_inv frames m config h0
  refine ⟨hframes, ?_⟩
  intro hmode k frame r hk hr hup hclick
  obtain ⟨st, hst, hres, hstmode⟩ := fftInputFrames_at frames m config k frame hk
  rw [hres] at hr
  simp only [Option.some.injEq] at hr
  subst hr
  have hnoclick : frame.2.isMouseClicked = false := by
    cases hcl : frame.2.isMouseClicked
    · rfl
    · have := hclick hcl
      rw [hup] at this
      exact absurd this (by simp)
  have hmem : st ∈ fftInputStates m config frames := by
    obtain ⟨hlt, hget⟩ := List.getElem?_eq_some_iff.1 hst
    rw [← hget]
    exact List.getElem_mem _
  have hinv := hstates st hmem
  exact fftInput_up_idle st.2 st.1 frame.1 frame.2 hinv (by rw [hstmode]; exact hmode) hup
    hnoclick

theorem fftInput_router_three_states_witness :
    ¬ ((fftInput sampleModuleInput sampleConfig sampleInputArgs
          (samplePointer ⟨100, 5⟩ true true)).mod.mouseAlreadyDown = true
        ∧ (fftInput sampleModuleInput sampleConfig sampleInputArgs
          (samplePointer ⟨100, 5⟩ true true)).mod.mouseClickedInLabel = true)
      ∧ (fftInput
          (fftInput sampleModuleInput sampleConfig sampleInputArgs
            (samplePointer ⟨100, 5⟩ true true)).mod
          (fftInput sampleModuleInput sampleConfig sampleInputArgs
            (samplePointer ⟨100, 5⟩ true true)).config
          sampleInputArgs (samplePointer ⟨100, 5⟩ false false)).mod.mouseAlreadyDown = false
      ∧ (fftInput
          (fftInput sampleModuleInput sampleConfig sampleInputArgs
            (samplePointer ⟨100, 5⟩ true true)).mod
          (fftInput sampleModuleInput sampleConfig sampleInputArgs
            (samplePointer ⟨100, 5⟩ true true)).config
          sampleInputArgs (samplePointer ⟨100, 5⟩ false false)).mod.mouseClickedInLabel
        = false := by
  obtain ⟨hall, hup⟩ := fftInput_router_three_states sampleModuleInput sampleConfig
    [(sampleInputArgs, samplePointer ⟨100, 5⟩ true true),
      (sampleInputArgs, samplePointer ⟨100, 5⟩ false false)] (by decide)
  refine ⟨hall _ (by simp [fftInputFrames]), ?_⟩
  exact hup (by decide) 1 (sampleInputArgs, samplePointer ⟨100, 5⟩ false false) _ rfl rfl rfl
    (by simp [samplePointer])

/-! ## Refresh of the waterfall bookmarks: claims -/

theorem collectWaterfallBookmarks_eq (lists : List (String × JsonList))
    (hcolors : colorsParse lists) :
    collectWaterfallBookmarks lists = some (shownBookmarks lists) := by
  induction lists with
  | nil => rfl
  | cons e rest ih =>
    obtain ⟨listName, list⟩ := e
    have htail := ih (fun item hitem => hcolors item (List.mem_cons_of_mem _ hitem))
    unfold collectWaterfallBookmarks
    by_cases hshow : list.showOnWaterfall = true
    · have hc := hcolors (listName, list) (List.mem_cons_self _ _) hshow
      obtain ⟨color, hcolor⟩ := Option.isSome_iff_exists.1 hc
      simp only [hshow, Bool.not_true, Bool.false_eq_true, if_false]
      simp only at hcolor
      rw [hcolor, htail]
      simp only [shownBookmarks, List.filter_cons, hshow, if_true, List.flatMap_cons, hcolor,
        Option.getD_some]
      rfl
    · simp only [Bool.not_eq_true] at hshow
      simp only [hshow, Bool.not_false, if_true]
      rw [htail]
      simp only [shownBookmarks, List.filter_cons, hshow, Bool.false_eq_true, if_false]

theorem mem_shownBookmarks (lists : List (String × JsonList)) (w : WaterfallBookmark)
    (hw : w ∈ shownBookmarks lists) :
    w.bookmark.selected = false ∧ w.clampedRectMin = ⟨-1, -1⟩ ∧ w.clampedRectMax = ⟨-1, -1⟩
      ∧ ∃ list bm, (w.listName, list) ∈ lists ∧ list.showOnWaterfall = true
        ∧ w.color = (listColor list).getD (IM_COL32 255 255 0 255)
        ∧ (w.bookmarkName, bm) ∈ list.bookmarks ∧ w.bookmark = waterfallRecord bm := by
  simp only [shownBookmarks, List.mem_flatMap, List.mem_filter, List.mem_map] at hw
  obtain ⟨item, ⟨hitem, hshow⟩, entry, hentry, rfl⟩ := hw
  exact ⟨rfl, rfl, rfl, item.2, entry.2, hitem, hshow, rfl, hentry, rfl⟩

/-- C25. When the colours of the shown lists parse, `refreshWaterfallBookmarks` returns and
the new `waterfallBookmarks` is in ascending order of frequency and a permutation of the
bookmarks of the lists whose `showOnWaterfall` is true; every entry is not selected, has
both corners of its anchor rectangle at `(-1, -1)`, and carries the name and the colour of
a shown list of the configuration and the name and record of a bookmark of that list. -/
theorem refreshWaterfallBookmarks_sorted_perm (config : Config)
    (hcolors : colorsParse config.lists) :
    ∃ refreshed, refreshWaterfallBookmarks config = some refreshed
      ∧ refreshed.Sorted (fun a b => a.bookmark.frequency ≤ b.bookmark.frequency)
      ∧ refreshed.Perm (shownBookmarks config.lists)
      ∧ ∀ w ∈ refreshed,
        w.bookmark.selected = false ∧ w.clampedRectMin = ⟨-1, -1⟩
          ∧ w.clampedRectMax = ⟨-1, -1⟩
          ∧ ∃ list bm, (w.listName, list) ∈ config.lists ∧ list.showOnWaterfall = true
            ∧ listColor list = some w.color
            ∧ (w.bookmarkName, bm) ∈ list.bookmarks ∧ w.bookmark = waterfallRecord bm := by
  have hperm : (sortWaterfallBookmarks (shownBookmarks config.lists)).Perm
      (shownBookmarks config.lists) := List.perm_insertionSort _ _
  refine ⟨sortWaterfallBookmarks (shownBookmarks config.lists), ?_, ?_, hperm, ?_⟩
  · unfold refreshWaterfallBookmarks
    rw [collectWaterfallBookmarks_eq config.lists hcolors]
  · have htotal : IsTotal WaterfallBookmark
        (fun a b => a.bookmark.frequency ≤ b.bookmark.frequency) :=
      ⟨fun a b => le_total a.bookmark.frequency b.bookmark.frequency⟩
    have htrans : IsTrans WaterfallBookmark
        (fun a b => a.bookmark.frequency ≤ b.bookmark.frequency) :=
      ⟨fun _ _ _ hab hbc => le_trans hab hbc⟩
    exact List.sorted_insertionSort _ _
  · intro w hw
    obtain ⟨hsel, hmin, hmax, list, bm, hlist, hshow, hcolor, hbm, hrec⟩ :=
      mem_shownBookmarks config.lists w (hperm.subset hw)
    refine ⟨hsel, hmin, hmax, list, bm, hlist, hshow, ?_, hbm, hrec⟩
    obtain ⟨c, hc⟩ := Option.isSome_iff_exists.1 (hcolors (w.listName, list) hlist hshow)
    simp only at hc
    rw [hcolor, hc]
    rfl

theorem refreshWaterfallBookmarks_sorted_perm_witness :
    ∃ refreshed, refreshWaterfallBookmarks sampleConfig = some refreshed
      ∧ refreshed.Sorted (fun a b => a.bookmark.frequency ≤ b.bookmark.frequency)
      ∧ refreshed.Perm (shownBookmarks sampleConfig.lists)
      ∧ ∀ w ∈ refreshed,
        w.bookmark.selected = false ∧ w.clampedRectMin = ⟨-1, -1⟩
          ∧ w.clampedRectMax = ⟨-1, -1⟩
          ∧ ∃ list bm, (w.listName, list) ∈ sampleConfig.lists ∧ list.showOnWaterfall = true
            ∧ listColor list = some w.color
            ∧ (w.bookmarkName, bm) ∈ list.bookmarks ∧ w.bookmark = waterfallRecord bm :=
  refreshWaterfallBookmarks_sorted_perm sampleConfig
    (by
      intro item hitem hshow
      simp only [sampleConfig, List.mem_cons, List.mem_singleton, List.not_mem_nil,
        or_false] at hitem
      rcases hitem with h | h
      · subst h; decide
      · subst h; simp [sampleListOther] at hshow)

/-! ## Applying a bookmark: claims -/

/-- C24, as stated, fails: for the target "Radio", absent from the registry,
`applyBookmark` still issues the retune call with that name. -/
theorem applyBookmark_absent_target_retuned :
    applyBookmark { interfaceExists := fun _ => false, getModuleName := fun _ => "" }
        (sampleRecord 100) "Radio"
      = [TuningCall.tune "Radio" 100]
      ∧ applyBookmark { interfaceExists := fun _ => false, getModuleName := fun _ => "" }
        (sampleRecord 100) "Radio" ≠ [] := by
  have h : applyBookmark { interfaceExists := fun _ => false, getModuleName := fun _ => "" }
      (sampleRecord 100) "Radio" = [TuningCall.tune "Radio" 100] := rfl
  refine ⟨h, ?_⟩
  rw [h]
  exact List.cons_ne_nil _ _

/-- C24, amended. For every record and every non-empty target name: when the target is not
in the registry, or is there but not as a radio, `applyBookmark` makes exactly one call, the
retune request with the target name and the frequency of the record, and pushes neither
mode nor bandwidth; for a radio target of the registry it pushes mode, then bandwidth, then
makes the retune request; so mode and bandwidth are pushed only to an existing radio
target. -/
theorem applyBookmark_missing_target (modComManager : ModComManager) (bm : FrequencyBookmark)
    (vfoName : String) (hname : vfoName ≠ "") :
    ((modComManager.interfaceExists vfoName = false
        ∨ modComManager.getModuleName vfoName ≠ "radio") →
      applyBookmark modComManager bm vfoName = [TuningCall.tune vfoName bm.frequency])
      ∧ ((modComManager.interfaceExists vfoName = true
          ∧ modComManager.getModuleName vfoName = "radio") →
        applyBookmark modComManager bm vfoName
          = [TuningCall.setMode vfoName bm.mode, TuningCall.setBandwidth vfoName bm.bandwidth,
              TuningCall.tune vfoName bm.frequency])
      ∧ (∀ name mode, TuningCall.setMode name mode ∈ applyBookmark modComManager bm vfoName →
          name = vfoName ∧ modComManager.interfaceExists name = true
            ∧ modComManager.getModuleName name = "radio")
      ∧ (∀ name bandwidth,
          TuningCall.setBandwidth name bandwidth ∈ applyBookmark modComManager bm vfoName →
          name = vfoName ∧ modComManager.interfaceExists name = true
            ∧ modComManager.getModuleName name = "radio") := by
  have hne : (vfoName == "") = false := by simpa using hname
  have hmissing : (modComManager.interfaceExists vfoName = false
        ∨ modComManager.getModuleName vfoName ≠ "radio") →
      applyBookmark modComManager bm vfoName = [TuningCall.tune vfoName bm.frequency] := by
    intro h
    unfold applyBookmark
    rcases h with h | h
    · simp [hne, h]
    · have hr : (modComManager.getModuleName vfoName == "radio") = false := by simpa using h
      simp [hne, hr]
  have hradio : (modComManager.interfaceExists vfoName = true
        ∧ modComManager.getModuleName vfoName = "radio") →
      applyBookmark modComManager bm vfoName
        = [TuningCall.setMode vfoName bm.mode, TuningCall.setBandwidth vfoName bm.bandwidth,
            TuningCall.tune vfoName bm.frequency] := by
    intro h
    unfold applyBookmark
    simp [hne, h.1, h.2]
  refine ⟨hmissing, hradio, ?_, ?_⟩
  · intro name mode hmem
    by_cases h : modComManager.interfaceExists vfoName = true
        ∧ modComManager.getModuleName vfoName = "radio"
    · rw [hradio h] at hmem
      simp only [List.mem_cons, TuningCall.setMode.injEq, List.mem_singleton, reduceCtorEq,
        List.not_mem_nil, or_false] at hmem
      obtain ⟨hn, _⟩ := hmem
      subst hn
      exact ⟨rfl, h.1, h.2⟩
    · have h2 : modComManager.interfaceExists vfoName = false
          ∨ modComManager.getModuleName vfoName ≠ "radio" := by
        by_cases he : modComManager.interfaceExists vfoName = true
        · exact Or.inr (fun hr => h ⟨he, hr⟩)
        · exact Or.inl (by simpa using he)
      rw [hmissing h2] at hmem
      simp at hmem
  · intro name bandwidth hmem
    by_cases h : modComManager.interfaceExists vfoName = true
        ∧ modComManager.getModuleName vfoName = "radio"
    · rw [hradio h] at hmem
      simp only [List.mem_cons, TuningCall.setBandwidth.injEq, List.mem_singleton,
        reduceCtorEq, List.not_mem_nil, or_false, false_or] at hmem
      obtain ⟨hn, _⟩ := hmem
      subst hn
      exact ⟨rfl, h.1, h.2⟩
    · have h2 : modComManager.interfaceExists vfoName = false
          ∨ modComManager.getModuleName vfoName ≠ "radio" := by
        by_cases he : modComManager.interfaceExists vfoName = true
        · exact Or.inr (fun hr => h ⟨he, hr⟩)
        · exact Or.inl (by simpa using he)
      rw [hmissing h2] at hmem
      simp at hmem

theorem applyBookmark_missing_target_witness :
    applyBookmark { interfaceExists := fun name => name == "Radio"
                    getModuleName := fun _ => "recorder" }
        (sampleRecord 100) "Radio"
      = [TuningCall.tune "Radio" (sampleRecord 100).frequency] :=
  (applyBookmark_missing_target
    { interfaceExists := fun name => name == "Radio", getModuleName := fun _ => "recorder" }
    (sampleRecord 100) "Radio" (by decide)).1 (Or.inr (by decide))

/-! ## Deleting the active list -/

/-- C28 fails on the code. With the lists "General" and "Other" and the last one, "Other",
active and deleted, the refreshed `listNames` is `["General"]` while the clamped
`selectedListId` is 1, its length: the lookup `listNames[selectedListId]` that follows is
beyond the end. -/
theorem deleteListConfirmed_last_out_of_range :
    ∃ m2 c2, deleteListConfirmed sampleModuleLast sampleConfig = DeleteOutcome.outOfRange m2 c2
      ∧ m2.listNames = ["General"]
      ∧ m2.selectedListId = 1
      ∧ ¬ (m2.selectedListId < m2.listNames.length)
      ∧ m2.listNames[m2.selectedListId]? = none := by
  obtain ⟨refreshed, href⟩ := refreshWaterfallBookmarks_some
    { sampleConfig with lists := mapErase sampleModuleLast.selectedListName sampleConfig.lists }
    (by
      intro item hitem hshow
      have hitem2 : item = ("General", sampleListGeneral) := by
        simpa [sampleConfig, sampleModuleLast, mapErase] using hitem
      subst hitem2
      decide)
  refine ⟨{ refreshLists { sampleModuleLast with waterfallBookmarks := refreshed }
              { sampleConfig with
                lists := mapErase sampleModuleLast.selectedListName sampleConfig.lists } with
            selectedListId := 1 },
    { sampleConfig with lists := mapErase sampleModuleLast.selectedListName sampleConfig.lists },
    ?_, rfl, rfl, Nat.lt_irrefl 1, rfl⟩
  unfold deleteListConfirmed
  simp only [href]
  rfl

/-! ## Bookmark dialog -/

/-- A click on an enabled Apply of the bookmark dialog, with the active list a list of the
configuration: the dialog closes and the edited record is stored under the edited name,
after the original name was erased when editing. -/
theorem bookmarkEditDialog_apply (m : BookmarkManagerModule) (d : BookmarkManagerDialogs)
    (config : Config) (input : EditDialogInput) (list : JsonList)
    (happly : input.apply = true) (henabled : applyDisabled m (editFields d input) = false)
    (hlist : mapFind m.selectedListName config.lists = some list)
    (hcolors : colorsParse config.lists) :
    ∃ r, bookmarkEditDialog m d config input = some r
      ∧ r.isOpen = false
      ∧ r.dialogs = editFields d input
      ∧ r.mod.bookmarks
        = mapAssign (editFields d input).editedBookmarkName (editFields d input).editedBookmark
          (if (editFields d input).editOpen then
            mapErase (editFields d input).firstEditedBookmarkName m.bookmarks
          else m.bookmarks) := by
  obtain ⟨refreshed, hsave⟩ := saveByName_some
    { m with
      bookmarks := mapAssign (editFields d input).editedBookmarkName
        (editFields d input).editedBookmark
        (if (editFields d input).editOpen then
          mapErase (editFields d input).firstEditedBookmarkName m.bookmarks
        else m.bookmarks) }
    config m.selectedListName list hlist hcolors
  have hdialog : bookmarkEditDialog m d config input
      = (match saveByName
          { m with
            bookmarks := mapAssign (editFields d input).editedBookmarkName
              (editFields d input).editedBookmark
              (if (editFields d input).editOpen then
                mapErase (editFields d input).firstEditedBookmarkName m.bookmarks
              else m.bookmarks) }
          config m.selectedListName with
        | none => none
        | some saved =>
          some { isOpen := false, mod := saved.1, dialogs := editFields d input
                 config := saved.2 }) := by
    unfold bookmarkEditDialog
    simp only [happly, henabled, Bool.not_false, Bool.and_self, if_true]
  rw [hdialog, hsave]
  exact ⟨_, rfl, rfl, rfl, rfl⟩

/-- C22 fails on the code. In the sample module the bookmark "b" is selected; Edit is
clicked and the dialog is cancelled; Add is clicked and the name "b" is typed. The dialog is
open in create mode and "b" is a key of the active list, yet `applyDisabled` is false, and
a click on Apply replaces the record of "b", frequency 300, by the new record, frequency
7000. -/
theorem bookmarkEditDialog_create_replaces :
    ∃ cancelled created,
      editDialogFrame sampleModuleInput (editButton sampleModuleInput sampleDialogs)
          sampleConfig { cancel := true } = some cancelled
        ∧ cancelled.mod.bookmarks = sampleModuleInput.bookmarks
        ∧ cancelled.dialogs.editOpen = false
        ∧ (addButton cancelled.mod cancelled.dialogs sampleAddInput).createOpen = true
        ∧ (mapFind "b" cancelled.mod.bookmarks).isSome = true
        ∧ applyDisabled cancelled.mod
            (editFields (addButton cancelled.mod cancelled.dialogs sampleAddInput)
              { name := some "b" }) = false
        ∧ createDialogFrame cancelled.mod
            (addButton cancelled.mod cancelled.dialogs sampleAddInput) cancelled.config
            { name := some "b", apply := true } = some created
        ∧ (mapFind "b" cancelled.mod.bookmarks).map (fun bm => bm.frequency) = some 300
        ∧ (mapFind "b" created.mod.bookmarks).map (fun bm => bm.frequency) = some 7000 := by
  have hdisabled : applyDisabled sampleModuleInput
      (editFields
        (addButton sampleModuleInput
          { editButton sampleModuleInput sampleDialogs with editOpen := false } sampleAddInput)
        { name := some "b", apply := true }) = false := by decide
  obtain ⟨r, hr, hopen, hdialogs, hbookmarks⟩ := bookmarkEditDialog_apply sampleModuleInput
    (addButton sampleModuleInput
      { editButton sampleModuleInput sampleDialogs with editOpen := false } sampleAddInput)
    sampleConfig { name := some "b", apply := true } sampleListGeneral rfl hdisabled rfl
    (by
      intro item hitem hshow
      simp only [sampleConfig, List.mem_cons, List.mem_singleton, List.not_mem_nil,
        or_false] at hitem
      rcases hitem with h | h
      · subst h; decide
      · subst h; simp [sampleListOther] at hshow)
  refine ⟨{ isOpen := false, mod := sampleModuleInput
            dialogs := { editButton sampleModuleInput sampleDialogs with editOpen := false }
            config := sampleConfig },
    { r with dialogs := { r.dialogs with createOpen := r.isOpen } },
    rfl, rfl, rfl, rfl, rfl, by decide, ?_, rfl, ?_⟩
  · have hcreate : (addButton sampleModuleInput
        { editButton sampleModuleInput sampleDialogs with editOpen := false }
        sampleAddInput).createOpen = true := rfl
    simp only [createDialogFrame, hcreate, if_true]
    rw [hr]
  · show (mapFind "b" r.mod.bookmarks).map (fun bm => bm.frequency) = some 7000
    rw [hbookmarks]
    rfl

/-! ## List dialog -/

theorem mapAssign_mapAssign {α : Type} (key : String) (v w : α)
    (entries : List (String × α)) :
    mapAssign key v (mapAssign key w entries) = mapAssign key v entries := by
  induction entries with
  | nil => simp [mapAssign]
  | cons e rest ih =>
    obtain ⟨k, x⟩ := e
    by_cases h1 : key = k
    · simp only [mapAssign, h1, if_true]
    · by_cases h2 : key.toList < k.toList
      · simp only [mapAssign, h1, h2, if_true, if_false]
      · simp only [mapAssign, h1, h2, if_false, ih]

/-- The list a creation leaves under the edited name, before the colour is written. -/
theorem appliedLists_create (d : BookmarkManagerDialogs) (lists : List (String × JsonList))
    (hnew : d.renameListOpen = false) :
    appliedLists d lists
      = some (mapAssign d.editedListName
          (match mapFind d.editedListName lists with
            | some list => { list with showOnWaterfall := true, bookmarks := [] }
            | none => { showOnWaterfall := true, bookmarks := [] })
          lists) := by
  unfold appliedLists
  simp only [hnew, Bool.false_eq_true, if_false]

/-- A click on an enabled Apply of the list dialog in creation mode, when the colours of the
configuration and the colour written parse: the dialog closes and the list of the edited
name has no bookmark in the configuration. -/
theorem newListDialog_create (m : BookmarkManagerModule) (d : BookmarkManagerDialogs)
    (config : Config) (input : ListDialogInput)
    (hnew : (editListFields d input).renameListOpen = false)
    (happly : input.apply = true)
    (hname : ((editListFields d input).editedListName.length == 0) = false)
    (hexists : alreadyExists m (editListFields d input) = false)
    (hcolors : colorsParse config.lists)
    (hfmt : (hexStrToColor (formatColor (editListFields d input).editedListColor)).isSome
      = true) :
    ∃ r, newListDialog m d config input = some r
      ∧ r.isOpen = false
      ∧ r.dialogs = editListFields d input
      ∧ configBookmarks r.config (editListFields d input).editedListName = [] := by
  have hwritten : colorsParse
      (mapAssign (editListFields d input).editedListName
        { (match mapFind (editListFields d input).editedListName config.lists with
            | some list => { list with showOnWaterfall := true, bookmarks := [] }
            | none => { showOnWaterfall := true, bookmarks := [] }) with
          color := some (formatColor (editListFields d input).editedListColor) }
        (mapAssign (editListFields d input).editedListName
          (match mapFind (editListFields d input).editedListName config.lists with
            | some list => { list with showOnWaterfall := true, bookmarks := [] }
            | none => { showOnWaterfall := true, bookmarks := [] })
          config.lists)) := by
    rw [mapAssign_mapAssign]
    intro item hitem hshow
    rcases mem_mapAssign _ _ _ item hitem with h | h
    · subst h
      exact hfmt
    · exact hcolors item h hshow
  obtain ⟨refreshed, href⟩ := refreshWaterfallBookmarks_some
    { config with
      lists := mapAssign (editListFields d input).editedListName
        { (match mapFind (editListFields d input).editedListName config.lists with
            | some list => { list with showOnWaterfall := true, bookmarks := [] }
            | none => { showOnWaterfall := true, bookmarks := [] }) with
          color := some (formatColor (editListFields d input).editedListColor) }
        (mapAssign (editListFields d input).editedListName
          (match mapFind (editListFields d input).editedListName config.lists with
            | some list => { list with showOnWaterfall := true, bookmarks := [] }
            | none => { showOnWaterfall := true, bookmarks := [] })
          config.lists) }
    hwritten
  have hdialog : newListDialog m d config input
      = some { isOpen := false
               mod := loadByName
                 (refreshLists { m with waterfallBookmarks := refreshed }
                   { config with
                     lists := mapAssign (editListFields d input).editedListName
                       { (match mapFind (editListFields d input).editedListName config.lists with
                           | some list => { list with showOnWaterfall := true, bookmarks := [] }
                           | none => { showOnWaterfall := true, bookmarks := [] }) with
                         color := some (formatColor (editListFields d input).editedListColor) }
                       (mapAssign (editListFields d input).editedListName
                         (match mapFind (editListFields d input).editedListName
                             config.lists with
                           | some list => { list with showOnWaterfall := true, bookmarks := [] }
                           | none => { showOnWaterfall := true, bookmarks := [] })
                         config.lists) })
                 { config with
                   lists := mapAssign (editListFields d input).editedListName
                     { (match mapFind (editListFields d input).editedListName config.lists with
                         | some list => { list with showOnWaterfall := true, bookmarks := [] }
                         | none => { showOnWaterfall := true, bookmarks := [] }) with
                       color := some (formatColor (editListFields d input).editedListColor) }
                     (mapAssign (editListFields d input).editedListName
                       (match mapFind (editListFields d input).editedListName config.lists with
                         | some list => { list with showOnWaterfall := true, bookmarks := [] }
                         | none => { showOnWaterfall := true, bookmarks := [] })
                       config.lists) }
                 (editListFields d input).editedListName
               dialogs := editListFields d input
               config :=
                 { config with
                   lists := mapAssign (editListFields d input).editedListName
                     { (match mapFind (editListFields d input).editedListName config.lists with
                         | some list => { list with showOnWaterfall := true, bookmarks := [] }
                         | none => { showOnWaterfall := true, bookmarks := [] }) with
                       color := some (formatColor (editListFields d input).editedListColor) }
                     (mapAssign (editListFields d input).editedListName
                       (match mapFind (editListFields d input).editedListName config.lists with
                         | some list => { list with showOnWaterfall := true, bookmarks := [] }
                         | none => { showOnWaterfall := true, bookmarks := [] })
                       config.lists) } } := by
    unfold newListDialog
    simp only [happly, hname, hexists, Bool.or_self, Bool.not_false, Bool.and_self, if_true,
      appliedLists_create _ _ hnew, mapFind_mapAssign_self]
    rw [href]
  refine ⟨_, hdialog, rfl, rfl, ?_⟩
  show configBookmarks _ _ = []
  unfold configBookmarks
  simp only [mapFind_mapAssign_self]
  cases mapFind (editListFields d input).editedListName config.lists <;> rfl

/-- C23 fails on the code. In the sample module the list "General" is active; Rename is
clicked and the dialog is cancelled; `+` is clicked and the name "General" is typed. The
dialog is open in new-list mode and "General" is in `listNames`, yet `alreadyExists` is
false, and a click on Apply leaves the list "General", which held the bookmarks "a" and "b",
without bookmarks in the configuration. -/
theorem newListDialog_create_resets :
    ∃ renamed cancelled created,
      renameButton sampleModuleGeneral sampleDialogs sampleConfig = some renamed
        ∧ renameListFrame sampleModuleGeneral renamed sampleConfig { cancel := true }
          = some cancelled
        ∧ cancelled.dialogs.renameListOpen = false
        ∧ cancelled.mod.listNames = ["General", "Other"]
        ∧ (configBookmarks cancelled.config "General").map Prod.fst = ["a", "b"]
        ∧ (newListButton cancelled.mod cancelled.dialogs).newListOpen = true
        ∧ alreadyExists cancelled.mod
            (editListFields (newListButton cancelled.mod cancelled.dialogs)
              { name := some "General" }) = false
        ∧ newListFrame cancelled.mod (newListButton cancelled.mod cancelled.dialogs)
            cancelled.config { name := some "General", apply := true } = some created
        ∧ configBookmarks created.config "General" = [] := by
  have hfmt : formatColor ⟨1, 1, 0, 1⟩ = "#FFFF00" := by
    have h1 : toInt (round ((1 : ℚ) * 255)) = 255 := by norm_num [toInt, round]
    have h0 : toInt (round ((0 : ℚ) * 255)) = 0 := by norm_num [toInt, round]
    simp only [formatColor, h1, h0]
    decide
  obtain ⟨r, hr, hopen, hdialogs, hbookmarks⟩ := newListDialog_create sampleModuleGeneral
    (newListButton sampleModuleGeneral
      { sampleDialogs with
        firstEditedListName := "General"
        editedListName := "General"
        renameListOpen := false
        editedListColor := color32ToVec4 (IM_COL32 255 255 0 255) })
    sampleConfig { name := some "General", apply := true } rfl rfl (by decide) (by decide)
    (by
      intro item hitem hshow
      simp only [sampleConfig, List.mem_cons, List.mem_singleton, List.not_mem_nil,
        or_false] at hitem
      rcases hitem with h | h
      · subst h; decide
      · subst h; simp [sampleListOther] at hshow)
    (by
      show (hexStrToColor (formatColor ⟨1, 1, 0, 1⟩)).isSome = true
      rw [hfmt]
      decide)
  refine ⟨{ sampleDialogs with
            firstEditedListName := "General"
            editedListName := "General"
            renameListOpen := true
            editedListColor := color32ToVec4 (IM_COL32 255 255 0 255) },
    { isOpen := false, mod := sampleModuleGeneral
      dialogs :=
        { sampleDialogs with
          firstEditedListName := "General"
          editedListName := "General"
          renameListOpen := false
          editedListColor := color32ToVec4 (IM_COL32 255 255 0 255) }
      config := sampleConfig },
    { r with dialogs := { r.dialogs with newListOpen := r.isOpen } },
    rfl, rfl, rfl, rfl, rfl, rfl, by decide, ?_, hbookmarks⟩
  have hnew : (newListButton sampleModuleGeneral
      { sampleDialogs with
        firstEditedListName := "General"
        editedListName := "General"
        renameListOpen := false
        editedListColor := color32ToVec4 (IM_COL32 255 255 0 255) }).newListOpen = true := rfl
  simp only [newListFrame, hnew, if_true]
  rw [hr]

/-! ## Vertical placement in `float` arithmetic: rounding -/

section FloatLayout
variable (m : BookmarkManagerModule) (args : FFTRedrawArgs) (calcTextSize : String → ImVec2)

end FloatLayout

section FloatLoop
variable (m : BookmarkManagerModule) (args : FFTRedrawArgs) (calcTextSize : String → ImVec2)

end FloatLoop

/-! ## Vertical placement in `float` arithmetic: a frame where the modes differ -/

/-- Where the `float` operations of the vertical placement are exact, `labelRectFloat` is
`labelRect`. -/
theorem labelRectFloat_eq_labelRect (mode : Int) (args : FFTRedrawArgs) (nameSize : ImVec2)
    (a b : ℚ) (row : Nat)
    (e1 : float32 (nameSize.y * row) = nameSize.y * row)
    (e2 : float32 (args.min.y + nameSize.y * row) = args.min.y + nameSize.y * row)
    (e3 : float32 (args.min.y + nameSize.y) = args.min.y + nameSize.y)
    (e4 : float32 (args.min.y + nameSize.y + nameSize.y * row)
      = args.min.y + nameSize.y + nameSize.y * row)
    (e5 : float32 (args.max.y - nameSize.y) = args.max.y - nameSize.y)
    (e6 : float32 (args.max.y - nameSize.y - nameSize.y * row)
      = args.max.y - nameSize.y - nameSize.y * row)
    (e7 : float32 (args.max.y - nameSize.y * row) = args.max.y - nameSize.y * row) :
    labelRectFloat mode args nameSize a b row = labelRect mode args nameSize a b row := by
  simp only [labelRectFloat, labelRect, e1, e2, e3, e4, e5, e6, e7]

end BookmarkManager
